import Mathlib

/-!
# Space Invaders: the simulation core, embedded in Lean

A shallow embedding of `GameObjects.h`, `Config.h`, `GameEngine.h` and
`GameEngine.cpp`.

Conventions of the embedding:

* `float` and `double` values are rationals (`ℚ`). The operations are embedded twice:
  with exact arithmetic (`GameObject`, `BoundingBox`, `GameEngine`), and, in the
  namespace `Rounded`, with every arithmetic result rounded to the format of its C++
  type (`float32`, `float64`: round to nearest, ties to even). Overflow to infinity
  and NaN are not modelled. A property is about the embedding whose operations it
  names (`GameEngine.update` is exact, `Rounded.update` rounds).
* `int` values are unbounded (`Int`); overflow is not modelled.
* `std::array<T, N>` is a `List` whose length stays `N`.
* The stopwatch, the keyboard and the random generator are inputs of the
  operations that read them.
* The file `spaceinvaders.hscore` is the field `hscoreFile` of the engine state.
* The constants of `Engine.h` (a header outside the sources at hand) are the
  fields of the structure `Engine`, a parameter of every operation that uses one.
* Drawing (`draw*`) does not change the simulation state and is left out, together
  with the frame counters only it uses.
-/

namespace SpaceInvaders

/-! ## Engine.h and Config.h -/

/-- Constants of `Engine.h`: integral pixel sizes, taken as parameters. -/
structure Engine where
  SpriteSize : Nat
  CanvasWidth : Nat
  CanvasHeight : Nat
  FontRowHeight : Nat
deriving DecidableEq, Repr

/-- Keyboard snapshot returned by `Engine::getPlayerInput`. -/
structure PlayerInput where
  left : Bool := false
  right : Bool := false
  fire : Bool := false
deriving DecidableEq, Repr

namespace Config

abbrev MAX_ROCKET_COUNT : Nat := 10
abbrev MAX_BOMB_COUNT : Nat := 10
abbrev ENEMY_COUNT : Nat := 50
abbrev ENEMY_ROWS : Nat := 5
abbrev ENEMY_COLS : Nat := ENEMY_COUNT / ENEMY_ROWS
abbrev PLAYER_HEALTH : Int := 3
def TIME_BETWEEN_SHOTS : ℚ := 1 / 4
def TIME_BETWEEN_BOMBS : ℚ := 7 / 20

end Config

/-- The value `std::numeric_limits<float>::max()`. -/
def FLT_MAX : ℚ := 2 ^ 128 - 2 ^ 104

/-- The value `std::numeric_limits<float>::min()`: the smallest positive normal float. -/
def FLT_MIN : ℚ := 1 / 2 ^ 126

/-- The conversion `int(f)` of a float: truncation toward zero. -/
def truncToInt (q : ℚ) : Int := if 0 ≤ q then ⌊q⌋ else ⌈q⌉

/-! ## GameObjects.h -/

structure Position where
  _x : ℚ := 0
  _y : ℚ := 0
deriving DecidableEq, Repr

structure GameObject where
  _pos : Position := {}
  _health : Int := 0
deriving DecidableEq, Repr

namespace GameObject

def setPosition (o : GameObject) (pos : Position) : GameObject := { o with _pos := pos }

def getPosition (o : GameObject) : Position := o._pos

def setPositionX (o : GameObject) (posX : ℚ) : GameObject :=
  { o with _pos := { o._pos with _x := posX } }

def setPositionY (o : GameObject) (posY : ℚ) : GameObject :=
  { o with _pos := { o._pos with _y := posY } }

def setHealth (o : GameObject) (health : Int) : GameObject := { o with _health := health }

def destroy (o : GameObject) : GameObject := o.setHealth 0

def hit (o : GameObject) : GameObject := { o with _health := o._health - 1 }

def isAlive (o : GameObject) : Bool := decide (o._health > 0)

def getHealth (o : GameObject) : Int := o._health

/-- The test `sqrt(dx * dx + dy * dy) <= radius`, with the square root removed:
for `radius < 0` it is false, otherwise both sides are squared. -/
def intersectsWith (a o : GameObject) (radius : ℚ) : Bool :=
  let dx := a._pos._x - o._pos._x
  let dy := a._pos._y - o._pos._y
  decide (0 ≤ radius ∧ dx * dx + dy * dy ≤ radius * radius)

end GameObject

/-- The default radius `Engine::SpriteSize / 2` (integer division) of `intersectsWith`. -/
def halfSprite (E : Engine) : ℚ := ((E.SpriteSize / 2 : Nat) : ℚ)

/-! ## GameEngine.h -/

inductive GAMESTATE where
  | WELCOME | WELCOME_3 | WELCOME_2 | WELCOME_1 | GO | PLAY | GAMEOVER | TRYAGAIN
deriving DecidableEq, Repr

inductive RESET where
  | BUT_NOT_THE_PLAYER | ALSO_PLAYER_POSITION
deriving DecidableEq, Repr

inductive ENEMY_DIRECTION where
  | LEFT | RIGHT
deriving DecidableEq, Repr

structure BoundingBox where
  left : ℚ := 0
  top : ℚ := 0
  right : ℚ := 0
  bottom : ℚ := 0
deriving DecidableEq, Repr

namespace BoundingBox

def intersectsWith (b : BoundingBox) (o : GameObject) : Bool :=
  let pos := o.getPosition
  decide (pos._x ≥ b.left ∧ pos._x ≤ b.right ∧ pos._y ≥ b.top ∧ pos._y ≤ b.bottom)

def moveBy (b : BoundingBox) (pos : Position) : BoundingBox :=
  { left := b.left + pos._x
    top := b.top + pos._y
    right := b.right + pos._x
    bottom := b.bottom + pos._y }

end BoundingBox

/-- Local variables of the loop of `getBoundingBoxOf`, with their initial values. -/
structure BboxScan where
  atLeastOneEnemyAlive : Bool := false
  left : ℚ := FLT_MAX
  top : ℚ := FLT_MAX
  right : ℚ := FLT_MIN
  bottom : ℚ := FLT_MIN
deriving DecidableEq, Repr

/-- One iteration of the loop of `getBoundingBoxOf`. -/
def bboxScanStep (acc : BboxScan) (o : GameObject) : BboxScan :=
  if !o.isAlive then acc
  else
    let pos := o.getPosition
    { atLeastOneEnemyAlive := true
      left := if pos._x < acc.left then pos._x else acc.left
      top := if pos._y < acc.top then pos._y else acc.top
      right := if pos._x > acc.right then pos._x else acc.right
      bottom := if pos._y > acc.bottom then pos._y else acc.bottom }

def getBoundingBoxOf (E : Engine) (arr : List GameObject) : BoundingBox :=
  let acc := arr.foldl bboxScanStep {}
  if acc.atLeastOneEnemyAlive then
    { left := acc.left - halfSprite E
      top := acc.top - halfSprite E
      right := acc.right + halfSprite E
      bottom := acc.bottom + halfSprite E }
  else {}

/-- Contents of the file `spaceinvaders.hscore`: the two integers written to it. -/
structure HscoreFile where
  fileversion : Int
  score : Int
deriving DecidableEq, Repr

structure Highscore where
  _currentScore : Int := 0
  _oldHighscore : Int := 0
deriving DecidableEq, Repr

namespace Highscore

def _fileversion : Int := 1

def finishScore (h : Highscore) : Highscore :=
  { _oldHighscore := if h._currentScore > h._oldHighscore then h._currentScore else h._oldHighscore
    _currentScore := 0 }

def addScore (h : Highscore) : Highscore := { h with _currentScore := h._currentScore + 1 }

def getCurrentScore (h : Highscore) : Int := h._currentScore

def getHighscore (h : Highscore) : Int := h._oldHighscore

/-- The file contents that `writeToDisk` leaves behind. -/
def writeToDisk (h : Highscore) : HscoreFile :=
  { fileversion := _fileversion
    score := if h._currentScore > h._oldHighscore then h._currentScore else h._oldHighscore }

/-- Reading the file; `none` is a missing file, whose read leaves `fileversion` at 0. -/
def readFromDisk (h : Highscore) (file : Option HscoreFile) : Highscore :=
  match file with
  | none => h
  | some f => if f.fileversion = 1 then { h with _oldHighscore := f.score } else h

end Highscore

/-- The simulation state of `class GameEngine`, the highscore file and the number
of values drawn so far from the random generator. -/
structure GameEngine where
  _gamestate : GAMESTATE := GAMESTATE.WELCOME
  _enemy_direction : ENEMY_DIRECTION := ENEMY_DIRECTION.RIGHT
  _hscore : Highscore := {}
  _level : Int := 1
  _startTimestamp : ℚ := 0
  _previousTimestamp : ℚ := 0
  _currentTimestamp : ℚ := 0
  _timestampOfLastShot : ℚ := 0
  _timestampOfLastBomb : ℚ := 0
  _timestampOfLastFireKey : ℚ := 0
  _timestampOfGameOver : ℚ := 0
  _msPerFrame : ℚ := 0
  _liftedFireKeyBefore : Bool := true
  _player : GameObject := {}
  _rockets : List GameObject := List.replicate Config.MAX_ROCKET_COUNT {}
  _bombs : List GameObject := List.replicate Config.MAX_BOMB_COUNT {}
  _enemies : List GameObject := List.replicate Config.ENEMY_COUNT {}
  _enemyBbox : BoundingBox := {}
  _enemyBboxOriginal : BoundingBox := {}
  hscoreFile : Option HscoreFile := none
  rdCount : Nat := 0
deriving DecidableEq, Repr

/-! ## GameEngine.cpp: reset -/

namespace GameEngine

def initPlayer (E : Engine) (s : GameEngine) : GameEngine :=
  let posX : ℚ := ((E.CanvasWidth / 2 : Nat) : ℚ)
  let posY : ℚ := (E.CanvasHeight : ℚ) - halfSprite E
  { s with _player := s._player.setPosition { _x := posX, _y := posY } }

/-- Body of the loop of `initEnemies` for the enemy with loop counter `i`. -/
def initEnemy (E : Engine) (i : Nat) (e : GameObject) : GameObject :=
  let startY : Nat := E.FontRowHeight + 10
  let col : ℚ := ((i / Config.ENEMY_ROWS : Nat) : ℚ)
  let row : ℚ := ((i % Config.ENEMY_ROWS : Nat) : ℚ)
  (e.setPosition
    { _x := col * (E.SpriteSize : ℚ) + halfSprite E
      _y := (startY : ℚ) + row * (E.SpriteSize : ℚ) + halfSprite E }).setHealth 1

/-- The loop of `initEnemies`, from loop counter `i` on. -/
def initEnemiesFrom (E : Engine) : Nat → List GameObject → List GameObject
  | _, [] => []
  | i, e :: es => initEnemy E i e :: initEnemiesFrom E (i + 1) es

def initEnemies (E : Engine) (s : GameEngine) : GameEngine :=
  let enemies := initEnemiesFrom E 0 s._enemies
  { s with
    _enemies := enemies
    _enemyBbox := getBoundingBoxOf E enemies
    _enemyBboxOriginal := getBoundingBoxOf E enemies }

def initRockets (s : GameEngine) : GameEngine :=
  { s with _rockets := s._rockets.map fun r => r.setHealth 0 }

def initBombs (s : GameEngine) : GameEngine :=
  { s with _bombs := s._bombs.map fun b => b.setHealth 0 }

def resetGame (E : Engine) (reset : RESET) (s : GameEngine) : GameEngine :=
  let s1 := if reset = RESET.ALSO_PLAYER_POSITION then initPlayer E s else s
  let s2 := { s1 with _player := s1._player.setHealth Config.PLAYER_HEALTH }
  initBombs (initRockets (initEnemies E s2))

/-- The constructor: `t0` is the stopwatch reading and `file` the highscore file found. -/
def construct (E : Engine) (t0 : ℚ) (file : Option HscoreFile) : GameEngine :=
  resetGame E RESET.ALSO_PLAYER_POSITION
    { _startTimestamp := t0
      _hscore := Highscore.readFromDisk {} file
      _level := 1
      hscoreFile := file }

/-! ## GameEngine.cpp: handleEvents -/

/-- The loop over `_rockets` in `handleEvents`: the first dead rocket is placed at
`playerPos` with health 1; `none` when no rocket is dead. -/
def spawnRocket (playerPos : Position) : List GameObject → Option (List GameObject)
  | [] => none
  | r :: rs =>
    if !r.isAlive then some ((r.setPosition playerPos).setHealth 1 :: rs)
    else (spawnRocket playerPos rs).map fun rs1 => r :: rs1

/-- The shooting branch of `handleEvents` (state PLAY, qualifying press);
`shotNow` is the stopwatch reading taken when a rocket is spawned. -/
def tryShoot (shotNow : ℚ) (s : GameEngine) : GameEngine :=
  if s._currentTimestamp - s._timestampOfLastShot > Config.TIME_BETWEEN_SHOTS then
    match spawnRocket s._player.getPosition s._rockets with
    | some rockets => { s with _timestampOfLastShot := shotNow, _rockets := rockets }
    | none => s
  else s

/-- The restart performed in GAMEOVER. -/
def restart (E : Engine) (s : GameEngine) : GameEngine :=
  let s1 := resetGame E RESET.BUT_NOT_THE_PLAYER s
  let s2 := { s1 with _hscore := s1._hscore.finishScore }
  { s2 with hscoreFile := some s2._hscore.writeToDisk, _gamestate := GAMESTATE.TRYAGAIN }

/-- The two assignments that close the `if (keys.fire)` branch. -/
def noteFireKey (s : GameEngine) : GameEngine :=
  { s with _liftedFireKeyBefore := false, _timestampOfLastFireKey := s._currentTimestamp }

/-- The `if (keys.fire) ... else ...` statement of `handleEvents`; the flag tells
whether the function returned from inside it. -/
def handleFireKey (E : Engine) (shotNow : ℚ) (keys : PlayerInput) (s : GameEngine) :
    GameEngine × Bool :=
  if keys.fire then
    if s._liftedFireKeyBefore then
      if s._gamestate = GAMESTATE.GAMEOVER then
        if s._currentTimestamp - s._timestampOfLastFireKey > 2 then (restart E s, true)
        else (s, true)
      else if s._gamestate = GAMESTATE.PLAY then (noteFireKey (tryShoot shotNow s), false)
      else (noteFireKey s, false)
    else (noteFireKey s, false)
  else ({ s with _liftedFireKeyBefore := true }, false)

/-- The movement part of `handleEvents`. -/
def movePlayer (E : Engine) (keys : PlayerInput) (s : GameEngine) : GameEngine :=
  if s._gamestate ≠ GAMESTATE.GAMEOVER then
    let s1 :=
      if keys.left then
        if s._player.getPosition._x > 0 then
          { s with _player := s._player.setPositionX (s._player.getPosition._x - 400 * s._msPerFrame) }
        else s
      else s
    if keys.right then
      if s1._player.getPosition._x < (E.CanvasWidth : ℚ) - (E.SpriteSize : ℚ) then
        { s1 with
          _player := s1._player.setPositionX (s1._player.getPosition._x + 400 * s1._msPerFrame) }
      else s1
    else s1
  else s

/-- One call of `handleEvents`: `now` is the stopwatch reading at its start, `keys`
the keyboard snapshot and `shotNow` the stopwatch reading at a rocket spawn. -/
def handleEvents (E : Engine) (now shotNow : ℚ) (keys : PlayerInput) (s : GameEngine) :
    GameEngine :=
  let s0 :=
    { s with
      _currentTimestamp := now
      _msPerFrame := now - s._previousTimestamp
      _previousTimestamp := now }
  let r := handleFireKey E shotNow keys s0
  if r.2 then r.1 else movePlayer E keys r.1

/-! ## GameEngine.cpp: update -/

def updateRockets (E : Engine) (s : GameEngine) : GameEngine :=
  { s with
    _rockets := s._rockets.map fun r =>
      if r.isAlive then
        if r.getPosition._y > -(E.SpriteSize : ℚ) then r.setPositionY (r.getPosition._y - 1)
        else r.destroy
      else r }

/-- Variables written by the target-selection walk of `updateBombs`. -/
structure BombWalk where
  bomb : GameObject
  timestampOfLastBomb : ℚ
  steps : Nat := 0
deriving DecidableEq, Repr

/-- The `do ... while (index-- > 0)` walk of `updateBombs`: `index` is the counter,
`it` the offset of the iterator from `begin()`; `steps` counts the iterations. -/
def bombWalk (enemies : List GameObject) (now : ℚ) : Nat → Nat → BombWalk → BombWalk
  | index, it, w =>
    let it1 := if it = enemies.length then 0 else it
    let w1 : BombWalk :=
      if (enemies.getD it1 {}).isAlive then
        if index = 0 then
          { bomb := (w.bomb.setPosition (enemies.getD it1 {}).getPosition).setHealth 1
            timestampOfLastBomb := now
            steps := w.steps }
        else w
      else w
    let w2 := { w1 with steps := w1.steps + 1 }
    match index with
    | 0 => w2
    | k + 1 => bombWalk enemies now k (it1 + 1) w2

/-- The loop of `updateBombs` over the bombs not yet visited (`todo`), the visited
ones being `done`; `dis n` is the `n`-th value drawn from the random generator. -/
def updateBombsLoop (E : Engine) (dis : Nat → Nat) :
    List GameObject → List GameObject → GameEngine → GameEngine
  | [], done, s => { s with _bombs := done }
  | b :: todo, done, s =>
    if b.isAlive then
      if b.getPosition._y > (E.CanvasHeight : ℚ) then
        updateBombsLoop E dis todo (done ++ [b.destroy]) s
      else if b.intersectsWith s._player (halfSprite E) then
        let s1 := { s with _player := s._player.hit }
        if !s1._player.isAlive then
          { s1 with
            _timestampOfGameOver := s1._currentTimestamp
            _gamestate := GAMESTATE.GAMEOVER
            _bombs := done ++ b.destroy :: todo }
        else updateBombsLoop E dis todo (done ++ [b.destroy]) s1
      else
        updateBombsLoop E dis todo
          (done ++ [b.setPositionY (b.getPosition._y + 150 * s._msPerFrame)]) s
    else
      if s._currentTimestamp - s._timestampOfLastBomb < Config.TIME_BETWEEN_BOMBS then
        updateBombsLoop E dis todo (done ++ [b]) s
      else
        let w := bombWalk s._enemies s._currentTimestamp (dis s.rdCount) 0
          { bomb := b, timestampOfLastBomb := s._timestampOfLastBomb }
        updateBombsLoop E dis todo (done ++ [w.bomb])
          { s with _timestampOfLastBomb := w.timestampOfLastBomb, rdCount := s.rdCount + 1 }

def updateBombs (E : Engine) (dis : Nat → Nat) (s : GameEngine) : GameEngine :=
  updateBombsLoop E dis s._bombs [] s

/-- Index of the first enemy, in array order, with `e.intersectsWith(_player)`. -/
def firstIntersecting (E : Engine) (player : GameObject) : List GameObject → Option Nat
  | [] => none
  | e :: es =>
    if e.intersectsWith player (halfSprite E) then some 0
    else (firstIntersecting E player es).map fun i => i + 1

/-- The assignment `_enemies[i].destroy()`. -/
def destroyAt : List GameObject → Nat → List GameObject
  | [], _ => []
  | e :: es, 0 => e.destroy :: es
  | e :: es, i + 1 => e :: destroyAt es i

/-- The first two branches of `updateEnemies` (formation at the bottom, collision
with the player); the flag tells whether the function returned from inside them. -/
def enemyPlayerCollision (E : Engine) (s : GameEngine) : GameEngine × Bool :=
  if s._enemyBbox.bottom ≥ (E.CanvasHeight : ℚ) then
    ({ s with _gamestate := GAMESTATE.GAMEOVER, hscoreFile := some s._hscore.writeToDisk }, true)
  else if s._enemyBbox.intersectsWith s._player then
    match firstIntersecting E s._player s._enemies with
    | none => (s, false)
    | some i =>
      let s1 := { s with _enemies := destroyAt s._enemies i, _player := s._player.hit }
      if !s1._player.isAlive then
        ({ s1 with _gamestate := GAMESTATE.GAMEOVER, hscoreFile := some s1._hscore.writeToDisk },
          true)
      else (s1, false)
  else (s, false)

/-- The column scan `for (int i = (column + 1) * ENEMY_ROWS - 1; i >= end; --i)`
with `n` indices left, the next one being `end_ + n - 1`: the index of the first
alive enemy that intersects the rocket `r`. -/
def scanColumn (E : Engine) (enemies : List GameObject) (r : GameObject) (end_ : Nat) :
    Nat → Option Nat
  | 0 => none
  | n + 1 =>
    if (enemies.getD (end_ + n) {}).isAlive
        && (enemies.getD (end_ + n) {}).intersectsWith r (halfSprite E) then
      some (end_ + n)
    else scanColumn E enemies r end_ n

/-- The column computed for the rocket `r`, after the range check and the fold of
the column `ENEMY_COLS` into the last one; `none` when the rocket is skipped. -/
def rocketColumn (E : Engine) (orig : BoundingBox) (r : GameObject) : Option Int :=
  let column : Int := truncToInt ((r.getPosition._x - orig.left) / (E.SpriteSize : ℚ))
  if column > (Config.ENEMY_COLS : Int) ∨ column < 0 then none
  else if column = (Config.ENEMY_COLS : Int) then some (column - 1)
  else some column

/-- The body of the loop over `_rockets` in `updateEnemies` up to the inner `if`:
the index of the enemy the rocket `r` destroys, if any. -/
def rocketTarget (E : Engine) (bbox orig : BoundingBox) (enemies : List GameObject)
    (r : GameObject) : Option Nat :=
  if !r.isAlive then none
  else if !bbox.intersectsWith r then none
  else
    match rocketColumn E orig r with
    | none => none
    | some column => scanColumn E enemies r (column * (Config.ENEMY_ROWS : Int)).toNat
        Config.ENEMY_ROWS

/-- Variables written by the loop over `_rockets` in `updateEnemies`. -/
structure RocketScan where
  rockets : List GameObject := []
  enemies : List GameObject
  enemyDied : Bool := false
  hscore : Highscore
deriving DecidableEq, Repr

/-- One iteration of the loop over `_rockets` in `updateEnemies`. -/
def rocketScanStep (E : Engine) (bbox orig : BoundingBox) (acc : RocketScan)
    (r : GameObject) : RocketScan :=
  match rocketTarget E bbox orig acc.enemies r with
  | none => { acc with rockets := acc.rockets ++ [r] }
  | some i =>
    { rockets := acc.rockets ++ [r.destroy]
      enemies := destroyAt acc.enemies i
      enemyDied := true
      hscore := acc.hscore.addScore }

/-- The rocket loop of `updateEnemies` and the `if (enemyDied)` statement after it. -/
def rocketPhase (E : Engine) (s : GameEngine) : GameEngine :=
  let acc := s._rockets.foldl (rocketScanStep E s._enemyBbox s._enemyBboxOriginal)
    { enemies := s._enemies, hscore := s._hscore }
  let s1 := { s with _rockets := acc.rockets, _enemies := acc.enemies, _hscore := acc.hscore }
  if acc.enemyDied then
    if !(s1._enemies.any fun e => e.isAlive) then
      let s2 := initEnemies E s1
      { s2 with _level := s2._level + 1 }
    else { s1 with _enemyBbox := getBoundingBoxOf E s1._enemies }
  else s1

/-- The values of `travelStepX`, `travelStepY` and the new `_enemy_direction`. -/
def travelStep (E : Engine) (s : GameEngine) : Position × ENEMY_DIRECTION :=
  if s._enemy_direction = ENEMY_DIRECTION.RIGHT then
    if s._enemyBbox.right < (E.CanvasWidth : ℚ) then
      ({ _x := 200 * s._msPerFrame, _y := 0 }, ENEMY_DIRECTION.RIGHT)
    else ({ _x := -1, _y := ((10 * s._level : Int) : ℚ) }, ENEMY_DIRECTION.LEFT)
  else
    if s._enemyBbox.left > 0 then
      ({ _x := -(200 * s._msPerFrame), _y := 0 }, ENEMY_DIRECTION.LEFT)
    else ({ _x := 1, _y := ((10 * s._level : Int) : ℚ) }, ENEMY_DIRECTION.RIGHT)

/-- The last part of `updateEnemies`: all enemies and both boxes travel. -/
def moveFormation (E : Engine) (s : GameEngine) : GameEngine :=
  let t := travelStep E s
  { s with
    _enemy_direction := t.2
    _enemies := s._enemies.map fun e =>
      (e.setPositionX (e.getPosition._x + t.1._x)).setPositionY (e.getPosition._y + t.1._y)
    _enemyBbox := s._enemyBbox.moveBy t.1
    _enemyBboxOriginal := s._enemyBboxOriginal.moveBy t.1 }

def updateEnemies (E : Engine) (s : GameEngine) : GameEngine :=
  let r := enemyPlayerCollision E s
  if r.2 then r.1 else moveFormation E (rocketPhase E r.1)

/-- One call of `update`; `dis n` is the `n`-th value drawn from the random generator. -/
def update (E : Engine) (dis : Nat → Nat) (s : GameEngine) : GameEngine :=
  let passedSeconds : ℚ := s._currentTimestamp - s._startTimestamp
  if s._gamestate = GAMESTATE.PLAY then
    updateRockets E (updateBombs E dis (updateEnemies E s))
  else if s._gamestate = GAMESTATE.GAMEOVER then s
  else if passedSeconds > 6 then { s with _gamestate := GAMESTATE.PLAY }
  else if passedSeconds > 5 then { s with _gamestate := GAMESTATE.GO }
  else if passedSeconds > 4 then { s with _gamestate := GAMESTATE.WELCOME_1 }
  else if passedSeconds > 3 then { s with _gamestate := GAMESTATE.WELCOME_2 }
  else if passedSeconds > 2 then { s with _gamestate := GAMESTATE.WELCOME_3 }
  else { s with _gamestate := GAMESTATE.WELCOME }

end GameEngine

/-! ## Definitions used to state the properties -/

/-- The intro timeline as the specification words it: the state shown after
`t` seconds of a run that has not reached PLAY. -/
def introState (t : ℚ) : GAMESTATE :=
  if t > 6 then GAMESTATE.PLAY
  else if t > 5 then GAMESTATE.GO
  else if t > 4 then GAMESTATE.WELCOME_1
  else if t > 3 then GAMESTATE.WELCOME_2
  else if t > 2 then GAMESTATE.WELCOME_3
  else GAMESTATE.WELCOME

/-- Number of alive objects of a pool. -/
def aliveCount (l : List GameObject) : Nat := l.countP fun o => o.isAlive

/-- Sample values for the constants of `Engine.h`, for concrete inputs. -/
def sampleEngine : Engine :=
  { SpriteSize := 32, CanvasWidth := 640, CanvasHeight := 480, FontRowHeight := 18 }

/-- An enemy array with one alive enemy left of the canvas and 49 dead ones. -/
def leftOfCanvasArray : List GameObject :=
  { _pos := { _x := -40, _y := 100 }, _health := 1 } :: List.replicate 49 {}

/-- The engine as the constructor leaves it (stopwatch at 0, highscore file holding 7),
put in PLAY seven seconds later with a frame time of 1/60 s. -/
def freshPlay : GameEngine :=
  { GameEngine.construct sampleEngine 0 (some { fileversion := 1, score := 7 }) with
    _gamestate := GAMESTATE.PLAY
    _currentTimestamp := 7
    _previousTimestamp := 7
    _msPerFrame := 1 / 60 }

/-- The state `freshPlay` with the player on the last life, a run score of 9 and an
alive bomb in slot 0 at (320, 450), 14 pixels above the player. -/
def bombOnPlayer : GameEngine :=
  { freshPlay with
    _player := freshPlay._player.setHealth 1
    _hscore := { _currentScore := 9, _oldHighscore := 7 }
    _timestampOfLastBomb := 7
    _bombs := { _pos := { _x := 320, _y := 450 }, _health := 1 } :: List.replicate 9 {} }

/-- A fresh engine state (WELCOME) with the player one pixel from the left limit. -/
def nearLeftEdge : GameEngine :=
  { _player := { _pos := { _x := 1, _y := 464 }, _health := 3 } }

/-- An alive rocket at the horizontal centre of column 2 of the initial formation
of `sampleEngine` (x = 2 * 32 + 16), level with the bottom row (y = 172). -/
def columnTwoRocket : GameObject := { _pos := { _x := 80, _y := 172 }, _health := 1 }

/-- The two operations of `Highscore` that the engine calls during a game. -/
inductive HscoreOp where
  | add | finish
deriving DecidableEq, Repr

/-- One call of `addScore` or `finishScore`. -/
def Highscore.step (h : Highscore) : HscoreOp → Highscore
  | HscoreOp.add => h.addScore
  | HscoreOp.finish => h.finishScore

/-- A sequence of `addScore`/`finishScore` calls, first call first. -/
def Highscore.run (ops : List HscoreOp) (h : Highscore) : Highscore :=
  ops.foldl Highscore.step h

/-- The state `bombOnPlayer` with a rocket in flight in slot 0 at (100, 300), below
the formation. -/
def rocketInFlight : GameEngine :=
  { bombOnPlayer with
    _rockets := { _pos := { _x := 100, _y := 300 }, _health := 1 } :: List.replicate 9 {} }

/-- The grid of `initEnemies` translated by `(dx, dy)`: the enemy with index `j` has
health 1 when `alive j` holds and health 0 otherwise. -/
def gridAt (E : Engine) (dx dy : ℚ) (alive : Nat → Bool) : List GameObject :=
  (List.range Config.ENEMY_COUNT).map fun j =>
    { _pos :=
        { _x := (GameEngine.initEnemy E j {})._pos._x + dx
          _y := (GameEngine.initEnemy E j {})._pos._y + dy }
      _health := if alive j then 1 else 0 }

/-- A PLAY state after 28 wraps at level 1: the grid stands at offset (176, 280), only
enemy 24 (column 4, bottom row) is alive, at (320, 452), 12 pixels above the player
at (320, 464); no rocket is alive. -/
def lastEnemyOnPlayer : GameEngine :=
  { _gamestate := GAMESTATE.PLAY
    _enemy_direction := ENEMY_DIRECTION.RIGHT
    _currentTimestamp := 100
    _previousTimestamp := 100
    _msPerFrame := 1 / 60
    _player := { _pos := { _x := 320, _y := 464 }, _health := 3 }
    _enemies := gridAt sampleEngine 176 280 fun j => j == 24
    _enemyBbox := { left := 304, top := 436, right := 336, bottom := 468 }
    _enemyBboxOriginal := { left := 176, top := 308, right := 496, bottom := 468 } }

/-- The state `lastEnemyOnPlayer` with a second alive enemy in the same column: enemy
20 (column 4, top row) at (320, 324); the alive box spans both. -/
def twoInColumnOnPlayer : GameEngine :=
  { lastEnemyOnPlayer with
    _enemies := gridAt sampleEngine 176 280 fun j => j == 20 || j == 24
    _enemyBbox := { left := 304, top := 308, right := 336, bottom := 468 } }

/-- The state `lastEnemyOnPlayer` with enemy 24, the one above the player, dead and
its two neighbours in the bottom row alive: enemy 19 at (288, 452) and enemy 29 at
(352, 452), 32 pixels to either side; the alive box spans the two. -/
def deadEnemyOnPlayer : GameEngine :=
  { lastEnemyOnPlayer with
    _enemies := gridAt sampleEngine 176 280 fun j => j == 19 || j == 29
    _enemyBbox := { left := 272, top := 436, right := 368, bottom := 468 } }

/-- The state `lastEnemyOnPlayer` with the player on the last life and the bomb that
enemy 24 dropped on the frame before alive in slot 0, still at the enemy's position
(320, 452). -/
def enemyAndBombOnPlayer : GameEngine :=
  { lastEnemyOnPlayer with
    _player := { _pos := { _x := 320, _y := 464 }, _health := 1 }
    _timestampOfLastBomb := 5999 / 60
    _bombs := { _pos := { _x := 320, _y := 452 }, _health := 1 } :: List.replicate 9 {} }

/-- Whether the walk of `updateBombs` takes the branch `it = _enemies.begin()`, that
is, finds its iterator at `_enemies.end()` on some iteration; `index` and `it` are
as in `bombWalk`. -/
def bombWalkWraps (enemies : List GameObject) : Nat → Nat → Bool
  | index, it =>
    let it1 := if it = enemies.length then 0 else it
    match index with
    | 0 => decide (it = enemies.length)
    | k + 1 => decide (it = enemies.length) || bombWalkWraps enemies k (it1 + 1)

/-- Number of slots of a pool that are dead in `before` and alive in `after`. -/
def spawnedCount : List GameObject → List GameObject → Nat
  | b :: bs, a :: rest => (if !b.isAlive && a.isAlive then 1 else 0) + spawnedCount bs rest
  | _, _ => 0

/-- The state `freshPlay` with enemy 4, the bottom enemy of column 0, dead; the other
49 enemies are alive, every bomb slot is dead and the last bomb dates from time 0. -/
def bottomLeftDead : GameEngine :=
  { freshPlay with _enemies := gridAt sampleEngine 0 0 fun j => !(j == 4) }

/-- A PLAY state at the left wall after a long frame: the grid stands at offset
(-308, 10), only enemies 45 and 49 (column 9, top and bottom row) are alive, at
(-4, 54) and (-4, 182); the stored alive box is their box translated with them, and
it lies inside the original box. A rocket is alive in slot 0 at (0, 190), within
radius 16 of enemy 49. -/
def columnNineLeftOfCanvas : GameEngine :=
  { _gamestate := GAMESTATE.PLAY
    _enemy_direction := ENEMY_DIRECTION.LEFT
    _currentTimestamp := 100
    _previousTimestamp := 100
    _msPerFrame := 1 / 60
    _player := { _pos := { _x := 320, _y := 464 }, _health := 3 }
    _rockets := { _pos := { _x := 0, _y := 190 }, _health := 1 } :: List.replicate 9 {}
    _enemies := gridAt sampleEngine (-308) 10 fun j => j == 45 || j == 49
    _enemyBbox := { left := -20, top := 38, right := 12, bottom := 198 }
    _enemyBboxOriginal := { left := -308, top := 38, right := 12, bottom := 198 } }

/-! ## Floating-point rounding -/

/-- Rounding of a rational to the nearest integer, a tie going to the even one. -/
def roundHalfEven (q : ℚ) : Int :=
  if q - ⌊q⌋ < 1 / 2 then ⌊q⌋
  else if 1 / 2 < q - ⌊q⌋ then ⌊q⌋ + 1
  else if ⌊q⌋ % 2 = 0 then ⌊q⌋
  else ⌊q⌋ + 1

/-- The exponent that fixes the spacing of a binary floating-point format around
`x`: the exponent of the binade of `x`, and `emin` for the subnormal range. -/
def binadeExp (emin : Int) (x : ℚ) : Int := max (Int.log 2 |x|) emin

/-- Conversion of a rational to the binary floating-point format with `p` bits of
precision and least normal exponent `emin`: round to nearest, ties to even. The
format's largest finite value is not modelled (no overflow to infinity). -/
def roundFloat (p : Nat) (emin : Int) (x : ℚ) : ℚ :=
  (roundHalfEven (x / 2 ^ (binadeExp emin x - ((p : Int) - 1))) : ℚ)
    * 2 ^ (binadeExp emin x - ((p : Int) - 1))

/-- Rounding to `float` (IEEE 754 binary32). -/
def float32 (x : ℚ) : ℚ := roundFloat 24 (-126) x

/-- Rounding to `double` (IEEE 754 binary64). -/
def float64 (x : ℚ) : ℚ := roundFloat 53 (-1022) x

/-! ## The engine with rounded arithmetic

The operations of the engine that do floating-point arithmetic, once more, with the
result of every arithmetic operation rounded to the format of its C++ type: a
`float` operation by `float32`, a `double` operation by `float64`. An `int` operand
is converted to the type of the operation by the same rounding, which is exact for a
representable integer; a `float` operand of a `double` operation converts exactly.
Comparisons are exact. Every operation is rounded on its own: none is fused with
another or carried out in a wider format. Operations without arithmetic
(`spawnRocket`, `noteFireKey`, `destroyAt`, `bombWalk`, `bboxScanStep`, `initRockets`,
`initBombs`, `BoundingBox.intersectsWith`, `Highscore`) are shared with the exact
embedding. -/

/-- A binary floating-point format: bits of precision and least normal exponent. -/
structure FloatFormat where
  precision : Nat
  emin : Int
deriving DecidableEq, Repr

/-- The format of `float`. -/
def binary32 : FloatFormat := { precision := 24, emin := -126 }

/-- The test `sqrt(v) <= radius` for `v ≥ 0` and a `radius` that is a value of the
format `F` of the square root's result. The root is correctly rounded, so the test
holds exactly when the root lies below the midpoint of `radius` and the next value
of the format above it, `radius + 2 ^ (e - precision)` with `e` the binade exponent
of `radius` (for `radius = 0`: exactly when `v = 0`). The root cannot equal the
midpoint: the midpoint has one bit more than the format and its square about twice
as many, more than `v` has. -/
def sqrtLe (F : FloatFormat) (v radius : ℚ) : Bool :=
  decide (0 ≤ radius
    ∧ (if radius = 0 then v ≤ 0
       else v < (radius + 2 ^ (binadeExp F.emin radius - (F.precision : Int))) ^ 2))

namespace Rounded

/-- The default radius `Engine::SpriteSize / 2`: an integer division, converted to
`float`. -/
def halfSprite (E : Engine) : ℚ := float32 ((E.SpriteSize / 2 : Nat) : ℚ)

/-- The test `GameObject::intersectsWith`: `dx`, `dy`, the two products and their sum
are `float` operations, each rounded; `F` is the result format of the overload of
`sqrt` that the call selects (`float` or `double`, depending on the headers). -/
def intersectsWith (F : FloatFormat) (a o : GameObject) (radius : ℚ) : Bool :=
  let dx := float32 (a._pos._x - o._pos._x)
  let dy := float32 (a._pos._y - o._pos._y)
  sqrtLe F (float32 (float32 (dx * dx) + float32 (dy * dy))) radius

/-- The assignments `left += pos._x` and so on of `BoundingBox::moveBy`: each sum is
rounded to `float`. -/
def moveBy (b : BoundingBox) (pos : Position) : BoundingBox :=
  { left := float32 (b.left + pos._x)
    top := float32 (b.top + pos._y)
    right := float32 (b.right + pos._x)
    bottom := float32 (b.bottom + pos._y) }

/-- The function `getBoundingBoxOf`: the loop only compares; the four edges are then
moved by `Engine::SpriteSize / 2`, an integer converted to `float`, each result
rounded to `float`. -/
def getBoundingBoxOf (E : Engine) (arr : List GameObject) : BoundingBox :=
  let acc := arr.foldl bboxScanStep {}
  if acc.atLeastOneEnemyAlive then
    { left := float32 (acc.left - halfSprite E)
      top := float32 (acc.top - halfSprite E)
      right := float32 (acc.right + halfSprite E)
      bottom := float32 (acc.bottom + halfSprite E) }
  else {}

def initPlayer (E : Engine) (s : GameEngine) : GameEngine :=
  let posX : ℚ := float32 ((E.CanvasWidth / 2 : Nat) : ℚ)
  let posY : ℚ := float32 ((E.CanvasHeight : ℚ) - ((E.SpriteSize / 2 : Nat) : ℚ))
  { s with _player := s._player.setPosition { _x := posX, _y := posY } }

/-- Body of the loop of `initEnemies` for the enemy with loop counter `i`: `col` and
`row` are floats, the products and sums are `float` operations. -/
def initEnemy (E : Engine) (i : Nat) (e : GameObject) : GameObject :=
  let startY : ℚ := float32 ((E.FontRowHeight + 10 : Nat) : ℚ)
  let col : ℚ := float32 ((i / Config.ENEMY_ROWS : Nat) : ℚ)
  let row : ℚ := float32 ((i % Config.ENEMY_ROWS : Nat) : ℚ)
  let size : ℚ := float32 (E.SpriteSize : ℚ)
  (e.setPosition
    { _x := float32 (float32 (col * size) + halfSprite E)
      _y := float32 (float32 (startY + float32 (row * size)) + halfSprite E) }).setHealth 1

def initEnemiesFrom (E : Engine) : Nat → List GameObject → List GameObject
  | _, [] => []
  | i, e :: es => initEnemy E i e :: initEnemiesFrom E (i + 1) es

def initEnemies (E : Engine) (s : GameEngine) : GameEngine :=
  let enemies := initEnemiesFrom E 0 s._enemies
  { s with
    _enemies := enemies
    _enemyBbox := getBoundingBoxOf E enemies
    _enemyBboxOriginal := getBoundingBoxOf E enemies }

def resetGame (E : Engine) (reset : RESET) (s : GameEngine) : GameEngine :=
  let s1 := if reset = RESET.ALSO_PLAYER_POSITION then initPlayer E s else s
  let s2 := { s1 with _player := s1._player.setHealth Config.PLAYER_HEALTH }
  GameEngine.initBombs (GameEngine.initRockets (initEnemies E s2))

/-- The shooting branch of `handleEvents`: the difference of the two `double`
timestamps is rounded to `double` before the comparison. -/
def tryShoot (shotNow : ℚ) (s : GameEngine) : GameEngine :=
  if float64 (s._currentTimestamp - s._timestampOfLastShot) > Config.TIME_BETWEEN_SHOTS then
    match GameEngine.spawnRocket s._player.getPosition s._rockets with
    | some rockets => { s with _timestampOfLastShot := shotNow, _rockets := rockets }
    | none => s
  else s

def restart (E : Engine) (s : GameEngine) : GameEngine :=
  let s1 := resetGame E RESET.BUT_NOT_THE_PLAYER s
  let s2 := { s1 with _hscore := s1._hscore.finishScore }
  { s2 with hscoreFile := some s2._hscore.writeToDisk, _gamestate := GAMESTATE.TRYAGAIN }

def handleFireKey (E : Engine) (shotNow : ℚ) (keys : PlayerInput) (s : GameEngine) :
    GameEngine × Bool :=
  if keys.fire then
    if s._liftedFireKeyBefore then
      if s._gamestate = GAMESTATE.GAMEOVER then
        if float64 (s._currentTimestamp - s._timestampOfLastFireKey) > 2 then
          (restart E s, true)
        else (s, true)
      else if s._gamestate = GAMESTATE.PLAY then
        (GameEngine.noteFireKey (tryShoot shotNow s), false)
      else (GameEngine.noteFireKey s, false)
    else (GameEngine.noteFireKey s, false)
  else ({ s with _liftedFireKeyBefore := true }, false)

/-- The movement part of `handleEvents`: `400 * _msPerFrame` is a `double` product,
the sum with the `float` coordinate a `double` sum, and `setPositionX` narrows the
result to `float`; the limit `CanvasWidth - SpriteSize` is an integer converted to
`float` for the comparison. -/
def movePlayer (E : Engine) (keys : PlayerInput) (s : GameEngine) : GameEngine :=
  if s._gamestate ≠ GAMESTATE.GAMEOVER then
    let s1 :=
      if keys.left then
        if s._player.getPosition._x > 0 then
          { s with
            _player := s._player.setPositionX
              (float32 (float64 (s._player.getPosition._x - float64 (400 * s._msPerFrame)))) }
        else s
      else s
    if keys.right then
      if s1._player.getPosition._x < float32 ((E.CanvasWidth : ℚ) - (E.SpriteSize : ℚ)) then
        { s1 with
          _player := s1._player.setPositionX
            (float32 (float64 (s1._player.getPosition._x + float64 (400 * s1._msPerFrame)))) }
      else s1
    else s1
  else s

/-- One call of `handleEvents`; `now` and `shotNow` are the `double` readings of the
stopwatch, and `_msPerFrame` is their difference rounded to `double`. -/
def handleEvents (E : Engine) (now shotNow : ℚ) (keys : PlayerInput) (s : GameEngine) :
    GameEngine :=
  let s0 :=
    { s with
      _currentTimestamp := now
      _msPerFrame := float64 (now - s._previousTimestamp)
      _previousTimestamp := now }
  let r := handleFireKey E shotNow keys s0
  if r.2 then r.1 else movePlayer E keys r.1

def updateRockets (E : Engine) (s : GameEngine) : GameEngine :=
  { s with
    _rockets := s._rockets.map fun r =>
      if r.isAlive then
        if r.getPosition._y > float32 (-(E.SpriteSize : ℚ)) then
          r.setPositionY (float32 (r.getPosition._y - 1))
        else r.destroy
      else r }

/-- The loop of `updateBombs`: the step `150 * _msPerFrame` and the sum are `double`
operations, narrowed to `float` by `setPositionY`; the cooldown test compares the
`double` difference of the timestamps with the `double` constant 0.35. -/
def updateBombsLoop (E : Engine) (F : FloatFormat) (dis : Nat → Nat) :
    List GameObject → List GameObject → GameEngine → GameEngine
  | [], done, s => { s with _bombs := done }
  | b :: todo, done, s =>
    if b.isAlive then
      if b.getPosition._y > float32 (E.CanvasHeight : ℚ) then
        updateBombsLoop E F dis todo (done ++ [b.destroy]) s
      else if intersectsWith F b s._player (halfSprite E) then
        let s1 := { s with _player := s._player.hit }
        if !s1._player.isAlive then
          { s1 with
            _timestampOfGameOver := s1._currentTimestamp
            _gamestate := GAMESTATE.GAMEOVER
            _bombs := done ++ b.destroy :: todo }
        else updateBombsLoop E F dis todo (done ++ [b.destroy]) s1
      else
        updateBombsLoop E F dis todo
          (done ++ [b.setPositionY
            (float32 (float64 (b.getPosition._y + float64 (150 * s._msPerFrame))))]) s
    else
      if float64 (s._currentTimestamp - s._timestampOfLastBomb)
          < float64 Config.TIME_BETWEEN_BOMBS then
        updateBombsLoop E F dis todo (done ++ [b]) s
      else
        let w := GameEngine.bombWalk s._enemies s._currentTimestamp (dis s.rdCount) 0
          { bomb := b, timestampOfLastBomb := s._timestampOfLastBomb }
        updateBombsLoop E F dis todo (done ++ [w.bomb])
          { s with _timestampOfLastBomb := w.timestampOfLastBomb, rdCount := s.rdCount + 1 }

def updateBombs (E : Engine) (F : FloatFormat) (dis : Nat → Nat) (s : GameEngine) :
    GameEngine :=
  updateBombsLoop E F dis s._bombs [] s

def firstIntersecting (E : Engine) (F : FloatFormat) (player : GameObject) :
    List GameObject → Option Nat
  | [] => none
  | e :: es =>
    if intersectsWith F e player (halfSprite E) then some 0
    else (firstIntersecting E F player es).map fun i => i + 1

def enemyPlayerCollision (E : Engine) (F : FloatFormat) (s : GameEngine) :
    GameEngine × Bool :=
  if s._enemyBbox.bottom ≥ float32 (E.CanvasHeight : ℚ) then
    ({ s with _gamestate := GAMESTATE.GAMEOVER, hscoreFile := some s._hscore.writeToDisk }, true)
  else if s._enemyBbox.intersectsWith s._player then
    match firstIntersecting E F s._player s._enemies with
    | none => (s, false)
    | some i =>
      let s1 :=
        { s with _enemies := GameEngine.destroyAt s._enemies i, _player := s._player.hit }
      if !s1._player.isAlive then
        ({ s1 with _gamestate := GAMESTATE.GAMEOVER, hscoreFile := some s1._hscore.writeToDisk },
          true)
      else (s1, false)
  else (s, false)

def scanColumn (E : Engine) (F : FloatFormat) (enemies : List GameObject) (r : GameObject)
    (end_ : Nat) : Nat → Option Nat
  | 0 => none
  | n + 1 =>
    if (enemies.getD (end_ + n) {}).isAlive
        && intersectsWith F (enemies.getD (end_ + n) {}) r (halfSprite E) then
      some (end_ + n)
    else scanColumn E F enemies r end_ n

/-- The column `int(float(rpos._x - _enemyBboxOriginal.left) / Engine::SpriteSize)`:
the difference and the quotient are `float` operations. -/
def rocketColumn (E : Engine) (orig : BoundingBox) (r : GameObject) : Option Int :=
  let column : Int :=
    truncToInt (float32 (float32 (r.getPosition._x - orig.left) / float32 (E.SpriteSize : ℚ)))
  if column > (Config.ENEMY_COLS : Int) ∨ column < 0 then none
  else if column = (Config.ENEMY_COLS : Int) then some (column - 1)
  else some column

def rocketTarget (E : Engine) (F : FloatFormat) (bbox orig : BoundingBox)
    (enemies : List GameObject) (r : GameObject) : Option Nat :=
  if !r.isAlive then none
  else if !bbox.intersectsWith r then none
  else
    match rocketColumn E orig r with
    | none => none
    | some column => scanColumn E F enemies r (column * (Config.ENEMY_ROWS : Int)).toNat
        Config.ENEMY_ROWS

def rocketScanStep (E : Engine) (F : FloatFormat) (bbox orig : BoundingBox)
    (acc : GameEngine.RocketScan) (r : GameObject) : GameEngine.RocketScan :=
  match rocketTarget E F bbox orig acc.enemies r with
  | none => { acc with rockets := acc.rockets ++ [r] }
  | some i =>
    { rockets := acc.rockets ++ [r.destroy]
      enemies := GameEngine.destroyAt acc.enemies i
      enemyDied := true
      hscore := acc.hscore.addScore }

def rocketPhase (E : Engine) (F : FloatFormat) (s : GameEngine) : GameEngine :=
  let acc := s._rockets.foldl (rocketScanStep E F s._enemyBbox s._enemyBboxOriginal)
    { enemies := s._enemies, hscore := s._hscore }
  let s1 := { s with _rockets := acc.rockets, _enemies := acc.enemies, _hscore := acc.hscore }
  if acc.enemyDied then
    if !(s1._enemies.any fun e => e.isAlive) then
      let s2 := initEnemies E s1
      { s2 with _level := s2._level + 1 }
    else { s1 with _enemyBbox := getBoundingBoxOf E s1._enemies }
  else s1

/-- The values of `travelStepX`, `travelStepY` and the new direction: `200 *
_msPerFrame` is a `double` product stored in a `float`, `10 * _level` an integer
stored in a `float`. -/
def travelStep (E : Engine) (s : GameEngine) : Position × ENEMY_DIRECTION :=
  if s._enemy_direction = ENEMY_DIRECTION.RIGHT then
    if s._enemyBbox.right < float32 (E.CanvasWidth : ℚ) then
      ({ _x := float32 (float64 (200 * s._msPerFrame)), _y := 0 }, ENEMY_DIRECTION.RIGHT)
    else ({ _x := -1, _y := float32 ((10 * s._level : Int) : ℚ) }, ENEMY_DIRECTION.LEFT)
  else
    if s._enemyBbox.left > 0 then
      ({ _x := float32 (-float64 (200 * s._msPerFrame)), _y := 0 }, ENEMY_DIRECTION.LEFT)
    else ({ _x := 1, _y := float32 ((10 * s._level : Int) : ℚ) }, ENEMY_DIRECTION.RIGHT)

/-- The last part of `updateEnemies`: each coordinate sum is rounded to `float`. -/
def moveFormation (E : Engine) (s : GameEngine) : GameEngine :=
  let t := travelStep E s
  { s with
    _enemy_direction := t.2
    _enemies := s._enemies.map fun e =>
      (e.setPositionX (float32 (e.getPosition._x + t.1._x))).setPositionY
        (float32 (e.getPosition._y + t.1._y))
    _enemyBbox := moveBy s._enemyBbox t.1
    _enemyBboxOriginal := moveBy s._enemyBboxOriginal t.1 }

def updateEnemies (E : Engine) (F : FloatFormat) (s : GameEngine) : GameEngine :=
  let r := enemyPlayerCollision E F s
  if r.2 then r.1 else moveFormation E (rocketPhase E F r.1)

/-- The variable `float passedSeconds` of `update`: the `double` difference of the
two timestamps, narrowed to `float`. -/
def passedSeconds (s : GameEngine) : ℚ :=
  float32 (float64 (s._currentTimestamp - s._startTimestamp))

/-- One call of `update`, with the rounding of each arithmetic result. -/
def update (E : Engine) (F : FloatFormat) (dis : Nat → Nat) (s : GameEngine) : GameEngine :=
  if s._gamestate = GAMESTATE.PLAY then
    updateRockets E (updateBombs E F dis (updateEnemies E F s))
  else if s._gamestate = GAMESTATE.GAMEOVER then s
  else if passedSeconds s > 6 then { s with _gamestate := GAMESTATE.PLAY }
  else if passedSeconds s > 5 then { s with _gamestate := GAMESTATE.GO }
  else if passedSeconds s > 4 then { s with _gamestate := GAMESTATE.WELCOME_1 }
  else if passedSeconds s > 3 then { s with _gamestate := GAMESTATE.WELCOME_2 }
  else if passedSeconds s > 2 then { s with _gamestate := GAMESTATE.WELCOME_3 }
  else { s with _gamestate := GAMESTATE.WELCOME }

end Rounded

/-! ## Definitions used to state the properties of the rounded engine -/

/-- A GAMEOVER state of a run that reached level 3 with the formation travelling
left: time 100, last recorded fire press at time 90, fire released since. -/
def gameOverAtLevelThree : GameEngine :=
  { _gamestate := GAMESTATE.GAMEOVER
    _enemy_direction := ENEMY_DIRECTION.LEFT
    _level := 3
    _hscore := { _currentScore := 120, _oldHighscore := 7 }
    _currentTimestamp := 100
    _previousTimestamp := 100
    _timestampOfLastFireKey := 90
    _player := { _pos := { _x := 320, _y := 464 }, _health := 0 } }

/-- A state in GO, started at time 0, whose current time is the `double`
6 + 2^-23, just after the sixth second. -/
def justAfterSixSeconds : GameEngine :=
  { _gamestate := GAMESTATE.GO, _currentTimestamp := 6 + 1 / 2 ^ 23 }

/-- The constructor, with rounded arithmetic: `t0` is the stopwatch reading and `file`
the highscore file found. -/
def Rounded.construct (E : Engine) (t0 : ℚ) (file : Option HscoreFile) : GameEngine :=
  Rounded.resetGame E RESET.ALSO_PLAYER_POSITION
    { _startTimestamp := t0
      _hscore := Highscore.readFromDisk {} file
      _level := 1
      hscoreFile := file }

/-- The engine as the constructor leaves it (stopwatch at 0, highscore file holding 7),
put in PLAY seven seconds later with a frame time of 1/64 s. -/
def introDone : GameEngine :=
  { Rounded.construct sampleEngine 0 (some { fileversion := 1, score := 7 }) with
    _gamestate := GAMESTATE.PLAY
    _currentTimestamp := 7
    _previousTimestamp := 7
    _msPerFrame := 1 / 64 }

/-- The state `introDone` with a frame time of 1/64 + 2^-24 s, a `double`. -/
def introDoneOddFrame : GameEngine := { introDone with _msPerFrame := 1 / 64 + 1 / 2 ^ 24 }

theorem foldl_bboxScanStep_dead (l : List GameObject) (acc : BboxScan)
    (h : ∀ o ∈ l, o.isAlive = false) : l.foldl bboxScanStep acc = acc := by
  induction l generalizing acc with
  | nil => rfl
  | cons o os ih =>
    have ho : o.isAlive = false := h o (List.mem_cons_self o os)
    have hstep : bboxScanStep acc o = acc := by simp [bboxScanStep, ho]
    rw [List.foldl_cons, hstep]
    exact ih acc fun x hx => h x (List.mem_cons_of_mem o hx)

theorem bboxScanStep_left (acc : BboxScan) (o : GameObject) :
    (bboxScanStep acc o).left ≤ acc.left
      ∧ (o.isAlive = true → (bboxScanStep acc o).left ≤ o._pos._x)
      ∧ ((bboxScanStep acc o).left = acc.left
          ∨ (o.isAlive = true ∧ (bboxScanStep acc o).left = o._pos._x)) := by
  unfold bboxScanStep GameObject.getPosition
  cases ho : o.isAlive
  · simp
  · simp only [Bool.not_true, Bool.false_eq_true, if_false]
    by_cases hlt : o._pos._x < acc.left
    · simp [hlt, le_of_lt hlt]
    · simp [hlt, le_of_not_lt hlt]

theorem bboxScanStep_top (acc : BboxScan) (o : GameObject) :
    (bboxScanStep acc o).top ≤ acc.top
      ∧ (o.isAlive = true → (bboxScanStep acc o).top ≤ o._pos._y)
      ∧ ((bboxScanStep acc o).top = acc.top
          ∨ (o.isAlive = true ∧ (bboxScanStep acc o).top = o._pos._y)) := by
  unfold bboxScanStep GameObject.getPosition
  cases ho : o.isAlive
  · simp
  · simp only [Bool.not_true, Bool.false_eq_true, if_false]
    by_cases hlt : o._pos._y < acc.top
    · simp [hlt, le_of_lt hlt]
    · simp [hlt, le_of_not_lt hlt]

theorem bboxScanStep_right (acc : BboxScan) (o : GameObject) :
    acc.right ≤ (bboxScanStep acc o).right
      ∧ (o.isAlive = true → o._pos._x ≤ (bboxScanStep acc o).right)
      ∧ ((bboxScanStep acc o).right = acc.right
          ∨ (o.isAlive = true ∧ (bboxScanStep acc o).right = o._pos._x)) := by
  unfold bboxScanStep GameObject.getPosition
  cases ho : o.isAlive
  · simp
  · simp only [Bool.not_true, Bool.false_eq_true, if_false]
    by_cases hlt : o._pos._x > acc.right
    · simp [hlt, le_of_lt hlt]
    · simp [hlt, le_of_not_lt hlt]

theorem bboxScanStep_bottom (acc : BboxScan) (o : GameObject) :
    acc.bottom ≤ (bboxScanStep acc o).bottom
      ∧ (o.isAlive = true → o._pos._y ≤ (bboxScanStep acc o).bottom)
      ∧ ((bboxScanStep acc o).bottom = acc.bottom
          ∨ (o.isAlive = true ∧ (bboxScanStep acc o).bottom = o._pos._y)) := by
  unfold bboxScanStep GameObject.getPosition
  cases ho : o.isAlive
  · simp
  · simp only [Bool.not_true, Bool.false_eq_true, if_false]
    by_cases hlt : o._pos._y > acc.bottom
    · simp [hlt, le_of_lt hlt]
    · simp [hlt, le_of_not_lt hlt]

theorem foldl_bboxScanStep_left (l : List GameObject) (acc : BboxScan) :
    (l.foldl bboxScanStep acc).left ≤ acc.left
      ∧ (∀ o ∈ l, o.isAlive = true → (l.foldl bboxScanStep acc).left ≤ o._pos._x)
      ∧ ((l.foldl bboxScanStep acc).left = acc.left
          ∨ ∃ o ∈ l, o.isAlive = true ∧ (l.foldl bboxScanStep acc).left = o._pos._x) := by
  induction l generalizing acc with
  | nil => simp
  | cons o os ih =>
    obtain ⟨h1, h2, h3⟩ := ih (bboxScanStep acc o)
    obtain ⟨s1, s2, s3⟩ := bboxScanStep_left acc o
    rw [List.foldl_cons]
    refine ⟨le_trans h1 s1, ?_, ?_⟩
    · intro x hx hal
      rcases List.mem_cons.1 hx with rfl | hx
      · exact le_trans h1 (s2 hal)
      · exact h2 x hx hal
    · rcases h3 with h3 | ⟨x, hx, hal, hxe⟩
      · rcases s3 with s3 | ⟨hal, s3⟩
        · exact Or.inl (h3.trans s3)
        · exact Or.inr ⟨o, List.mem_cons_self o os, hal, h3.trans s3⟩
      · exact Or.inr ⟨x, List.mem_cons_of_mem o hx, hal, hxe⟩

theorem foldl_bboxScanStep_top (l : List GameObject) (acc : BboxScan) :
    (l.foldl bboxScanStep acc).top ≤ acc.top
      ∧ (∀ o ∈ l, o.isAlive = true → (l.foldl bboxScanStep acc).top ≤ o._pos._y)
      ∧ ((l.foldl bboxScanStep acc).top = acc.top
          ∨ ∃ o ∈ l, o.isAlive = true ∧ (l.foldl bboxScanStep acc).top = o._pos._y) := by
  induction l generalizing acc with
  | nil => simp
  | cons o os ih =>
    obtain ⟨h1, h2, h3⟩ := ih (bboxScanStep acc o)
    obtain ⟨s1, s2, s3⟩ := bboxScanStep_top acc o
    rw [List.foldl_cons]
    refine ⟨le_trans h1 s1, ?_, ?_⟩
    · intro x hx hal
      rcases List.mem_cons.1 hx with rfl | hx
      · exact le_trans h1 (s2 hal)
      · exact h2 x hx hal
    · rcases h3 with h3 | ⟨x, hx, hal, hxe⟩
      · rcases s3 with s3 | ⟨hal, s3⟩
        · exact Or.inl (h3.trans s3)
        · exact Or.inr ⟨o, List.mem_cons_self o os, hal, h3.trans s3⟩
      · exact Or.inr ⟨x, List.mem_cons_of_mem o hx, hal, hxe⟩

theorem foldl_bboxScanStep_right (l : List GameObject) (acc : BboxScan) :
    acc.right ≤ (l.foldl bboxScanStep acc).right
      ∧ (∀ o ∈ l, o.isAlive = true → o._pos._x ≤ (l.foldl bboxScanStep acc).right)
      ∧ ((l.foldl bboxScanStep acc).right = acc.right
          ∨ ∃ o ∈ l, o.isAlive = true ∧ (l.foldl bboxScanStep acc).right = o._pos._x) := by
  induction l generalizing acc with
  | nil => simp
  | cons o os ih =>
    obtain ⟨h1, h2, h3⟩ := ih (bboxScanStep acc o)
    obtain ⟨s1, s2, s3⟩ := bboxScanStep_right acc o
    rw [List.foldl_cons]
    refine ⟨le_trans s1 h1, ?_, ?_⟩
    · intro x hx hal
      rcases List.mem_cons.1 hx with rfl | hx
      · exact le_trans (s2 hal) h1
      · exact h2 x hx hal
    · rcases h3 with h3 | ⟨x, hx, hal, hxe⟩
      · rcases s3 with s3 | ⟨hal, s3⟩
        · exact Or.inl (h3.trans s3)
        · exact Or.inr ⟨o, List.mem_cons_self o os, hal, h3.trans s3⟩
      · exact Or.inr ⟨x, List.mem_cons_of_mem o hx, hal, hxe⟩

theorem foldl_bboxScanStep_bottom (l : List GameObject) (acc : BboxScan) :
    acc.bottom ≤ (l.foldl bboxScanStep acc).bottom
      ∧ (∀ o ∈ l, o.isAlive = true → o._pos._y ≤ (l.foldl bboxScanStep acc).bottom)
      ∧ ((l.foldl bboxScanStep acc).bottom = acc.bottom
          ∨ ∃ o ∈ l, o.isAlive = true ∧ (l.foldl bboxScanStep acc).bottom = o._pos._y) := by
  induction l generalizing acc with
  | nil => simp
  | cons o os ih =>
    obtain ⟨h1, h2, h3⟩ := ih (bboxScanStep acc o)
    obtain ⟨s1, s2, s3⟩ := bboxScanStep_bottom acc o
    rw [List.foldl_cons]
    refine ⟨le_trans s1 h1, ?_, ?_⟩
    · intro x hx hal
      rcases List.mem_cons.1 hx with rfl | hx
      · exact le_trans (s2 hal) h1
      · exact h2 x hx hal
    · rcases h3 with h3 | ⟨x, hx, hal, hxe⟩
      · rcases s3 with s3 | ⟨hal, s3⟩
        · exact Or.inl (h3.trans s3)
        · exact Or.inr ⟨o, List.mem_cons_self o os, hal, h3.trans s3⟩
      · exact Or.inr ⟨x, List.mem_cons_of_mem o hx, hal, hxe⟩

theorem foldl_bboxScanStep_alive (l : List GameObject) (acc : BboxScan) :
    (l.foldl bboxScanStep acc).atLeastOneEnemyAlive
      = (acc.atLeastOneEnemyAlive || l.any fun o => o.isAlive) := by
  induction l generalizing acc with
  | nil => simp
  | cons o os ih =>
    rw [List.foldl_cons, ih]
    unfold bboxScanStep
    cases ho : o.isAlive <;> simp [ho]

/-- Where every alive entity lies in the box `[a, c] × [b, d]`, each side of it is
attained by an alive entity and the seeds of the scan do not interfere, the result
of `getBoundingBoxOf` is that box padded by half a sprite. -/
theorem getBoundingBoxOf_eq_of_bounds (E : Engine) (l : List GameObject) (a b c d : ℚ)
    (hin : ∀ o ∈ l, o.isAlive = true →
      a ≤ o._pos._x ∧ o._pos._x ≤ c ∧ b ≤ o._pos._y ∧ o._pos._y ≤ d)
    (ha : ∃ o ∈ l, o.isAlive = true ∧ o._pos._x = a)
    (hb : ∃ o ∈ l, o.isAlive = true ∧ o._pos._y = b)
    (hc : ∃ o ∈ l, o.isAlive = true ∧ o._pos._x = c)
    (hd : ∃ o ∈ l, o.isAlive = true ∧ o._pos._y = d)
    (haM : a ≤ FLT_MAX) (hbM : b ≤ FLT_MAX) (hcm : FLT_MIN ≤ c) (hdm : FLT_MIN ≤ d) :
    getBoundingBoxOf E l
      = { left := a - halfSprite E, top := b - halfSprite E
          right := c + halfSprite E, bottom := d + halfSprite E } := by
  obtain ⟨l1, l2, l3⟩ := foldl_bboxScanStep_left l {}
  obtain ⟨t1, t2, t3⟩ := foldl_bboxScanStep_top l {}
  obtain ⟨r1, r2, r3⟩ := foldl_bboxScanStep_right l {}
  obtain ⟨b1, b2, b3⟩ := foldl_bboxScanStep_bottom l {}
  have hal : (l.foldl bboxScanStep {}).atLeastOneEnemyAlive = true := by
    rw [foldl_bboxScanStep_alive]
    obtain ⟨o, ho, hoal, _⟩ := ha
    simp only [Bool.false_or, List.any_eq_true]
    exact ⟨o, ho, hoal⟩
  have eL : (l.foldl bboxScanStep {}).left = a := by
    obtain ⟨o, ho, hoal, hox⟩ := ha
    have hle := l2 o ho hoal
    rcases l3 with h | ⟨x, hx, hxal, hxe⟩
    · have : (l.foldl bboxScanStep {}).left = FLT_MAX := h
      linarith
    · have := (hin x hx hxal).1
      linarith
  have eT : (l.foldl bboxScanStep {}).top = b := by
    obtain ⟨o, ho, hoal, hox⟩ := hb
    have hle := t2 o ho hoal
    rcases t3 with h | ⟨x, hx, hxal, hxe⟩
    · have : (l.foldl bboxScanStep {}).top = FLT_MAX := h
      linarith
    · have := (hin x hx hxal).2.2.1
      linarith
  have eR : (l.foldl bboxScanStep {}).right = c := by
    obtain ⟨o, ho, hoal, hox⟩ := hc
    have hle := r2 o ho hoal
    rcases r3 with h | ⟨x, hx, hxal, hxe⟩
    · have : (l.foldl bboxScanStep {}).right = FLT_MIN := h
      linarith
    · have := (hin x hx hxal).2.1
      linarith
  have eB : (l.foldl bboxScanStep {}).bottom = d := by
    obtain ⟨o, ho, hoal, hox⟩ := hd
    have hle := b2 o ho hoal
    rcases b3 with h | ⟨x, hx, hxal, hxe⟩
    · have : (l.foldl bboxScanStep {}).bottom = FLT_MIN := h
      linarith
    · have := (hin x hx hxal).2.2.2
      linarith
  unfold getBoundingBoxOf
  simp only [hal, if_true, eL, eT, eR, eB]

theorem initEnemiesFrom_length (E : Engine) (l : List GameObject) (i : Nat) :
    (GameEngine.initEnemiesFrom E i l).length = l.length := by
  induction l generalizing i with
  | nil => rfl
  | cons e es ih => simp [GameEngine.initEnemiesFrom, ih]

theorem initEnemiesFrom_getElem? (E : Engine) (l : List GameObject) (i j : Nat) :
    (GameEngine.initEnemiesFrom E i l)[j]? = (l[j]?).map (GameEngine.initEnemy E (i + j)) := by
  induction l generalizing i j with
  | nil => simp [GameEngine.initEnemiesFrom]
  | cons e es ih =>
    cases j with
    | zero => simp [GameEngine.initEnemiesFrom]
    | succ j =>
      simp only [GameEngine.initEnemiesFrom, List.getElem?_cons_succ, ih]
      have : i + 1 + j = i + (j + 1) := by omega
      rw [this]

theorem mem_initEnemiesFrom (E : Engine) (l : List GameObject) (i : Nat) (o : GameObject)
    (ho : o ∈ GameEngine.initEnemiesFrom E i l) :
    ∃ j, j < l.length ∧ ∃ e, o = GameEngine.initEnemy E (i + j) e := by
  obtain ⟨j, hj, hje⟩ := List.mem_iff_getElem.1 ho
  have hj2 : j < l.length := by rwa [initEnemiesFrom_length] at hj
  have h1 : (GameEngine.initEnemiesFrom E i l)[j]? = some o := by
    rw [List.getElem?_eq_getElem hj, hje]
  rw [initEnemiesFrom_getElem?, List.getElem?_eq_getElem hj2] at h1
  exact ⟨j, hj2, l[j], (Option.some.inj h1).symm⟩

theorem initEnemy_mem (E : Engine) (l : List GameObject) (j : Nat) (hj : j < l.length) :
    GameEngine.initEnemy E j (l.get ⟨j, hj⟩) ∈ GameEngine.initEnemiesFrom E 0 l := by
  have h1 := initEnemiesFrom_getElem? E l 0 j
  rw [List.getElem?_eq_getElem hj] at h1
  simp only [Option.map_some', zero_add] at h1
  exact List.mem_iff_getElem?.2 ⟨j, h1⟩

theorem initEnemy_alive (E : Engine) (i : Nat) (e : GameObject) :
    (GameEngine.initEnemy E i e).isAlive = true := by
  simp [GameEngine.initEnemy, GameObject.setHealth, GameObject.isAlive]

theorem FLT_MIN_le_one : FLT_MIN ≤ 1 := by
  unfold FLT_MIN
  norm_num

theorem FLT_MIN_pos : 0 < FLT_MIN := by
  unfold FLT_MIN
  norm_num

/-- The two boxes that `initEnemies` computes for the full grid: when the sprite is at
least one pixel wide and the grid origin is within the float range, the grid
spans `ENEMY_COLS` sprites from the left edge 0 and `ENEMY_ROWS` sprites from
the top edge `FontRowHeight + 10` (with an odd sprite size the halves are rounded down). -/
theorem getBoundingBoxOf_initEnemiesFrom (E : Engine) (l : List GameObject)
    (hl : l.length = Config.ENEMY_COUNT) (hS : 1 ≤ E.SpriteSize)
    (hsmall : (E.FontRowHeight : ℚ) + 10 + halfSprite E ≤ FLT_MAX) :
    getBoundingBoxOf E (GameEngine.initEnemiesFrom E 0 l)
      = { left := 0
          top := (E.FontRowHeight : ℚ) + 10
          right := 9 * (E.SpriteSize : ℚ) + 2 * halfSprite E
          bottom := (E.FontRowHeight : ℚ) + 10 + 4 * (E.SpriteSize : ℚ) + 2 * halfSprite E } := by
  have hh : (0 : ℚ) ≤ halfSprite E := by unfold halfSprite; positivity
  have hS' : (1 : ℚ) ≤ (E.SpriteSize : ℚ) := by exact_mod_cast hS
  have hF : (0 : ℚ) ≤ (E.FontRowHeight : ℚ) := by positivity
  have h0 : 0 < l.length := by rw [hl]; decide
  have h49 : 49 < l.length := by rw [hl]; decide
  have m0 := initEnemy_mem E l 0 h0
  have m49 := initEnemy_mem E l 49 h49
  have key := getBoundingBoxOf_eq_of_bounds E (GameEngine.initEnemiesFrom E 0 l)
    (halfSprite E) ((E.FontRowHeight : ℚ) + 10 + halfSprite E)
    (9 * (E.SpriteSize : ℚ) + halfSprite E)
    ((E.FontRowHeight : ℚ) + 10 + 4 * (E.SpriteSize : ℚ) + halfSprite E)
    (by
      intro o ho _
      obtain ⟨j, hj, e, rfl⟩ := mem_initEnemiesFrom E l 0 o ho
      rw [hl] at hj
      have hj : j < 50 := hj
      have hc : (j / 5 : Nat) ≤ 9 := by omega
      have hr : (j % 5 : Nat) ≤ 4 := by omega
      have hc' : (((0 + j) / Config.ENEMY_ROWS : Nat) : ℚ) ≤ 9 := by
        rw [zero_add]; exact_mod_cast hc
      have hr' : (((0 + j) % Config.ENEMY_ROWS : Nat) : ℚ) ≤ 4 := by
        rw [zero_add]; exact_mod_cast hr
      have hc0 : (0 : ℚ) ≤ (((0 + j) / Config.ENEMY_ROWS : Nat) : ℚ) := by positivity
      have hr0 : (0 : ℚ) ≤ (((0 + j) % Config.ENEMY_ROWS : Nat) : ℚ) := by positivity
      simp only [GameEngine.initEnemy, GameObject.setHealth, GameObject.setPosition]
      push_cast
      refine ⟨?_, ?_, ?_, ?_⟩ <;> nlinarith)
    ⟨_, m0, initEnemy_alive E _ _, by simp [GameEngine.initEnemy, GameObject.setHealth, GameObject.setPosition]⟩
    ⟨_, m0, initEnemy_alive E _ _, by simp [GameEngine.initEnemy, GameObject.setHealth, GameObject.setPosition]⟩
    ⟨_, m49, initEnemy_alive E _ _, by
      norm_num [GameEngine.initEnemy, GameObject.setHealth, GameObject.setPosition,
        Config.ENEMY_ROWS]⟩
    ⟨_, m49, initEnemy_alive E _ _, by
      norm_num [GameEngine.initEnemy, GameObject.setHealth, GameObject.setPosition,
        Config.ENEMY_ROWS]⟩
    (by linarith) hsmall
    (by have := FLT_MIN_le_one; linarith)
    (by have := FLT_MIN_le_one; linarith)
  rw [key]
  congr 1 <;> ring

theorem foldl_rocketScanStep_dead (E : Engine) (bbox orig : BoundingBox)
    (l : List GameObject) (acc : GameEngine.RocketScan)
    (h : ∀ r ∈ l, r.isAlive = false) :
    l.foldl (GameEngine.rocketScanStep E bbox orig) acc
      = { acc with rockets := acc.rockets ++ l } := by
  induction l generalizing acc with
  | nil => simp
  | cons r rs ih =>
    have hr : r.isAlive = false := h r (List.mem_cons_self r rs)
    have hstep : GameEngine.rocketScanStep E bbox orig acc r
        = { acc with rockets := acc.rockets ++ [r] } := by
      simp [GameEngine.rocketScanStep, GameEngine.rocketTarget, hr]
    rw [List.foldl_cons, hstep, ih _ fun x hx => h x (List.mem_cons_of_mem r hx)]
    simp

/-- With no alive rocket the rocket loop of `updateEnemies` changes nothing. -/
theorem rocketPhase_no_alive (E : Engine) (s : GameEngine)
    (h : ∀ r ∈ s._rockets, r.isAlive = false) : GameEngine.rocketPhase E s = s := by
  unfold GameEngine.rocketPhase
  rw [foldl_rocketScanStep_dead E _ _ _ _ h]
  simp

/-- Above the bottom of the canvas and with the player outside the alive box, the
first two branches of `updateEnemies` change nothing and do not return. -/
theorem enemyPlayerCollision_clear (E : Engine) (s : GameEngine)
    (hb : s._enemyBbox.bottom < (E.CanvasHeight : ℚ))
    (hp : s._enemyBbox.intersectsWith s._player = false) :
    GameEngine.enemyPlayerCollision E s = (s, false) := by
  unfold GameEngine.enemyPlayerCollision
  rw [if_neg (not_le.2 hb)]
  simp [hp]

/-- An alive bomb in slot 0 that takes the player's last life ends `updateBombs`. -/
theorem updateBombs_kill (E : Engine) (dis : Nat → Nat) (s : GameEngine)
    (b : GameObject) (rest : List GameObject) (hb : s._bombs = b :: rest)
    (hal : b.isAlive = true) (hy : ¬ b.getPosition._y > (E.CanvasHeight : ℚ))
    (hint : b.intersectsWith s._player (halfSprite E) = true)
    (hdead : s._player.hit.isAlive = false) :
    GameEngine.updateBombs E dis s
      = { s with
          _player := s._player.hit
          _timestampOfGameOver := s._currentTimestamp
          _gamestate := GAMESTATE.GAMEOVER
          _bombs := b.destroy :: rest } := by
  unfold GameEngine.updateBombs
  rw [hb]
  simp [GameEngine.updateBombsLoop, hal, hy, hint, hdead]

theorem freshPlay_enemyBbox :
    freshPlay._enemyBbox = { left := 0, top := 28, right := 320, bottom := 188 } := by
  have h := getBoundingBoxOf_initEnemiesFrom sampleEngine
    (List.replicate Config.ENEMY_COUNT {}) (by simp) (by decide)
    (by norm_num [FLT_MAX, halfSprite, sampleEngine])
  show getBoundingBoxOf sampleEngine
    (GameEngine.initEnemiesFrom sampleEngine 0 (List.replicate Config.ENEMY_COUNT {})) = _
  rw [h]
  norm_num [halfSprite, sampleEngine]

theorem freshPlay_player :
    freshPlay._player = { _pos := { _x := 320, _y := 464 }, _health := 3 } := by
  show ({ _pos := { _x := ((sampleEngine.CanvasWidth / 2 : Nat) : ℚ),
                    _y := (sampleEngine.CanvasHeight : ℚ) - halfSprite sampleEngine },
          _health := Config.PLAYER_HEALTH } : GameObject) = _
  norm_num [halfSprite, sampleEngine]

theorem freshPlay_rockets_dead : ∀ r ∈ freshPlay._rockets, r.isAlive = false := by
  intro r hr
  have hr' : r ∈ (List.replicate Config.MAX_ROCKET_COUNT ({} : GameObject)).map
      (fun r => r.setHealth 0) := hr
  obtain ⟨x, _, rfl⟩ := List.mem_map.1 hr'
  rfl

theorem updateEnemies_bombOnPlayer :
    GameEngine.updateEnemies sampleEngine bombOnPlayer
      = GameEngine.moveFormation sampleEngine bombOnPlayer := by
  have hbox : bombOnPlayer._enemyBbox = { left := 0, top := 28, right := 320, bottom := 188 } :=
    freshPlay_enemyBbox
  have hpl : bombOnPlayer._player = { _pos := { _x := 320, _y := 464 }, _health := 1 } := by
    show freshPlay._player.setHealth 1 = _
    rw [freshPlay_player]
    rfl
  have h1 : GameEngine.enemyPlayerCollision sampleEngine bombOnPlayer = (bombOnPlayer, false) := by
    apply enemyPlayerCollision_clear
    · rw [hbox]; norm_num [sampleEngine]
    · rw [hbox, hpl]; norm_num [BoundingBox.intersectsWith, GameObject.getPosition]
  have h2 : GameEngine.rocketPhase sampleEngine bombOnPlayer = bombOnPlayer :=
    rocketPhase_no_alive sampleEngine bombOnPlayer freshPlay_rockets_dead
  unfold GameEngine.updateEnemies
  simp only [h1, h2]
  rfl

/-- The frame in which the bomb of `bombOnPlayer` takes the player's last life. -/
theorem update_bombOnPlayer (dis : Nat → Nat) :
    GameEngine.update sampleEngine dis bombOnPlayer
      = GameEngine.updateRockets sampleEngine
          { GameEngine.moveFormation sampleEngine bombOnPlayer with
            _player := bombOnPlayer._player.hit
            _timestampOfGameOver := 7
            _gamestate := GAMESTATE.GAMEOVER
            _bombs := (GameObject.destroy { _pos := { _x := 320, _y := 450 }, _health := 1 })
              :: List.replicate 9 {} } := by
  have hplay : bombOnPlayer._gamestate = GAMESTATE.PLAY := rfl
  unfold GameEngine.update
  rw [if_pos hplay, updateEnemies_bombOnPlayer]
  have hk := updateBombs_kill sampleEngine dis
    (GameEngine.moveFormation sampleEngine bombOnPlayer)
    { _pos := { _x := 320, _y := 450 }, _health := 1 } (List.replicate 9 {}) rfl rfl
    (by norm_num [GameObject.getPosition, sampleEngine])
    (by
      show GameObject.intersectsWith { _pos := { _x := 320, _y := 450 }, _health := 1 }
        (freshPlay._player.setHealth 1) (halfSprite sampleEngine) = true
      rw [freshPlay_player]
      norm_num [GameObject.intersectsWith, GameObject.setHealth, halfSprite, sampleEngine])
    (by
      show (freshPlay._player.setHealth 1).hit.isAlive = false
      rw [freshPlay_player]
      rfl)
  rw [hk]
  rfl

theorem handleEvents_restart (E : Engine) (now shotNow : ℚ) (keys : PlayerInput)
    (s : GameEngine) (hf : keys.fire = true) (hl : s._liftedFireKeyBefore = true)
    (hg : s._gamestate = GAMESTATE.GAMEOVER) (ht : now - s._timestampOfLastFireKey > 2) :
    GameEngine.handleEvents E now shotNow keys s
      = GameEngine.restart E
          { s with
            _currentTimestamp := now
            _msPerFrame := now - s._previousTimestamp
            _previousTimestamp := now } := by
  simp [GameEngine.handleEvents, GameEngine.handleFireKey, hf, hl, hg, ht]

theorem spawnRocket_eq_none (p : Position) (l : List GameObject) :
    GameEngine.spawnRocket p l = none ↔ ∀ r ∈ l, r.isAlive = true := by
  induction l with
  | nil => simp [GameEngine.spawnRocket]
  | cons r rs ih =>
    unfold GameEngine.spawnRocket
    cases hr : r.isAlive
    · simp [hr]
    · simp [hr, ih]

theorem spawnRocket_eq_some (p : Position) (l l1 : List GameObject)
    (h : GameEngine.spawnRocket p l = some l1) :
    ∃ i, i < l.length ∧ (∀ j, j < i → (l.getD j {}).isAlive = true)
      ∧ (l.getD i {}).isAlive = false
      ∧ l1 = l.set i { _pos := p, _health := 1 } := by
  induction l generalizing l1 with
  | nil => simp [GameEngine.spawnRocket] at h
  | cons r rs ih =>
    unfold GameEngine.spawnRocket at h
    cases hr : r.isAlive
    · simp only [hr, Bool.not_false, if_true, Option.some.injEq] at h
      refine ⟨0, by simp, ?_, by simpa using hr, ?_⟩
      · intro j hj
        omega
      · rw [← h]
        rfl
    · simp only [hr, Bool.not_true, Bool.false_eq_true, if_false, Option.map_eq_some'] at h
      obtain ⟨l2, hl2, rfl⟩ := h
      obtain ⟨i, hi, hbefore, hat, hset⟩ := ih l2 hl2
      refine ⟨i + 1, by simpa using hi, ?_, by simpa using hat, ?_⟩
      · intro j hj
        cases j with
        | zero => simpa using hr
        | succ j => simpa using hbefore j (by omega)
      · rw [hset]
        rfl

theorem spawnRocket_aliveCount (p : Position) (l l1 : List GameObject)
    (h : GameEngine.spawnRocket p l = some l1) :
    aliveCount l1 = aliveCount l + 1 ∧ l1.length = l.length := by
  induction l generalizing l1 with
  | nil => simp [GameEngine.spawnRocket] at h
  | cons r rs ih =>
    unfold GameEngine.spawnRocket at h
    cases hr : r.isAlive
    · simp only [hr, Bool.not_false, if_true, Option.some.injEq] at h
      have hnew : ((r.setPosition p).setHealth 1).isAlive = true := by
        simp [GameObject.isAlive, GameObject.setHealth]
      rw [← h]
      unfold aliveCount
      simp only [List.countP_cons, hnew, hr, if_true, List.length_cons]
      simp
    · simp only [hr, Bool.not_true, Bool.false_eq_true, if_false, Option.map_eq_some'] at h
      obtain ⟨l2, hl2, rfl⟩ := h
      obtain ⟨h1, h2⟩ := ih l2 hl2
      unfold aliveCount at h1 ⊢
      simp only [List.countP_cons, hr, if_true, List.length_cons, h2, h1, and_true]

theorem aliveCount_le_length (l : List GameObject) : aliveCount l ≤ l.length :=
  List.countP_le_length _

theorem truncToInt_centre (S h c : Nat) (hS : 1 ≤ S) (hh : h < S) :
    truncToInt (((c : ℚ) * (S : ℚ) + (h : ℚ)) / (S : ℚ)) = (c : Int) := by
  have hSq : (0 : ℚ) < (S : ℚ) := by exact_mod_cast hS
  have hhq : (h : ℚ) < (S : ℚ) := by exact_mod_cast hh
  have hh0 : (0 : ℚ) ≤ (h : ℚ) := by positivity
  have hc0 : (0 : ℚ) ≤ (c : ℚ) := by positivity
  have hq : ((c : ℚ) * (S : ℚ) + (h : ℚ)) / (S : ℚ) = (c : ℚ) + (h : ℚ) / (S : ℚ) := by
    field_simp
  have hfrac0 : (0 : ℚ) ≤ (h : ℚ) / (S : ℚ) := div_nonneg hh0 (le_of_lt hSq)
  have hfrac1 : (h : ℚ) / (S : ℚ) < 1 := (div_lt_one hSq).2 hhq
  unfold truncToInt
  rw [hq, if_pos (by linarith), Int.floor_eq_iff]
  constructor
  · push_cast; linarith
  · push_cast; linarith

theorem halfSprite_lt (E : Engine) (hS : 1 ≤ E.SpriteSize) : E.SpriteSize / 2 < E.SpriteSize :=
  Nat.div_lt_self hS (by decide)

/-- A rocket at the horizontal centre of formation column `c` is assigned column `c`. -/
theorem rocketColumn_centre (E : Engine) (orig : BoundingBox) (r : GameObject) (c : Nat)
    (hS : 1 ≤ E.SpriteSize) (hc : c < Config.ENEMY_COLS)
    (hx : r._pos._x = orig.left + (c : ℚ) * (E.SpriteSize : ℚ) + halfSprite E) :
    GameEngine.rocketColumn E orig r = some (c : Int) := by
  have hc' : c < 10 := hc
  have hcol : truncToInt ((r.getPosition._x - orig.left) / (E.SpriteSize : ℚ)) = (c : Int) := by
    have : r.getPosition._x - orig.left
        = (c : ℚ) * (E.SpriteSize : ℚ) + ((E.SpriteSize / 2 : Nat) : ℚ) := by
      unfold GameObject.getPosition
      rw [hx]
      unfold halfSprite
      ring
    rw [this]
    exact truncToInt_centre E.SpriteSize (E.SpriteSize / 2) c hS (halfSprite_lt E hS)
  unfold GameEngine.rocketColumn
  simp only [hcol]
  have h1 : ¬ ((c : Int) > ((Config.ENEMY_COLS : Nat) : Int) ∨ (c : Int) < 0) := by
    show ¬ ((c : Int) > ((10 : Nat) : Int) ∨ (c : Int) < 0)
    omega
  have h2 : ¬ ((c : Int) = ((Config.ENEMY_COLS : Nat) : Int)) := by
    show ¬ ((c : Int) = ((10 : Nat) : Int))
    omega
  rw [if_neg h1, if_neg h2]

/-- The column scan returns an index of the scanned range, of an alive enemy that
intersects the rocket. -/
theorem scanColumn_eq_some (E : Engine) (enemies : List GameObject) (r : GameObject)
    (end_ n i : Nat) (h : GameEngine.scanColumn E enemies r end_ n = some i) :
    end_ ≤ i ∧ i < end_ + n ∧ (enemies.getD i {}).isAlive = true
      ∧ (enemies.getD i {}).intersectsWith r (halfSprite E) = true := by
  induction n with
  | zero => simp [GameEngine.scanColumn] at h
  | succ n ih =>
    unfold GameEngine.scanColumn at h
    split_ifs at h with hhit
    · have hi : end_ + n = i := Option.some.inj h
      subst hi
      simp only [Bool.and_eq_true] at hhit
      exact ⟨by omega, by omega, hhit.1, hhit.2⟩
    · obtain ⟨a, b, c, d⟩ := ih h
      exact ⟨a, by omega, c, d⟩

theorem aliveCount_destroyAt (l : List GameObject) (i : Nat) :
    aliveCount l ≤ aliveCount (GameEngine.destroyAt l i) + 1 := by
  induction l generalizing i with
  | nil => simp [GameEngine.destroyAt]
  | cons e es ih =>
    cases i with
    | zero =>
      unfold aliveCount
      simp only [GameEngine.destroyAt, List.countP_cons]
      split_ifs <;> omega
    | succ i =>
      have := ih i
      unfold aliveCount at this ⊢
      simp only [GameEngine.destroyAt, List.countP_cons]
      omega

theorem getD_destroyAt_ne (l : List GameObject) (i j : Nat) (hij : j ≠ i) :
    (GameEngine.destroyAt l i).getD j {} = l.getD j {} := by
  induction l generalizing i j with
  | nil => simp [GameEngine.destroyAt]
  | cons e es ih =>
    cases i with
    | zero =>
      cases j with
      | zero => exact absurd rfl hij
      | succ j => simp [GameEngine.destroyAt]
    | succ i =>
      cases j with
      | zero => simp [GameEngine.destroyAt]
      | succ j =>
        simp only [GameEngine.destroyAt, List.getD_cons_succ]
        exact ih i j (by omega)

theorem initEnemiesFrom_getD (E : Engine) (l : List GameObject) (j : Nat)
    (hj : j < l.length) :
    (GameEngine.initEnemiesFrom E 0 l).getD j {} = GameEngine.initEnemy E j (l.getD j {}) := by
  rw [List.getD_eq_getElem?_getD, List.getD_eq_getElem?_getD, initEnemiesFrom_getElem?,
    List.getElem?_eq_getElem hj]
  simp

theorem freshPlay_enemies :
    freshPlay._enemies
      = GameEngine.initEnemiesFrom sampleEngine 0 (List.replicate Config.ENEMY_COUNT {}) :=
  rfl

theorem freshPlay_enemyBboxOriginal :
    freshPlay._enemyBboxOriginal = { left := 0, top := 28, right := 320, bottom := 188 } :=
  freshPlay_enemyBbox

/-- In the full initial formation the rocket `columnTwoRocket` hits enemy 14, the
bottom enemy of the third group of `ENEMY_ROWS` = 5 enemies. -/
theorem rocketTarget_columnTwoRocket :
    GameEngine.rocketTarget sampleEngine freshPlay._enemyBbox freshPlay._enemyBboxOriginal
      freshPlay._enemies columnTwoRocket = some 14 := by
  have hcol : GameEngine.rocketColumn sampleEngine freshPlay._enemyBboxOriginal columnTwoRocket
      = some ((2 : Nat) : Int) := by
    apply rocketColumn_centre sampleEngine _ _ 2 (by decide) (by decide)
    rw [freshPlay_enemyBboxOriginal]
    norm_num [columnTwoRocket, halfSprite, sampleEngine]
  have hbox : freshPlay._enemyBbox.intersectsWith columnTwoRocket = true := by
    rw [freshPlay_enemyBbox]
    norm_num [BoundingBox.intersectsWith, GameObject.getPosition, columnTwoRocket]
  have h14 : freshPlay._enemies.getD 14 {}
      = { _pos := { _x := 80, _y := 172 }, _health := 1 } := by
    rw [freshPlay_enemies, initEnemiesFrom_getD _ _ 14 (by rw [List.length_replicate]; decide)]
    norm_num [GameEngine.initEnemy, GameObject.setPosition, GameObject.setHealth,
      Config.ENEMY_ROWS, halfSprite, sampleEngine]
  have hal : columnTwoRocket.isAlive = true := rfl
  unfold GameEngine.rocketTarget
  simp only [hal, hbox, hcol, Bool.not_true, Bool.false_eq_true, if_false]
  have hend : (((2 : Nat) : Int) * ((Config.ENEMY_ROWS : Nat) : Int)).toNat = 10 := by decide
  rw [hend]
  show GameEngine.scanColumn sampleEngine freshPlay._enemies columnTwoRocket 10 (4 + 1) = some 14
  unfold GameEngine.scanColumn
  rw [show 10 + 4 = 14 from rfl, h14]
  norm_num [GameObject.isAlive, GameObject.intersectsWith, columnTwoRocket, halfSprite,
    sampleEngine]

theorem foldl_rocketScanStep_no_target (E : Engine) (bbox orig : BoundingBox)
    (l : List GameObject) (acc : GameEngine.RocketScan)
    (h : ∀ r ∈ l, GameEngine.rocketTarget E bbox orig acc.enemies r = none) :
    l.foldl (GameEngine.rocketScanStep E bbox orig) acc
      = { acc with rockets := acc.rockets ++ l } := by
  induction l generalizing acc with
  | nil => simp
  | cons r rs ih =>
    have hr := h r (List.mem_cons_self r rs)
    have hstep : GameEngine.rocketScanStep E bbox orig acc r
        = { acc with rockets := acc.rockets ++ [r] } := by
      simp [GameEngine.rocketScanStep, hr]
    rw [List.foldl_cons, hstep,
      ih { acc with rockets := acc.rockets ++ [r] }
        (fun x hx => h x (List.mem_cons_of_mem r hx))]
    simp

/-- When no rocket finds a target the rocket loop of `updateEnemies` changes nothing. -/
theorem rocketPhase_no_target (E : Engine) (s : GameEngine)
    (h : ∀ r ∈ s._rockets,
      GameEngine.rocketTarget E s._enemyBbox s._enemyBboxOriginal s._enemies r = none) :
    GameEngine.rocketPhase E s = s := by
  unfold GameEngine.rocketPhase
  rw [foldl_rocketScanStep_no_target E _ _ _ _ h]
  simp

/-- The rocket loop when rocket 0 destroys enemy `i` and the other rockets are dead. -/
theorem rocketPhase_first_kills (E : Engine) (s : GameEngine) (r : GameObject)
    (rest : List GameObject) (i : Nat) (hr : s._rockets = r :: rest)
    (hrest : ∀ x ∈ rest, x.isAlive = false)
    (ht : GameEngine.rocketTarget E s._enemyBbox s._enemyBboxOriginal s._enemies r = some i) :
    GameEngine.rocketPhase E s
      = (if !((GameEngine.destroyAt s._enemies i).any fun e => e.isAlive) then
          { GameEngine.initEnemies E
              { s with
                _rockets := r.destroy :: rest
                _enemies := GameEngine.destroyAt s._enemies i
                _hscore := s._hscore.addScore } with
            _level := s._level + 1 }
        else
          { s with
            _rockets := r.destroy :: rest
            _enemies := GameEngine.destroyAt s._enemies i
            _hscore := s._hscore.addScore
            _enemyBbox := getBoundingBoxOf E (GameEngine.destroyAt s._enemies i) }) := by
  unfold GameEngine.rocketPhase
  rw [hr, List.foldl_cons]
  have hstep : GameEngine.rocketScanStep E s._enemyBbox s._enemyBboxOriginal
      { enemies := s._enemies, hscore := s._hscore } r
      = { rockets := [r.destroy], enemies := GameEngine.destroyAt s._enemies i,
          enemyDied := true, hscore := s._hscore.addScore } := by
    simp [GameEngine.rocketScanStep, ht]
  rw [hstep, foldl_rocketScanStep_dead E _ _ _ _ hrest]
  simp only [List.singleton_append, if_true]
  split_ifs <;> rfl

theorem updateEnemies_of_not_returned (E : Engine) (s : GameEngine)
    (h : (GameEngine.enemyPlayerCollision E s).2 = false) :
    GameEngine.updateEnemies E s
      = GameEngine.moveFormation E
          (GameEngine.rocketPhase E (GameEngine.enemyPlayerCollision E s).1) := by
  unfold GameEngine.updateEnemies
  simp only [h, Bool.false_eq_true, if_false]

theorem updateEnemies_of_returned (E : Engine) (s : GameEngine)
    (h : (GameEngine.enemyPlayerCollision E s).2 = true) :
    GameEngine.updateEnemies E s = (GameEngine.enemyPlayerCollision E s).1 := by
  unfold GameEngine.updateEnemies
  simp only [h, if_true]

theorem replicate_default_dead (n : Nat) :
    ∀ r ∈ List.replicate n ({} : GameObject), r.isAlive = false := by
  intro r hr
  rw [List.eq_of_mem_replicate hr]
  rfl

/-- A call of `updateEnemies` in which nothing collides is the movement block alone. -/
theorem updateEnemies_eq_moveFormation (E : Engine) (s : GameEngine)
    (hb : s._enemyBbox.bottom < (E.CanvasHeight : ℚ))
    (hp : s._enemyBbox.intersectsWith s._player = false)
    (hr : ∀ r ∈ s._rockets,
      GameEngine.rocketTarget E s._enemyBbox s._enemyBboxOriginal s._enemies r = none) :
    GameEngine.updateEnemies E s = GameEngine.moveFormation E s := by
  have hcol := enemyPlayerCollision_clear E s hb hp
  unfold GameEngine.updateEnemies
  simp only [hcol, rocketPhase_no_target E s hr]
  rfl

theorem rocketTarget_dead (E : Engine) (bbox orig : BoundingBox) (enemies : List GameObject)
    (r : GameObject) (h : r.isAlive = false) :
    GameEngine.rocketTarget E bbox orig enemies r = none := by
  simp [GameEngine.rocketTarget, h]

theorem rocketTarget_outside (E : Engine) (bbox orig : BoundingBox)
    (enemies : List GameObject) (r : GameObject) (h : bbox.intersectsWith r = false) :
    GameEngine.rocketTarget E bbox orig enemies r = none := by
  simp [GameEngine.rocketTarget, h]

theorem Highscore.step_old_le (h : Highscore) (op : HscoreOp) :
    h._oldHighscore ≤ (h.step op)._oldHighscore := by
  cases op
  · exact le_refl _
  · show h._oldHighscore ≤ if h._currentScore > h._oldHighscore then h._currentScore
      else h._oldHighscore
    split_ifs with hc
    · exact le_of_lt hc
    · exact le_refl _

theorem Highscore.step_current_nonneg (h : Highscore) (op : HscoreOp)
    (hc : 0 ≤ h._currentScore) : 0 ≤ (h.step op)._currentScore := by
  cases op
  · show 0 ≤ h._currentScore + 1
    omega
  · exact le_refl _

theorem Highscore.run_old_le (ops : List HscoreOp) (h : Highscore) :
    h._oldHighscore ≤ (Highscore.run ops h)._oldHighscore := by
  induction ops generalizing h with
  | nil => exact le_refl _
  | cons op ops ih =>
    exact le_trans (Highscore.step_old_le h op) (ih (h.step op))

theorem Highscore.run_current_nonneg (ops : List HscoreOp) (h : Highscore)
    (hc : 0 ≤ h._currentScore) : 0 ≤ (Highscore.run ops h)._currentScore := by
  induction ops generalizing h with
  | nil => exact hc
  | cons op ops ih => exact ih (h.step op) (Highscore.step_current_nonneg h op hc)

theorem Highscore.finishScore_idem (h : Highscore) (hc : 0 ≤ h._currentScore) :
    h.finishScore.finishScore = h.finishScore := by
  unfold Highscore.finishScore
  simp only []
  have : ¬ (0 : Int) > if h._currentScore > h._oldHighscore then h._currentScore
      else h._oldHighscore := by
    split_ifs with h1
    · omega
    · omega
  rw [if_neg this]

theorem Highscore.readFromDisk_current (h : Highscore) (file : Option HscoreFile) :
    (h.readFromDisk file)._currentScore = h._currentScore := by
  unfold Highscore.readFromDisk
  cases file with
  | none => rfl
  | some f =>
    simp only []
    split_ifs <;> rfl

/-- Outside PLAY and GAMEOVER `update` assigns the state of the intro timeline. -/
theorem update_gamestate_intro (E : Engine) (dis : Nat → Nat) (s : GameEngine)
    (hp : s._gamestate ≠ GAMESTATE.PLAY) (hg : s._gamestate ≠ GAMESTATE.GAMEOVER) :
    (GameEngine.update E dis s)._gamestate
      = introState (s._currentTimestamp - s._startTimestamp) := by
  unfold GameEngine.update introState
  simp only [if_neg hp, if_neg hg]
  split_ifs <;> rfl

theorem restart_gamestate (E : Engine) (s : GameEngine) :
    (GameEngine.restart E s)._gamestate = GAMESTATE.TRYAGAIN := rfl

theorem restart_startTimestamp (E : Engine) (s : GameEngine) :
    (GameEngine.restart E s)._startTimestamp = s._startTimestamp := rfl

theorem restart_currentTimestamp (E : Engine) (s : GameEngine) :
    (GameEngine.restart E s)._currentTimestamp = s._currentTimestamp := rfl

theorem initEnemy_eq (E : Engine) (j : Nat) (e : GameObject) :
    GameEngine.initEnemy E j e
      = { _pos :=
            { _x := ((j / Config.ENEMY_ROWS : Nat) : ℚ) * (E.SpriteSize : ℚ) + halfSprite E
              _y := ((E.FontRowHeight + 10 : Nat) : ℚ)
                + ((j % Config.ENEMY_ROWS : Nat) : ℚ) * (E.SpriteSize : ℚ) + halfSprite E }
          _health := 1 } := rfl

theorem restart_enemies (E : Engine) (s : GameEngine) :
    (GameEngine.restart E s)._enemies = GameEngine.initEnemiesFrom E 0 s._enemies := rfl

theorem restart_rockets (E : Engine) (s : GameEngine) :
    (GameEngine.restart E s)._rockets = s._rockets.map fun r => r.setHealth 0 := rfl

theorem restart_bombs (E : Engine) (s : GameEngine) :
    (GameEngine.restart E s)._bombs = s._bombs.map fun b => b.setHealth 0 := rfl

theorem restart_hscore (E : Engine) (s : GameEngine) :
    (GameEngine.restart E s)._hscore = s._hscore.finishScore := rfl

theorem restart_hscoreFile (E : Engine) (s : GameEngine) :
    (GameEngine.restart E s).hscoreFile = some s._hscore.finishScore.writeToDisk := rfl

theorem finishScore_old (h : Highscore) :
    h.finishScore._oldHighscore = max h._oldHighscore h._currentScore := by
  show (if h._currentScore > h._oldHighscore then h._currentScore else h._oldHighscore)
      = max h._oldHighscore h._currentScore
  split_ifs with hc
  · exact (max_eq_right (le_of_lt hc)).symm
  · exact (max_eq_left (not_lt.1 hc)).symm

theorem finishScore_writeToDisk (h : Highscore) (hc : 0 ≤ h._currentScore) :
    h.finishScore.writeToDisk
      = { fileversion := 1, score := max h._oldHighscore h._currentScore } := by
  have h1 : h.finishScore.writeToDisk
      = { fileversion := 1
          score := if (0 : Int) > h.finishScore._oldHighscore then 0
            else h.finishScore._oldHighscore } := rfl
  rw [h1, finishScore_old]
  have h2 : ¬ (0 : Int) > max h._oldHighscore h._currentScore :=
    not_lt.2 (le_trans hc (le_max_right _ _))
  rw [if_neg h2]

/-- In PLAY `update` runs the three update functions one after the other. -/
theorem update_play (E : Engine) (dis : Nat → Nat) (s : GameEngine)
    (h : s._gamestate = GAMESTATE.PLAY) :
    GameEngine.update E dis s
      = GameEngine.updateRockets E (GameEngine.updateBombs E dis (GameEngine.updateEnemies E s)) := by
  unfold GameEngine.update
  rw [if_pos h]

theorem updateEnemies_rocketInFlight :
    GameEngine.updateEnemies sampleEngine rocketInFlight
      = GameEngine.moveFormation sampleEngine rocketInFlight := by
  have hbox : rocketInFlight._enemyBbox = { left := 0, top := 28, right := 320, bottom := 188 } :=
    freshPlay_enemyBbox
  have hpl : rocketInFlight._player = { _pos := { _x := 320, _y := 464 }, _health := 1 } := by
    show freshPlay._player.setHealth 1 = _
    rw [freshPlay_player]
    rfl
  apply updateEnemies_eq_moveFormation
  · rw [hbox]; norm_num [sampleEngine]
  · rw [hbox, hpl]; norm_num [BoundingBox.intersectsWith, GameObject.getPosition]
  · intro r hr
    have hr' : r ∈ ({ _pos := { _x := 100, _y := 300 }, _health := 1 } : GameObject)
        :: List.replicate 9 {} := hr
    rcases List.mem_cons.1 hr' with rfl | hrest
    · apply rocketTarget_outside
      rw [hbox]
      norm_num [BoundingBox.intersectsWith, GameObject.getPosition]
    · exact rocketTarget_dead _ _ _ _ _ (replicate_default_dead 9 r hrest)

theorem updateBombs_rocketInFlight (dis : Nat → Nat) :
    GameEngine.updateBombs sampleEngine dis
        (GameEngine.updateEnemies sampleEngine rocketInFlight)
      = { GameEngine.moveFormation sampleEngine rocketInFlight with
          _player := rocketInFlight._player.hit
          _timestampOfGameOver := 7
          _gamestate := GAMESTATE.GAMEOVER
          _bombs := (GameObject.destroy { _pos := { _x := 320, _y := 450 }, _health := 1 })
            :: List.replicate 9 {} } := by
  rw [updateEnemies_rocketInFlight]
  have hk := updateBombs_kill sampleEngine dis
    (GameEngine.moveFormation sampleEngine rocketInFlight)
    { _pos := { _x := 320, _y := 450 }, _health := 1 } (List.replicate 9 {}) rfl rfl
    (by norm_num [GameObject.getPosition, sampleEngine])
    (by
      show GameObject.intersectsWith { _pos := { _x := 320, _y := 450 }, _health := 1 }
        (freshPlay._player.setHealth 1) (halfSprite sampleEngine) = true
      rw [freshPlay_player]
      norm_num [GameObject.intersectsWith, GameObject.setHealth, halfSprite, sampleEngine])
    (by
      show (freshPlay._player.setHealth 1).hit.isAlive = false
      rw [freshPlay_player]
      rfl)
  rw [hk]
  rfl

theorem gridAt_length (E : Engine) (dx dy : ℚ) (alive : Nat → Bool) :
    (gridAt E dx dy alive).length = Config.ENEMY_COUNT := by
  simp [gridAt]

theorem gridAt_getElem? (E : Engine) (dx dy : ℚ) (alive : Nat → Bool) (j : Nat)
    (hj : j < Config.ENEMY_COUNT) :
    (gridAt E dx dy alive)[j]?
      = some { _pos :=
                { _x := (GameEngine.initEnemy E j {})._pos._x + dx
                  _y := (GameEngine.initEnemy E j {})._pos._y + dy }
               _health := if alive j then 1 else 0 } := by
  simp [gridAt, List.getElem?_range hj]

theorem gridAt_getD (E : Engine) (dx dy : ℚ) (alive : Nat → Bool) (j : Nat)
    (hj : j < Config.ENEMY_COUNT) :
    (gridAt E dx dy alive).getD j {}
      = { _pos :=
            { _x := (GameEngine.initEnemy E j {})._pos._x + dx
              _y := (GameEngine.initEnemy E j {})._pos._y + dy }
          _health := if alive j then 1 else 0 } := by
  rw [List.getD_eq_getElem?_getD, gridAt_getElem? E dx dy alive j hj]
  rfl

theorem mem_gridAt (E : Engine) (dx dy : ℚ) (alive : Nat → Bool) (o : GameObject)
    (ho : o ∈ gridAt E dx dy alive) :
    ∃ j, j < Config.ENEMY_COUNT
      ∧ o = { _pos :=
                { _x := (GameEngine.initEnemy E j {})._pos._x + dx
                  _y := (GameEngine.initEnemy E j {})._pos._y + dy }
              _health := if alive j then 1 else 0 } := by
  obtain ⟨j, hj, rfl⟩ := List.mem_map.1 ho
  exact ⟨j, List.mem_range.1 hj, rfl⟩

theorem gridAt_mem (E : Engine) (dx dy : ℚ) (alive : Nat → Bool) (j : Nat)
    (hj : j < Config.ENEMY_COUNT) :
    ({ _pos :=
        { _x := (GameEngine.initEnemy E j {})._pos._x + dx
          _y := (GameEngine.initEnemy E j {})._pos._y + dy }
       _health := if alive j then 1 else 0 } : GameObject) ∈ gridAt E dx dy alive :=
  List.mem_map.2 ⟨j, List.mem_range.2 hj, rfl⟩

theorem destroyAt_getElem? (l : List GameObject) (i j : Nat) :
    (GameEngine.destroyAt l i)[j]?
      = if j = i then (l[j]?).map GameObject.destroy else l[j]? := by
  induction l generalizing i j with
  | nil => simp [GameEngine.destroyAt]
  | cons e es ih =>
    cases i with
    | zero =>
      cases j with
      | zero => simp [GameEngine.destroyAt]
      | succ j => simp [GameEngine.destroyAt]
    | succ i =>
      cases j with
      | zero => simp [GameEngine.destroyAt]
      | succ j => simp [GameEngine.destroyAt, ih]

theorem destroyAt_gridAt (E : Engine) (dx dy : ℚ) (alive : Nat → Bool) (i : Nat) :
    GameEngine.destroyAt (gridAt E dx dy alive) i
      = gridAt E dx dy fun j => alive j && !(j == i) := by
  apply List.ext_getElem?
  intro j
  rw [destroyAt_getElem?]
  by_cases hj : j < Config.ENEMY_COUNT
  · rw [gridAt_getElem? E dx dy alive j hj, gridAt_getElem? E dx dy _ j hj]
    by_cases hji : j = i
    · simp [hji, GameObject.destroy, GameObject.setHealth]
    · simp [hji]
  · have h1 : (gridAt E dx dy alive)[j]? = none :=
      List.getElem?_eq_none (by rw [gridAt_length]; omega)
    have h2 : (gridAt E dx dy fun j => alive j && !(j == i))[j]? = none :=
      List.getElem?_eq_none (by rw [gridAt_length]; omega)
    rw [h1, h2]
    split_ifs <;> rfl

theorem map_move_gridAt (E : Engine) (dx dy tx ty : ℚ) (alive : Nat → Bool) :
    (gridAt E dx dy alive).map (fun e =>
        (e.setPositionX (e.getPosition._x + tx)).setPositionY (e.getPosition._y + ty))
      = gridAt E (dx + tx) (dy + ty) alive := by
  unfold gridAt
  rw [List.map_map]
  apply List.map_congr_left
  intro j _
  simp only [Function.comp, GameObject.setPositionX, GameObject.setPositionY,
    GameObject.getPosition, add_assoc]

theorem aliveCount_gridAt (E : Engine) (dx dy : ℚ) (alive : Nat → Bool) :
    aliveCount (gridAt E dx dy alive) = (List.range Config.ENEMY_COUNT).countP alive := by
  unfold aliveCount gridAt
  rw [List.countP_map]
  apply List.countP_congr
  intro j _
  by_cases h : alive j = true <;> simp [GameObject.isAlive, h]

theorem any_alive_map (f : Nat → GameObject) (alive : Nat → Bool)
    (hf : ∀ j, (f j).isAlive = alive j) (l : List Nat) :
    ((l.map f).any fun e => e.isAlive) = l.any alive := by
  induction l with
  | nil => rfl
  | cons j js ih =>
    rw [List.map_cons, List.any_cons, List.any_cons, ih, hf]

theorem any_alive_gridAt (E : Engine) (dx dy : ℚ) (alive : Nat → Bool) :
    ((gridAt E dx dy alive).any fun e => e.isAlive)
      = (List.range Config.ENEMY_COUNT).any alive := by
  unfold gridAt
  apply any_alive_map
  intro j
  by_cases h : alive j = true
  · simp [GameObject.isAlive, h]
  · rw [Bool.not_eq_true] at h
    simp [GameObject.isAlive, h]

/-- The first enemy in array order that passes the radius test with the player. -/
theorem firstIntersecting_eq_some (E : Engine) (player : GameObject) (l : List GameObject)
    (i : Nat) (hi : i < l.length)
    (hint : (l.getD i {}).intersectsWith player (halfSprite E) = true)
    (hfirst : ∀ j, j < i → (l.getD j {}).intersectsWith player (halfSprite E) = false) :
    GameEngine.firstIntersecting E player l = some i := by
  induction l generalizing i with
  | nil => simp at hi
  | cons e es ih =>
    cases i with
    | zero =>
      have h0 : e.intersectsWith player (halfSprite E) = true := hint
      simp [GameEngine.firstIntersecting, h0]
    | succ i =>
      have h0 : e.intersectsWith player (halfSprite E) = false := hfirst 0 (Nat.succ_pos i)
      have h1 := ih i (by simpa using hi) hint
        (fun j hj => hfirst (j + 1) (Nat.succ_lt_succ hj))
      simp [GameEngine.firstIntersecting, h0, h1]

/-- The collision branch of `updateEnemies` when the player survives the hit. -/
theorem enemyPlayerCollision_hit (E : Engine) (s : GameEngine) (i : Nat)
    (hb : s._enemyBbox.bottom < (E.CanvasHeight : ℚ))
    (hp : s._enemyBbox.intersectsWith s._player = true)
    (hf : GameEngine.firstIntersecting E s._player s._enemies = some i)
    (hal : s._player.hit.isAlive = true) :
    GameEngine.enemyPlayerCollision E s
      = ({ s with _enemies := GameEngine.destroyAt s._enemies i, _player := s._player.hit },
          false) := by
  unfold GameEngine.enemyPlayerCollision
  rw [if_neg (not_le.2 hb), if_pos hp, hf]
  simp only [hal, Bool.not_true]
  rfl

/-- The collision branch of `updateEnemies` when the hit takes the last life. -/
theorem enemyPlayerCollision_kill (E : Engine) (s : GameEngine) (i : Nat)
    (hb : s._enemyBbox.bottom < (E.CanvasHeight : ℚ))
    (hp : s._enemyBbox.intersectsWith s._player = true)
    (hf : GameEngine.firstIntersecting E s._player s._enemies = some i)
    (hal : s._player.hit.isAlive = false) :
    GameEngine.enemyPlayerCollision E s
      = ({ s with
            _enemies := GameEngine.destroyAt s._enemies i
            _player := s._player.hit
            _gamestate := GAMESTATE.GAMEOVER
            hscoreFile := some s._hscore.writeToDisk }, true) := by
  unfold GameEngine.enemyPlayerCollision
  rw [if_neg (not_le.2 hb), if_pos hp, hf]
  simp only [hal, Bool.not_false]
  rfl

/-- A call of `updateEnemies` in which an enemy collides with the player, the player
survives and no rocket is alive. -/
theorem updateEnemies_collision_hit (E : Engine) (s : GameEngine) (i : Nat)
    (hb : s._enemyBbox.bottom < (E.CanvasHeight : ℚ))
    (hp : s._enemyBbox.intersectsWith s._player = true)
    (hf : GameEngine.firstIntersecting E s._player s._enemies = some i)
    (hal : s._player.hit.isAlive = true)
    (hr : ∀ r ∈ s._rockets, r.isAlive = false) :
    GameEngine.updateEnemies E s
      = GameEngine.moveFormation E
          { s with _enemies := GameEngine.destroyAt s._enemies i, _player := s._player.hit } := by
  have h1 := enemyPlayerCollision_hit E s i hb hp hf hal
  rw [updateEnemies_of_not_returned E s (by rw [h1]), h1]
  exact congrArg (GameEngine.moveFormation E)
    (rocketPhase_no_alive E
      { s with _enemies := GameEngine.destroyAt s._enemies i, _player := s._player.hit } hr)

theorem moveFormation_enemies (E : Engine) (m : GameEngine) :
    (GameEngine.moveFormation E m)._enemies
      = m._enemies.map fun e =>
          (e.setPositionX (e.getPosition._x + (GameEngine.travelStep E m).1._x)).setPositionY
            (e.getPosition._y + (GameEngine.travelStep E m).1._y) := rfl

/-- For the grid at offset (176, 280), no enemy with an index below 24 is within
radius 16 of the point (320, 464). -/
theorem grid_176_280_far (alive : Nat → Bool) (h : Int) (j : Nat) (hj : j < 24) :
    ((gridAt sampleEngine 176 280 alive).getD j {}).intersectsWith
      { _pos := { _x := 320, _y := 464 }, _health := h } (halfSprite sampleEngine) = false := by
  rw [gridAt_getD sampleEngine 176 280 alive j (by
    have : Config.ENEMY_COUNT = 50 := rfl
    omega)]
  interval_cases j <;>
    norm_num [GameObject.intersectsWith, GameEngine.initEnemy, GameObject.setPosition,
      GameObject.setHealth, halfSprite, sampleEngine]

/-- For the grid at offset (176, 280), enemy 24 stands at (320, 452), within radius 16
of the point (320, 464). -/
theorem grid_176_280_near (alive : Nat → Bool) (h : Int) :
    ((gridAt sampleEngine 176 280 alive).getD 24 {}).intersectsWith
      { _pos := { _x := 320, _y := 464 }, _health := h } (halfSprite sampleEngine) = true := by
  rw [gridAt_getD sampleEngine 176 280 alive 24 (by decide)]
  norm_num [GameObject.intersectsWith, GameEngine.initEnemy, GameObject.setPosition,
    GameObject.setHealth, halfSprite, sampleEngine]

theorem firstIntersecting_grid_176_280 (alive : Nat → Bool) (h : Int) :
    GameEngine.firstIntersecting sampleEngine { _pos := { _x := 320, _y := 464 }, _health := h }
      (gridAt sampleEngine 176 280 alive) = some 24 :=
  firstIntersecting_eq_some sampleEngine _ _ 24 (by rw [gridAt_length]; decide)
    (grid_176_280_near alive h) (fun j hj => grid_176_280_far alive h j hj)

theorem updateEnemies_lastEnemyOnPlayer :
    GameEngine.updateEnemies sampleEngine lastEnemyOnPlayer
      = GameEngine.moveFormation sampleEngine
          { lastEnemyOnPlayer with
            _enemies := gridAt sampleEngine 176 280 fun j => (j == 24) && !(j == 24)
            _player := { _pos := { _x := 320, _y := 464 }, _health := 2 } } := by
  have hu := updateEnemies_collision_hit sampleEngine lastEnemyOnPlayer 24
    (by norm_num [lastEnemyOnPlayer, sampleEngine])
    (by norm_num [lastEnemyOnPlayer, BoundingBox.intersectsWith, GameObject.getPosition])
    (firstIntersecting_grid_176_280 _ 3) rfl (replicate_default_dead 10)
  rw [hu]
  have he : GameEngine.destroyAt lastEnemyOnPlayer._enemies 24
      = gridAt sampleEngine 176 280 fun j => (j == 24) && !(j == 24) :=
    destroyAt_gridAt sampleEngine 176 280 (fun j => j == 24) 24
  rw [he]
  rfl

theorem gridAt_isAlive (E : Engine) (dx dy : ℚ) (alive : Nat → Bool) (j : Nat) :
    GameObject.isAlive
        { _pos :=
            { _x := (GameEngine.initEnemy E j {})._pos._x + dx
              _y := (GameEngine.initEnemy E j {})._pos._y + dy }
          _health := if alive j then 1 else 0 }
      = alive j := by
  by_cases h : alive j = true
  · simp [GameObject.isAlive, h]
  · rw [Bool.not_eq_true] at h
    simp [GameObject.isAlive, h]

/-- The box of a translated grid from bounds on its alive enemies that are attained. -/
theorem getBoundingBoxOf_gridAt (E : Engine) (dx dy : ℚ) (alive : Nat → Bool) (a b c d : ℚ)
    (hin : ∀ j, j < Config.ENEMY_COUNT → alive j = true →
      a ≤ (GameEngine.initEnemy E j {})._pos._x + dx
        ∧ (GameEngine.initEnemy E j {})._pos._x + dx ≤ c
        ∧ b ≤ (GameEngine.initEnemy E j {})._pos._y + dy
        ∧ (GameEngine.initEnemy E j {})._pos._y + dy ≤ d)
    (ha : ∃ j, j < Config.ENEMY_COUNT ∧ alive j = true
      ∧ (GameEngine.initEnemy E j {})._pos._x + dx = a)
    (hb : ∃ j, j < Config.ENEMY_COUNT ∧ alive j = true
      ∧ (GameEngine.initEnemy E j {})._pos._y + dy = b)
    (hc : ∃ j, j < Config.ENEMY_COUNT ∧ alive j = true
      ∧ (GameEngine.initEnemy E j {})._pos._x + dx = c)
    (hd : ∃ j, j < Config.ENEMY_COUNT ∧ alive j = true
      ∧ (GameEngine.initEnemy E j {})._pos._y + dy = d)
    (haM : a ≤ FLT_MAX) (hbM : b ≤ FLT_MAX) (hcm : FLT_MIN ≤ c) (hdm : FLT_MIN ≤ d) :
    getBoundingBoxOf E (gridAt E dx dy alive)
      = { left := a - halfSprite E, top := b - halfSprite E
          right := c + halfSprite E, bottom := d + halfSprite E } := by
  apply getBoundingBoxOf_eq_of_bounds E _ a b c d _ _ _ _ _ haM hbM hcm hdm
  · intro o ho hal
    obtain ⟨j, hj, rfl⟩ := mem_gridAt E dx dy alive o ho
    rw [gridAt_isAlive] at hal
    exact hin j hj hal
  · obtain ⟨j, hj, hal, hx⟩ := ha
    exact ⟨_, gridAt_mem E dx dy alive j hj, by rw [gridAt_isAlive]; exact hal, hx⟩
  · obtain ⟨j, hj, hal, hx⟩ := hb
    exact ⟨_, gridAt_mem E dx dy alive j hj, by rw [gridAt_isAlive]; exact hal, hx⟩
  · obtain ⟨j, hj, hal, hx⟩ := hc
    exact ⟨_, gridAt_mem E dx dy alive j hj, by rw [gridAt_isAlive]; exact hal, hx⟩
  · obtain ⟨j, hj, hal, hx⟩ := hd
    exact ⟨_, gridAt_mem E dx dy alive j hj, by rw [gridAt_isAlive]; exact hal, hx⟩

theorem FLT_MAX_large : (1000 : ℚ) ≤ FLT_MAX := by
  unfold FLT_MAX
  norm_num

/-- Position of enemy `j` of the grid of the sample engine. -/
theorem initEnemy_sample_pos (j : Nat) :
    (GameEngine.initEnemy sampleEngine j {})._pos
      = { _x := ((j / 5 : Nat) : ℚ) * 32 + 16, _y := 28 + ((j % 5 : Nat) : ℚ) * 32 + 16 } := by
  norm_num [GameEngine.initEnemy, GameObject.setPosition, GameObject.setHealth, halfSprite,
    sampleEngine]

theorem getBoundingBoxOf_twoInColumn (dx : ℚ) (hdx : 0 ≤ dx) (hdx2 : dx ≤ 400) :
    getBoundingBoxOf sampleEngine (gridAt sampleEngine dx 280 fun j => j == 20 || j == 24)
      = { left := 128 + dx, top := 308, right := 160 + dx, bottom := 468 } := by
  have h := getBoundingBoxOf_gridAt sampleEngine dx 280 (fun j => j == 20 || j == 24)
    (144 + dx) 324 (144 + dx) 452
    (by
      intro j _ hal
      have hj : j = 20 ∨ j = 24 := by simpa using hal
      rcases hj with rfl | rfl <;> rw [initEnemy_sample_pos] <;> norm_num)
    ⟨20, by decide, by decide, by rw [initEnemy_sample_pos]; norm_num⟩
    ⟨20, by decide, by decide, by rw [initEnemy_sample_pos]; norm_num⟩
    ⟨24, by decide, by decide, by rw [initEnemy_sample_pos]; norm_num⟩
    ⟨24, by decide, by decide, by rw [initEnemy_sample_pos]; norm_num⟩
    (by have := FLT_MAX_large; linarith) (by have := FLT_MAX_large; linarith)
    (by have := FLT_MIN_le_one; linarith) (by have := FLT_MIN_le_one; linarith)
  rw [h]
  norm_num [halfSprite, sampleEngine]
  constructor <;> ring

theorem getBoundingBoxOf_topOfColumn (dx : ℚ) (hdx : 0 ≤ dx) (hdx2 : dx ≤ 400) :
    getBoundingBoxOf sampleEngine (gridAt sampleEngine dx 280 fun j => j == 20)
      = { left := 128 + dx, top := 308, right := 160 + dx, bottom := 340 } := by
  have h := getBoundingBoxOf_gridAt sampleEngine dx 280 (fun j => j == 20)
    (144 + dx) 324 (144 + dx) 324
    (by
      intro j _ hal
      have hj : j = 20 := by simpa using hal
      subst hj
      rw [initEnemy_sample_pos]
      norm_num)
    ⟨20, by decide, by decide, by rw [initEnemy_sample_pos]; norm_num⟩
    ⟨20, by decide, by decide, by rw [initEnemy_sample_pos]; norm_num⟩
    ⟨20, by decide, by decide, by rw [initEnemy_sample_pos]; norm_num⟩
    ⟨20, by decide, by decide, by rw [initEnemy_sample_pos]; norm_num⟩
    (by have := FLT_MAX_large; linarith) (by have := FLT_MAX_large; linarith)
    (by have := FLT_MIN_le_one; linarith) (by have := FLT_MIN_le_one; linarith)
  rw [h]
  norm_num [halfSprite, sampleEngine]
  constructor <;> ring

theorem updateEnemies_twoInColumnOnPlayer :
    GameEngine.updateEnemies sampleEngine twoInColumnOnPlayer
      = GameEngine.moveFormation sampleEngine
          { twoInColumnOnPlayer with
            _enemies := gridAt sampleEngine 176 280 fun j => (j == 20 || j == 24) && !(j == 24)
            _player := { _pos := { _x := 320, _y := 464 }, _health := 2 } } := by
  have hu := updateEnemies_collision_hit sampleEngine twoInColumnOnPlayer 24
    (by norm_num [twoInColumnOnPlayer, sampleEngine])
    (by norm_num [twoInColumnOnPlayer, lastEnemyOnPlayer, BoundingBox.intersectsWith,
      GameObject.getPosition])
    (firstIntersecting_grid_176_280 _ 3) rfl (replicate_default_dead 10)
  rw [hu]
  have he : GameEngine.destroyAt twoInColumnOnPlayer._enemies 24
      = gridAt sampleEngine 176 280 fun j => (j == 20 || j == 24) && !(j == 24) :=
    destroyAt_gridAt sampleEngine 176 280 (fun j => j == 20 || j == 24) 24
  rw [he]
  rfl

theorem getBoundingBoxOf_neighbours :
    getBoundingBoxOf sampleEngine (gridAt sampleEngine 176 280 fun j => j == 19 || j == 29)
      = { left := 272, top := 436, right := 368, bottom := 468 } := by
  have h := getBoundingBoxOf_gridAt sampleEngine 176 280 (fun j => j == 19 || j == 29)
    288 452 352 452
    (by
      intro j _ hal
      have hj : j = 19 ∨ j = 29 := by simpa using hal
      rcases hj with rfl | rfl <;> rw [initEnemy_sample_pos] <;> norm_num)
    ⟨19, by decide, by decide, by rw [initEnemy_sample_pos]; norm_num⟩
    ⟨19, by decide, by decide, by rw [initEnemy_sample_pos]; norm_num⟩
    ⟨29, by decide, by decide, by rw [initEnemy_sample_pos]; norm_num⟩
    ⟨29, by decide, by decide, by rw [initEnemy_sample_pos]; norm_num⟩
    (by have := FLT_MAX_large; linarith) (by have := FLT_MAX_large; linarith)
    (by have := FLT_MIN_le_one; linarith) (by have := FLT_MIN_le_one; linarith)
  rw [h]
  norm_num [halfSprite, sampleEngine]

theorem enemyPlayerCollision_deadEnemyOnPlayer :
    GameEngine.enemyPlayerCollision sampleEngine deadEnemyOnPlayer
      = ({ deadEnemyOnPlayer with
            _enemies := gridAt sampleEngine 176 280 fun j => (j == 19 || j == 29) && !(j == 24)
            _player := { _pos := { _x := 320, _y := 464 }, _health := 2 } }, false) := by
  have hu := enemyPlayerCollision_hit sampleEngine deadEnemyOnPlayer 24
    (by norm_num [deadEnemyOnPlayer, sampleEngine])
    (by norm_num [deadEnemyOnPlayer, lastEnemyOnPlayer, BoundingBox.intersectsWith,
      GameObject.getPosition])
    (firstIntersecting_grid_176_280 _ 3) rfl
  rw [hu]
  have he : GameEngine.destroyAt deadEnemyOnPlayer._enemies 24
      = gridAt sampleEngine 176 280 fun j => (j == 19 || j == 29) && !(j == 24) :=
    destroyAt_gridAt sampleEngine 176 280 (fun j => j == 19 || j == 29) 24
  rw [he]
  rfl

theorem updateEnemies_enemyAndBombOnPlayer :
    GameEngine.updateEnemies sampleEngine enemyAndBombOnPlayer
      = { enemyAndBombOnPlayer with
          _enemies := GameEngine.destroyAt enemyAndBombOnPlayer._enemies 24
          _player := { _pos := { _x := 320, _y := 464 }, _health := 0 }
          _gamestate := GAMESTATE.GAMEOVER
          hscoreFile := some enemyAndBombOnPlayer._hscore.writeToDisk } := by
  have hk := enemyPlayerCollision_kill sampleEngine enemyAndBombOnPlayer 24
    (by norm_num [enemyAndBombOnPlayer, lastEnemyOnPlayer, sampleEngine])
    (by norm_num [enemyAndBombOnPlayer, lastEnemyOnPlayer, BoundingBox.intersectsWith,
      GameObject.getPosition])
    (firstIntersecting_grid_176_280 _ 1) rfl
  rw [updateEnemies_of_returned sampleEngine enemyAndBombOnPlayer (by rw [hk]), hk]
  rfl

theorem updateBombs_enemyAndBombOnPlayer (dis : Nat → Nat) :
    GameEngine.updateBombs sampleEngine dis
        (GameEngine.updateEnemies sampleEngine enemyAndBombOnPlayer)
      = { enemyAndBombOnPlayer with
          _enemies := GameEngine.destroyAt enemyAndBombOnPlayer._enemies 24
          _player := { _pos := { _x := 320, _y := 464 }, _health := -1 }
          _timestampOfGameOver := 100
          _gamestate := GAMESTATE.GAMEOVER
          hscoreFile := some enemyAndBombOnPlayer._hscore.writeToDisk
          _bombs := (GameObject.destroy { _pos := { _x := 320, _y := 452 }, _health := 1 })
            :: List.replicate 9 {} } := by
  rw [updateEnemies_enemyAndBombOnPlayer]
  have hk := updateBombs_kill sampleEngine dis
    { enemyAndBombOnPlayer with
      _enemies := GameEngine.destroyAt enemyAndBombOnPlayer._enemies 24
      _player := { _pos := { _x := 320, _y := 464 }, _health := 0 }
      _gamestate := GAMESTATE.GAMEOVER
      hscoreFile := some enemyAndBombOnPlayer._hscore.writeToDisk }
    { _pos := { _x := 320, _y := 452 }, _health := 1 } (List.replicate 9 {}) rfl rfl
    (by norm_num [GameObject.getPosition, sampleEngine])
    (by norm_num [GameObject.intersectsWith, halfSprite, sampleEngine])
    rfl
  rw [hk]
  rfl

theorem bombWalk_zero (enemies : List GameObject) (now : ℚ) (it : Nat) (w : GameEngine.BombWalk) :
    GameEngine.bombWalk enemies now 0 it w
      = if (enemies.getD (if it = enemies.length then 0 else it) {}).isAlive then
          { bomb := (w.bomb.setPosition
              (enemies.getD (if it = enemies.length then 0 else it) {}).getPosition).setHealth 1
            timestampOfLastBomb := now
            steps := w.steps + 1 }
        else { w with steps := w.steps + 1 } := by
  rw [GameEngine.bombWalk]
  split_ifs <;> simp_all

theorem bombWalk_succ (enemies : List GameObject) (now : ℚ) (k it : Nat) (w : GameEngine.BombWalk) :
    GameEngine.bombWalk enemies now (k + 1) it w
      = GameEngine.bombWalk enemies now k ((if it = enemies.length then 0 else it) + 1)
          { w with steps := w.steps + 1 } := by
  rw [GameEngine.bombWalk]
  split_ifs <;> simp_all

/-- The walk makes `index + 1` iterations, whatever the enemies. -/
theorem bombWalk_steps (enemies : List GameObject) (now : ℚ) (k it : Nat) (w : GameEngine.BombWalk) :
    (GameEngine.bombWalk enemies now k it w).steps = w.steps + k + 1 := by
  induction k generalizing it w with
  | zero =>
    rw [bombWalk_zero]
    split_ifs <;> rfl
  | succ k ih =>
    rw [bombWalk_succ, ih]
    show w.steps + 1 + k + 1 = w.steps + (k + 1) + 1
    omega

/-- The walk either leaves the bomb and the timestamp as they were or sets the
timestamp to `now`. -/
theorem bombWalk_cases (enemies : List GameObject) (now : ℚ) (k it : Nat) (w : GameEngine.BombWalk) :
    ((GameEngine.bombWalk enemies now k it w).bomb = w.bomb
        ∧ (GameEngine.bombWalk enemies now k it w).timestampOfLastBomb
            = w.timestampOfLastBomb)
      ∨ (GameEngine.bombWalk enemies now k it w).timestampOfLastBomb = now := by
  induction k generalizing it w with
  | zero =>
    rw [bombWalk_zero]
    split_ifs <;> first | exact Or.inr rfl | exact Or.inl ⟨rfl, rfl⟩
  | succ k ih =>
    rw [bombWalk_succ]
    exact ih _ _

/-- A walk that stays inside the array ends at the enemy `it + index`: it spawns a
bomb there when that enemy is alive and changes nothing but `steps` otherwise. -/
theorem bombWalk_inside (enemies : List GameObject) (now : ℚ) (k it : Nat) (w : GameEngine.BombWalk)
    (h : it + k < enemies.length) :
    GameEngine.bombWalk enemies now k it w
      = if (enemies.getD (it + k) {}).isAlive then
          { bomb := (w.bomb.setPosition (enemies.getD (it + k) {}).getPosition).setHealth 1
            timestampOfLastBomb := now
            steps := w.steps + k + 1 }
        else { w with steps := w.steps + k + 1 } := by
  induction k generalizing it w with
  | zero =>
    have hit : ¬ it = enemies.length := by omega
    rw [bombWalk_zero, if_neg hit]
    rfl
  | succ k ih =>
    have hit : ¬ it = enemies.length := by omega
    rw [bombWalk_succ, if_neg hit, ih _ _ (by omega)]
    have e1 : it + 1 + k = it + (k + 1) := by omega
    rw [e1]
    have e2 : w.steps + 1 + k + 1 = w.steps + (k + 1) + 1 := by omega
    simp only [e2]

theorem bombWalkWraps_inside (enemies : List GameObject) (k it : Nat)
    (h : it + k < enemies.length) : bombWalkWraps enemies k it = false := by
  induction k generalizing it with
  | zero =>
    have hit : ¬ it = enemies.length := by omega
    rw [bombWalkWraps]
    simp [hit]
  | succ k ih =>
    have hit : ¬ it = enemies.length := by omega
    rw [bombWalkWraps]
    simp only [hit, if_false, decide_False, Bool.false_or]
    exact ih _ (by omega)

theorem spawnedCount_self (l : List GameObject) : spawnedCount l l = 0 := by
  induction l with
  | nil => rfl
  | cons b bs ih =>
    show (if (!b.isAlive && b.isAlive) = true then 1 else 0) + spawnedCount bs bs = 0
    rw [ih]
    cases b.isAlive <;> rfl

theorem spawnedCount_cons_alive (b x : GameObject) (bs xs : List GameObject)
    (hb : b.isAlive = true) : spawnedCount (b :: bs) (x :: xs) = spawnedCount bs xs := by
  show (if (!b.isAlive && x.isAlive) = true then 1 else 0) + spawnedCount bs xs = _
  rw [hb]
  simp

theorem spawnedCount_cons_same (b : GameObject) (bs xs : List GameObject) :
    spawnedCount (b :: bs) (b :: xs) = spawnedCount bs xs := by
  show (if (!b.isAlive && b.isAlive) = true then 1 else 0) + spawnedCount bs xs = _
  cases b.isAlive <;> simp

theorem spawnedCount_cons_le (b x : GameObject) (bs xs : List GameObject) :
    spawnedCount (b :: bs) (x :: xs) ≤ 1 + spawnedCount bs xs := by
  show (if (!b.isAlive && x.isAlive) = true then 1 else 0) + spawnedCount bs xs ≤ _
  split_ifs <;> omega

/-- The loop of `updateBombs` keeps the size of the pool and turns at most one dead
slot into an alive bomb, and none while the cooldown runs. -/
theorem updateBombsLoop_spawned (E : Engine) (dis : Nat → Nat) (todo done : List GameObject)
    (s : GameEngine) :
    ∃ X, (GameEngine.updateBombsLoop E dis todo done s)._bombs = done ++ X
      ∧ X.length = todo.length
      ∧ spawnedCount todo X ≤ 1
      ∧ (s._currentTimestamp - s._timestampOfLastBomb < Config.TIME_BETWEEN_BOMBS →
          spawnedCount todo X = 0) := by
  induction todo generalizing done s with
  | nil => exact ⟨[], by simp [GameEngine.updateBombsLoop], rfl, Nat.zero_le _, fun _ => rfl⟩
  | cons b todo ih =>
    by_cases hb : b.isAlive = true
    · by_cases hy : b.getPosition._y > (E.CanvasHeight : ℚ)
      · obtain ⟨X, hX, hlen, h1, h0⟩ := ih (done ++ [b.destroy]) s
        refine ⟨b.destroy :: X, ?_, by simp [hlen], ?_, ?_⟩
        · simp only [GameEngine.updateBombsLoop, hb, hy,
            Bool.false_eq_true, Bool.not_true, Bool.not_false, if_true, if_false, ↓reduceIte]
          rw [hX]
          simp
        · rw [spawnedCount_cons_alive _ _ _ _ hb]
          exact h1
        · intro hc
          rw [spawnedCount_cons_alive _ _ _ _ hb]
          exact h0 hc
      · by_cases hi : b.intersectsWith s._player (halfSprite E) = true
        · by_cases hd : s._player.hit.isAlive = true
          · obtain ⟨X, hX, hlen, h1, h0⟩ :=
              ih (done ++ [b.destroy]) { s with _player := s._player.hit }
            refine ⟨b.destroy :: X, ?_, by simp [hlen], ?_, ?_⟩
            · simp only [GameEngine.updateBombsLoop, hb, hy, hi, hd,
                Bool.false_eq_true, Bool.not_true, Bool.not_false, if_true, if_false, ↓reduceIte]
              rw [hX]
              simp
            · rw [spawnedCount_cons_alive _ _ _ _ hb]
              exact h1
            · intro hc
              rw [spawnedCount_cons_alive _ _ _ _ hb]
              exact h0 hc
          · rw [Bool.not_eq_true] at hd
            refine ⟨b.destroy :: todo, ?_, rfl, ?_, ?_⟩
            · simp only [GameEngine.updateBombsLoop, hb, hy, hi, hd,
                Bool.false_eq_true, Bool.not_true, Bool.not_false, if_true, if_false, ↓reduceIte]
            · rw [spawnedCount_cons_alive _ _ _ _ hb, spawnedCount_self]
              exact Nat.zero_le _
            · intro _
              rw [spawnedCount_cons_alive _ _ _ _ hb, spawnedCount_self]
        · obtain ⟨X, hX, hlen, h1, h0⟩ :=
            ih (done ++ [b.setPositionY (b.getPosition._y + 150 * s._msPerFrame)]) s
          refine ⟨b.setPositionY (b.getPosition._y + 150 * s._msPerFrame) :: X, ?_,
            by simp [hlen], ?_, ?_⟩
          · simp only [GameEngine.updateBombsLoop, hb, hy, hi,
              Bool.false_eq_true, Bool.not_true, Bool.not_false, if_true, if_false, ↓reduceIte]
            rw [hX]
            simp
          · rw [spawnedCount_cons_alive _ _ _ _ hb]
            exact h1
          · intro hc
            rw [spawnedCount_cons_alive _ _ _ _ hb]
            exact h0 hc
    · by_cases hc : s._currentTimestamp - s._timestampOfLastBomb < Config.TIME_BETWEEN_BOMBS
      · obtain ⟨X, hX, hlen, h1, h0⟩ := ih (done ++ [b]) s
        refine ⟨b :: X, ?_, by simp [hlen], ?_, ?_⟩
        · simp only [GameEngine.updateBombsLoop, hb, hc,
            Bool.false_eq_true, Bool.not_true, Bool.not_false, if_true, if_false, ↓reduceIte]
          rw [hX]
          simp
        · rw [spawnedCount_cons_same, h0 hc]
          exact Nat.zero_le _
        · intro _
          rw [spawnedCount_cons_same, h0 hc]
      · obtain ⟨X, hX, hlen, h1, h0⟩ :=
          ih (done ++ [(GameEngine.bombWalk s._enemies s._currentTimestamp (dis s.rdCount) 0
              { bomb := b, timestampOfLastBomb := s._timestampOfLastBomb }).bomb])
            { s with
              _timestampOfLastBomb :=
                (GameEngine.bombWalk s._enemies s._currentTimestamp (dis s.rdCount) 0
                  { bomb := b, timestampOfLastBomb := s._timestampOfLastBomb }).timestampOfLastBomb
              rdCount := s.rdCount + 1 }
        refine ⟨(GameEngine.bombWalk s._enemies s._currentTimestamp (dis s.rdCount) 0
            { bomb := b, timestampOfLastBomb := s._timestampOfLastBomb }).bomb :: X, ?_,
          by simp [hlen], ?_, fun h => absurd h hc⟩
        · simp only [GameEngine.updateBombsLoop, hb, hc,
            Bool.false_eq_true, Bool.not_true, Bool.not_false, if_true, if_false, ↓reduceIte]
          rw [hX]
          simp
        · rcases bombWalk_cases s._enemies s._currentTimestamp (dis s.rdCount) 0
            { bomb := b, timestampOfLastBomb := s._timestampOfLastBomb } with ⟨hbomb, _⟩ | hts
          · rw [hbomb, spawnedCount_cons_same]
            exact h1
          · have hcool : s._currentTimestamp
                - (GameEngine.bombWalk s._enemies s._currentTimestamp (dis s.rdCount) 0
                    { bomb := b, timestampOfLastBomb := s._timestampOfLastBomb }).timestampOfLastBomb
                < Config.TIME_BETWEEN_BOMBS := by
              rw [hts]
              norm_num [Config.TIME_BETWEEN_BOMBS]
            have h2 := h0 hcool
            have h3 := spawnedCount_cons_le b
              (GameEngine.bombWalk s._enemies s._currentTimestamp (dis s.rdCount) 0
                { bomb := b, timestampOfLastBomb := s._timestampOfLastBomb }).bomb todo X
            omega

/-- The loop of `updateBombs` over dead slots when the cooldown has elapsed and every
drawn index names a dead enemy: each slot makes a draw and no bomb is spawned. -/
theorem updateBombsLoop_no_spawn (E : Engine) (dis : Nat → Nat) (todo done : List GameObject)
    (s : GameEngine) (hdead : ∀ b ∈ todo, b.isAlive = false)
    (hc : ¬ s._currentTimestamp - s._timestampOfLastBomb < Config.TIME_BETWEEN_BOMBS)
    (hk : ∀ n, dis n < s._enemies.length ∧ (s._enemies.getD (dis n) {}).isAlive = false) :
    GameEngine.updateBombsLoop E dis todo done s
      = { s with _bombs := done ++ todo, rdCount := s.rdCount + todo.length } := by
  induction todo generalizing done s with
  | nil => simp [GameEngine.updateBombsLoop]
  | cons b todo ih =>
    have hb : b.isAlive = false := hdead b (List.mem_cons_self b todo)
    have hw : GameEngine.bombWalk s._enemies s._currentTimestamp (dis s.rdCount) 0
          { bomb := b, timestampOfLastBomb := s._timestampOfLastBomb }
        = { bomb := b, timestampOfLastBomb := s._timestampOfLastBomb
            steps := 0 + dis s.rdCount + 1 } := by
      rw [bombWalk_inside _ _ _ _ _ (by rw [Nat.zero_add]; exact (hk s.rdCount).1)]
      rw [Nat.zero_add, (hk s.rdCount).2]
      rfl
    simp only [GameEngine.updateBombsLoop, hb, hc, hw,
      Bool.false_eq_true, Bool.not_true, Bool.not_false, if_true, if_false, ↓reduceIte]
    have h2 := ih (done ++ [b])
      { s with _timestampOfLastBomb := s._timestampOfLastBomb, rdCount := s.rdCount + 1 }
      (fun x hx => hdead x (List.mem_cons_of_mem b hx)) hc hk
    refine h2.trans ?_
    simp only [List.append_assoc, List.singleton_append, List.length_cons]
    have e : s.rdCount + 1 + todo.length = s.rdCount + (todo.length + 1) := by omega
    rw [e]

/-- The box of an array whose alive enemies all stand at `(x, y)`: the right and the
bottom edge start from the seed `FLT_MIN`. -/
theorem getBoundingBoxOf_one_position (E : Engine) (l : List GameObject) (x y : ℚ)
    (hall : ∀ o ∈ l, o.isAlive = true → o._pos._x = x ∧ o._pos._y = y)
    (hex : ∃ o ∈ l, o.isAlive = true) (hx : x ≤ FLT_MAX) (hy : y ≤ FLT_MAX) :
    getBoundingBoxOf E l
      = { left := x - halfSprite E, top := y - halfSprite E
          right := max FLT_MIN x + halfSprite E, bottom := max FLT_MIN y + halfSprite E } := by
  obtain ⟨o0, ho0, hal0⟩ := hex
  have halive : (l.foldl bboxScanStep {}).atLeastOneEnemyAlive = true := by
    rw [foldl_bboxScanStep_alive]
    simp only [Bool.or_eq_true, List.any_eq_true]
    exact Or.inr ⟨o0, ho0, hal0⟩
  have hl : (l.foldl bboxScanStep {}).left = x := by
    obtain ⟨_, h2, h3⟩ := foldl_bboxScanStep_left l {}
    have h4 := h2 o0 ho0 hal0
    rw [(hall o0 ho0 hal0).1] at h4
    rcases h3 with h3 | ⟨o, ho, hal, h3⟩
    · have h5 : (l.foldl bboxScanStep {}).left = FLT_MAX := h3
      exact le_antisymm h4 (by rw [h5]; exact hx)
    · rw [h3, (hall o ho hal).1]
  have ht : (l.foldl bboxScanStep {}).top = y := by
    obtain ⟨_, h2, h3⟩ := foldl_bboxScanStep_top l {}
    have h4 := h2 o0 ho0 hal0
    rw [(hall o0 ho0 hal0).2] at h4
    rcases h3 with h3 | ⟨o, ho, hal, h3⟩
    · have h5 : (l.foldl bboxScanStep {}).top = FLT_MAX := h3
      exact le_antisymm h4 (by rw [h5]; exact hy)
    · rw [h3, (hall o ho hal).2]
  have hr : (l.foldl bboxScanStep {}).right = max FLT_MIN x := by
    obtain ⟨h1, h2, h3⟩ := foldl_bboxScanStep_right l {}
    have h1' : FLT_MIN ≤ (l.foldl bboxScanStep {}).right := h1
    have h4 := h2 o0 ho0 hal0
    rw [(hall o0 ho0 hal0).1] at h4
    rcases h3 with h3 | ⟨o, ho, hal, h3⟩
    · have h5 : (l.foldl bboxScanStep {}).right = FLT_MIN := h3
      rw [h5] at h4 ⊢
      exact (max_eq_left h4).symm
    · rw [(hall o ho hal).1] at h3
      rw [h3] at h1' ⊢
      exact (max_eq_right h1').symm
  have hb : (l.foldl bboxScanStep {}).bottom = max FLT_MIN y := by
    obtain ⟨h1, h2, h3⟩ := foldl_bboxScanStep_bottom l {}
    have h1' : FLT_MIN ≤ (l.foldl bboxScanStep {}).bottom := h1
    have h4 := h2 o0 ho0 hal0
    rw [(hall o0 ho0 hal0).2] at h4
    rcases h3 with h3 | ⟨o, ho, hal, h3⟩
    · have h5 : (l.foldl bboxScanStep {}).bottom = FLT_MIN := h3
      rw [h5] at h4 ⊢
      exact (max_eq_left h4).symm
    · rw [(hall o ho hal).2] at h3
      rw [h3] at h1' ⊢
      exact (max_eq_right h1').symm
  unfold getBoundingBoxOf
  simp only [halive, if_true, hl, ht, hr, hb]

theorem getBoundingBoxOf_topOfColumnNine :
    getBoundingBoxOf sampleEngine (gridAt sampleEngine (-308) 10 fun j => j == 45)
      = { left := -20, top := 38, right := FLT_MIN + 16, bottom := 70 } := by
  have h := getBoundingBoxOf_one_position sampleEngine
    (gridAt sampleEngine (-308) 10 fun j => j == 45) (-4) 54
    (by
      intro o ho hal
      obtain ⟨j, hj, rfl⟩ := mem_gridAt sampleEngine (-308) 10 _ o ho
      have hal2 : (j == 45) = true :=
        (gridAt_isAlive sampleEngine (-308) 10 (fun j => j == 45) j).symm.trans hal
      have hj2 : j = 45 := by simpa using hal2
      subst hj2
      show (GameEngine.initEnemy sampleEngine 45 {})._pos._x + -308 = -4
        ∧ (GameEngine.initEnemy sampleEngine 45 {})._pos._y + 10 = 54
      rw [initEnemy_sample_pos]
      norm_num)
    ⟨_, gridAt_mem sampleEngine (-308) 10 _ 45 (by decide), by
      rw [gridAt_isAlive]
      rfl⟩
    (by have := FLT_MAX_large; linarith) (by have := FLT_MAX_large; linarith)
  rw [h]
  have h1 : max FLT_MIN (-4 : ℚ) = FLT_MIN := max_eq_left (by have := FLT_MIN_pos; linarith)
  have h2 : max FLT_MIN (54 : ℚ) = 54 := max_eq_right (by have := FLT_MIN_le_one; linarith)
  rw [h1, h2]
  norm_num [halfSprite, sampleEngine]

theorem rocketTarget_columnNineLeftOfCanvas :
    GameEngine.rocketTarget sampleEngine columnNineLeftOfCanvas._enemyBbox
      columnNineLeftOfCanvas._enemyBboxOriginal columnNineLeftOfCanvas._enemies
      { _pos := { _x := 0, _y := 190 }, _health := 1 } = some 49 := by
  have hcol : GameEngine.rocketColumn sampleEngine columnNineLeftOfCanvas._enemyBboxOriginal
      { _pos := { _x := 0, _y := 190 }, _health := 1 } = some 9 := by
    have ht := truncToInt_centre 32 20 9 (by decide) (by decide)
    have hq : ((9 : Nat) : ℚ) * ((32 : Nat) : ℚ) + ((20 : Nat) : ℚ) = 308 := by norm_num
    rw [hq] at ht
    have hx : ((0 : ℚ) - (-308)) / ((32 : Nat) : ℚ) = 308 / ((32 : Nat) : ℚ) := by norm_num
    unfold GameEngine.rocketColumn
    show (if truncToInt (((0 : ℚ) - (-308)) / ((32 : Nat) : ℚ)) > (Config.ENEMY_COLS : Int)
        ∨ truncToInt (((0 : ℚ) - (-308)) / ((32 : Nat) : ℚ)) < 0 then none
      else if truncToInt (((0 : ℚ) - (-308)) / ((32 : Nat) : ℚ)) = (Config.ENEMY_COLS : Int) then
        some (truncToInt (((0 : ℚ) - (-308)) / ((32 : Nat) : ℚ)) - 1)
      else some (truncToInt (((0 : ℚ) - (-308)) / ((32 : Nat) : ℚ)))) = some 9
    rw [hx, ht]
    decide
  have h49 : (columnNineLeftOfCanvas._enemies.getD 49 {})
      = { _pos := { _x := -4, _y := 182 }, _health := 1 } := by
    show (gridAt sampleEngine (-308) 10 fun j => j == 45 || j == 49).getD 49 {} = _
    rw [gridAt_getD sampleEngine (-308) 10 _ 49 (by decide), initEnemy_sample_pos]
    norm_num
  unfold GameEngine.rocketTarget
  rw [hcol]
  have hbox : columnNineLeftOfCanvas._enemyBbox.intersectsWith
      { _pos := { _x := 0, _y := 190 }, _health := 1 } = true := by
    norm_num [columnNineLeftOfCanvas, BoundingBox.intersectsWith, GameObject.getPosition]
  have hal : GameObject.isAlive { _pos := { _x := 0, _y := 190 }, _health := 1 } = true := rfl
  simp only [hal, hbox, Bool.not_true, Bool.false_eq_true, if_false]
  show GameEngine.scanColumn sampleEngine columnNineLeftOfCanvas._enemies
    { _pos := { _x := 0, _y := 190 }, _health := 1 } 45 5 = some 49
  unfold GameEngine.scanColumn
  show (if ((columnNineLeftOfCanvas._enemies.getD 49 {}).isAlive
      && (columnNineLeftOfCanvas._enemies.getD 49 {}).intersectsWith
        { _pos := { _x := 0, _y := 190 }, _health := 1 } (halfSprite sampleEngine)) = true
    then some 49 else _) = some 49
  rw [h49]
  norm_num [GameObject.isAlive, GameObject.intersectsWith, halfSprite, sampleEngine]

theorem rocketPhase_columnNineLeftOfCanvas :
    GameEngine.rocketPhase sampleEngine columnNineLeftOfCanvas
      = { columnNineLeftOfCanvas with
          _rockets := (GameObject.destroy { _pos := { _x := 0, _y := 190 }, _health := 1 })
            :: List.replicate 9 {}
          _enemies := gridAt sampleEngine (-308) 10 fun j => j == 45
          _hscore := columnNineLeftOfCanvas._hscore.addScore
          _enemyBbox := { left := -20, top := 38, right := FLT_MIN + 16, bottom := 70 } } := by
  have hpred : (fun j : Nat => (j == 45 || j == 49) && !(j == 49)) = fun j => j == 45 := by
    funext j
    by_cases h1 : j = 49
    · subst h1; decide
    · have h2 : (j == 49) = false := beq_false_of_ne h1
      show ((j == 45 || j == 49) && !(j == 49)) = (j == 45)
      rw [h2]
      simp
  have he : GameEngine.destroyAt columnNineLeftOfCanvas._enemies 49
      = gridAt sampleEngine (-308) 10 fun j => j == 45 := by
    have h := destroyAt_gridAt sampleEngine (-308) 10 (fun j => j == 45 || j == 49) 49
    rw [hpred] at h
    exact h
  have hk := rocketPhase_first_kills sampleEngine columnNineLeftOfCanvas
    { _pos := { _x := 0, _y := 190 }, _health := 1 } (List.replicate 9 {}) 49 rfl
    (replicate_default_dead 9) rocketTarget_columnNineLeftOfCanvas
  rw [hk, he, any_alive_gridAt, getBoundingBoxOf_topOfColumnNine]
  have hany : (List.range Config.ENEMY_COUNT).any (fun j => j == 45) = true := by decide
  rw [hany]
  rfl

theorem updateEnemies_columnNineLeftOfCanvas :
    GameEngine.updateEnemies sampleEngine columnNineLeftOfCanvas
      = GameEngine.moveFormation sampleEngine
          { columnNineLeftOfCanvas with
            _rockets := (GameObject.destroy { _pos := { _x := 0, _y := 190 }, _health := 1 })
              :: List.replicate 9 {}
            _enemies := gridAt sampleEngine (-308) 10 fun j => j == 45
            _hscore := columnNineLeftOfCanvas._hscore.addScore
            _enemyBbox := { left := -20, top := 38, right := FLT_MIN + 16, bottom := 70 } } := by
  have h1 : GameEngine.enemyPlayerCollision sampleEngine columnNineLeftOfCanvas
      = (columnNineLeftOfCanvas, false) := by
    apply enemyPlayerCollision_clear
    · norm_num [columnNineLeftOfCanvas, sampleEngine]
    · norm_num [columnNineLeftOfCanvas, BoundingBox.intersectsWith, GameObject.getPosition]
  rw [updateEnemies_of_not_returned sampleEngine columnNineLeftOfCanvas (by rw [h1]), h1]
  exact congrArg (GameEngine.moveFormation sampleEngine) rocketPhase_columnNineLeftOfCanvas

theorem roundHalfEven_cases (q : ℚ) :
    roundHalfEven q = ⌊q⌋ ∨ roundHalfEven q = ⌊q⌋ + 1 := by
  unfold roundHalfEven
  split_ifs <;> simp

theorem roundHalfEven_sub_le (q : ℚ) : |(roundHalfEven q : ℚ) - q| ≤ 1 / 2 := by
  have h1 := Int.floor_le q
  have h2 := Int.lt_floor_add_one q
  unfold roundHalfEven
  rw [abs_le]
  split_ifs with a b c
  · constructor <;> linarith
  · push_cast
    constructor <;> linarith
  · constructor <;> linarith
  · push_cast
    constructor <;> linarith

theorem roundHalfEven_eq_of_abs_lt (q : ℚ) (n : Int) (h : |q - (n : ℚ)| < 1 / 2) :
    roundHalfEven q = n := by
  have h1 := roundHalfEven_sub_le q
  rw [abs_le] at h1
  rw [abs_lt] at h
  have h3 : ((roundHalfEven q - n : Int) : ℚ) < 1 := by
    push_cast
    linarith [h1.2, h.1]
  have h4 : (-1 : ℚ) < ((roundHalfEven q - n : Int) : ℚ) := by
    push_cast
    linarith [h1.1, h.2]
  have h5 : roundHalfEven q - n < 1 := by exact_mod_cast h3
  have h6 : -1 < roundHalfEven q - n := by exact_mod_cast h4
  omega

theorem roundHalfEven_intCast (n : Int) : roundHalfEven (n : ℚ) = n :=
  roundHalfEven_eq_of_abs_lt _ n (by simp)

theorem roundHalfEven_mono (a b : ℚ) (h : a ≤ b) : roundHalfEven a ≤ roundHalfEven b := by
  by_contra hcon
  have hlt : roundHalfEven b + 1 ≤ roundHalfEven a := by omega
  have hq : ((roundHalfEven b : Int) : ℚ) + 1 ≤ (roundHalfEven a : ℚ) := by exact_mod_cast hlt
  have h1 := roundHalfEven_sub_le a
  have h2 := roundHalfEven_sub_le b
  rw [abs_le] at h1 h2
  have ha : a = (roundHalfEven b : ℚ) + 1 / 2 := by linarith [h1.2, h2.1]
  have hb : b = (roundHalfEven b : ℚ) + 1 / 2 := by linarith [h1.2, h2.1]
  have hab : a = b := by rw [ha]; exact hb.symm
  rw [hab] at hcon
  exact hcon (le_refl _)

theorem roundHalfEven_neg (q : ℚ) : roundHalfEven (-q) = -roundHalfEven q := by
  by_cases h : |q - (roundHalfEven q : ℚ)| < 1 / 2
  · apply roundHalfEven_eq_of_abs_lt
    have e : -q - ((-roundHalfEven q : Int) : ℚ) = -(q - (roundHalfEven q : ℚ)) := by
      push_cast
      ring
    rw [e, abs_neg]
    exact h
  · have hle := roundHalfEven_sub_le q
    have hfl := Int.floor_le q
    have hfu := Int.lt_floor_add_one q
    have htie : q = (⌊q⌋ : ℚ) + 1 / 2 := by
      rcases roundHalfEven_cases q with hc | hc
      · rw [hc] at h hle
        rw [abs_sub_comm] at hle
        have h3 : ¬ q - (⌊q⌋ : ℚ) < 1 / 2 := by
          rw [abs_of_nonneg (by linarith)] at h
          exact h
        rw [abs_of_nonneg (by linarith)] at hle
        linarith
      · rw [hc] at h hle
        push_cast at h hle
        rw [abs_sub_comm] at hle
        rw [abs_of_nonpos (by linarith)] at h hle
        linarith
    have hfn : ⌊-q⌋ = -⌊q⌋ - 1 := by
      rw [Int.floor_eq_iff]
      push_cast
      constructor <;> linarith
    have hfrac : q - (⌊q⌋ : ℚ) = 1 / 2 := by linarith
    have hfracn : -q - ((-⌊q⌋ - 1 : Int) : ℚ) = 1 / 2 := by
      push_cast
      linarith
    unfold roundHalfEven
    rw [hfn, hfrac, hfracn]
    simp only [lt_irrefl, if_false]
    split_ifs <;> omega

theorem two_zpow_pos (k : Int) : (0 : ℚ) < 2 ^ k := zpow_pos (by norm_num) k

theorem binadeExp_neg (emin : Int) (x : ℚ) : binadeExp emin (-x) = binadeExp emin x := by
  unfold binadeExp
  rw [abs_neg]

theorem binadeExp_ge (emin : Int) (x : ℚ) : emin ≤ binadeExp emin x := le_max_right _ _

/-- The magnitude of `x` is below the top of its binade. -/
theorem abs_lt_binade (emin : Int) (x : ℚ) : |x| < 2 ^ (binadeExp emin x + 1) := by
  have h1 := Int.lt_zpow_succ_log_self (by norm_num : 1 < 2) |x|
  have h2 : ((2 : Nat) : ℚ) ^ (Int.log 2 |x| + 1) ≤ ((2 : Nat) : ℚ) ^ (binadeExp emin x + 1) :=
    zpow_le_zpow_right₀ (by norm_num) (by
      have := le_max_left (Int.log 2 |x|) emin
      unfold binadeExp
      omega)
  have h3 := lt_of_lt_of_le h1 h2
  exact_mod_cast h3

theorem roundFloat_neg (p : Nat) (emin : Int) (x : ℚ) :
    roundFloat p emin (-x) = -roundFloat p emin x := by
  unfold roundFloat
  rw [binadeExp_neg, neg_div, roundHalfEven_neg]
  push_cast
  ring

theorem roundFloat_zero (p : Nat) (emin : Int) : roundFloat p emin 0 = 0 := by
  unfold roundFloat
  rw [zero_div]
  have h := roundHalfEven_intCast 0
  simp only [Int.cast_zero] at h
  rw [h]
  simp

theorem roundFloat_nonneg (p : Nat) (emin : Int) (x : ℚ) (hx : 0 ≤ x) :
    0 ≤ roundFloat p emin x := by
  unfold roundFloat
  have hu := two_zpow_pos (binadeExp emin x - ((p : Int) - 1))
  have h0 : roundHalfEven 0 ≤ roundHalfEven (x / 2 ^ (binadeExp emin x - ((p : Int) - 1))) :=
    roundHalfEven_mono _ _ (div_nonneg hx (le_of_lt hu))
  have h1 := roundHalfEven_intCast 0
  simp only [Int.cast_zero] at h1
  rw [h1] at h0
  have h2 : (0 : ℚ) ≤ (roundHalfEven (x / 2 ^ (binadeExp emin x - ((p : Int) - 1))) : ℚ) := by
    exact_mod_cast h0
  exact mul_nonneg h2 (le_of_lt hu)

/-- A value `n * 2 ^ k` with fewer than `p` bits in `n` and `k` not below the least
exponent of the format is a value of the format: rounding leaves it as it is. -/
theorem roundFloat_of_repr (p : Nat) (emin : Int) (n k : Int) (hn : |n| < 2 ^ p)
    (hk : emin - ((p : Int) - 1) ≤ k) :
    roundFloat p emin ((n : ℚ) * 2 ^ k) = (n : ℚ) * 2 ^ k := by
  by_cases hn0 : n = 0
  · subst hn0
    simp [roundFloat_zero]
  have hxpos : (0 : ℚ) < |(n : ℚ) * 2 ^ k| := by
    rw [abs_pos]
    exact mul_ne_zero (by exact_mod_cast hn0) (ne_of_gt (two_zpow_pos k))
  have hlog : Int.log 2 |(n : ℚ) * 2 ^ k| < (p : Int) + k := by
    rw [← Int.lt_zpow_iff_log_lt (by norm_num) hxpos]
    rw [abs_mul, abs_of_pos (two_zpow_pos k), zpow_add₀ (by norm_num)]
    have h1 : |(n : ℚ)| < ((2 : Nat) : ℚ) ^ (p : Int) := by
      rw [zpow_natCast]
      have : ((|n| : Int) : ℚ) < ((2 ^ p : Int) : ℚ) := by exact_mod_cast hn
      push_cast at this
      exact_mod_cast this
    have h2 : (0 : ℚ) < 2 ^ k := two_zpow_pos k
    have h3 : ((2 : Nat) : ℚ) ^ k = 2 ^ k := by norm_num
    rw [h3]
    exact mul_lt_mul_of_pos_right h1 h2
  have he : binadeExp emin ((n : ℚ) * 2 ^ k) - ((p : Int) - 1) ≤ k := by
    unfold binadeExp
    rcases max_cases (Int.log 2 |(n : ℚ) * 2 ^ k|) emin with ⟨h, _⟩ | ⟨h, _⟩ <;> rw [h] <;> omega
  obtain ⟨m, hm⟩ := Int.eq_ofNat_of_zero_le (sub_nonneg.2 he)
  have hq : (n : ℚ) * 2 ^ k / 2 ^ (binadeExp emin ((n : ℚ) * 2 ^ k) - ((p : Int) - 1))
      = ((n * 2 ^ m : Int) : ℚ) := by
    have hk2 : k = (binadeExp emin ((n : ℚ) * 2 ^ k) - ((p : Int) - 1)) + (m : Int) := by omega
    rw [div_eq_iff (ne_of_gt (two_zpow_pos _))]
    nth_rewrite 1 [hk2]
    rw [zpow_add₀ (by norm_num), zpow_natCast]
    push_cast
    ring
  unfold roundFloat
  rw [hq, roundHalfEven_intCast, ← hq]
  exact div_mul_cancel₀ _ (ne_of_gt (two_zpow_pos _))

theorem log_eq_of_bounds (x : ℚ) (e : Int) (h1 : (2 : ℚ) ^ e ≤ |x|) (h2 : |x| < 2 ^ (e + 1)) :
    Int.log 2 |x| = e := by
  have hpos : (0 : ℚ) < |x| := lt_of_lt_of_le (two_zpow_pos e) h1
  have a : e ≤ Int.log 2 |x| := by
    rw [← Int.zpow_le_iff_le_log (by norm_num) hpos]
    exact_mod_cast h1
  have b : Int.log 2 |x| < e + 1 := by
    rw [← Int.lt_zpow_iff_log_lt (by norm_num) hpos]
    exact_mod_cast h2
  omega

/-- Rounding of a value whose binade and nearest multiple of the spacing are known. -/
theorem roundFloat_eq (p : Nat) (emin : Int) (x : ℚ) (e n : Int)
    (h1 : (2 : ℚ) ^ e ≤ |x|) (h2 : |x| < 2 ^ (e + 1)) (he : emin ≤ e)
    (hn : |x / 2 ^ (e - ((p : Int) - 1)) - (n : ℚ)| < 1 / 2) :
    roundFloat p emin x = (n : ℚ) * 2 ^ (e - ((p : Int) - 1)) := by
  have hb : binadeExp emin x = e := by
    unfold binadeExp
    rw [log_eq_of_bounds x e h1 h2]
    exact max_eq_left he
  unfold roundFloat
  rw [hb, roundHalfEven_eq_of_abs_lt _ n hn]

theorem roundHalfEven_abs_le (q : ℚ) (m : Int) (h : |q| ≤ (m : ℚ)) :
    |roundHalfEven q| ≤ m := by
  rw [abs_le] at h ⊢
  constructor
  · have := roundHalfEven_mono _ _ h.1
    have e : (-(m : ℚ)) = ((-m : Int) : ℚ) := by push_cast; ring
    rw [e, roundHalfEven_intCast] at this
    exact this
  · have := roundHalfEven_mono _ _ h.2
    rw [roundHalfEven_intCast] at this
    exact this

/-- The mantissa that rounding selects has magnitude at most `2 ^ p`. -/
theorem roundFloat_mantissa_le (p : Nat) (emin : Int) (x : ℚ) :
    |roundHalfEven (x / 2 ^ (binadeExp emin x - ((p : Int) - 1)))| ≤ 2 ^ p := by
  have hu := two_zpow_pos (binadeExp emin x - ((p : Int) - 1))
  have hx := abs_lt_binade emin x
  have hq : |x / 2 ^ (binadeExp emin x - ((p : Int) - 1))| ≤ ((2 ^ p : Int) : ℚ) := by
    rw [abs_div, abs_of_pos hu, div_le_iff₀ hu]
    have e : ((2 ^ p : Int) : ℚ) * 2 ^ (binadeExp emin x - ((p : Int) - 1))
        = 2 ^ (binadeExp emin x + 1) := by
      push_cast
      rw [← zpow_natCast, ← zpow_add₀ (by norm_num)]
      congr 1
      omega
    rw [e]
    exact le_of_lt hx
  exact roundHalfEven_abs_le _ _ hq

/-- The result of rounding is a value of the format. -/
theorem roundFloat_repr (p : Nat) (emin : Int) (x : ℚ) (hp : 1 ≤ p) :
    ∃ n k : Int, |n| < 2 ^ p ∧ emin - ((p : Int) - 1) ≤ k
      ∧ roundFloat p emin x = (n : ℚ) * 2 ^ k := by
  have hm := roundFloat_mantissa_le p emin x
  have hge := binadeExp_ge emin x
  by_cases hlt : |roundHalfEven (x / 2 ^ (binadeExp emin x - ((p : Int) - 1)))| < 2 ^ p
  · exact ⟨_, binadeExp emin x - ((p : Int) - 1), hlt, by omega, rfl⟩
  · have heq : |roundHalfEven (x / 2 ^ (binadeExp emin x - ((p : Int) - 1)))| = 2 ^ p := by
      omega
    obtain ⟨q, hq⟩ : ∃ q : Nat, p = q + 1 := ⟨p - 1, by omega⟩
    have hpow : (2 : Int) ^ p = 2 * 2 ^ q := by rw [hq, pow_succ]; ring
    have hqlt : (2 : Int) ^ q < 2 ^ p := by
      rw [hpow]
      have : (0 : Int) < 2 ^ q := by positivity
      omega
    have hqpos : (0 : Int) < 2 ^ q := by positivity
    rcases abs_eq (by positivity : (0 : Int) ≤ 2 ^ p) |>.1 heq with h | h
    · refine ⟨2 ^ q, binadeExp emin x - ((p : Int) - 1) + 1, ?_, by omega, ?_⟩
      · rw [abs_of_pos hqpos]
        exact hqlt
      · unfold roundFloat
        rw [h, hpow, zpow_add₀ (by norm_num)]
        push_cast
        ring
    · refine ⟨-2 ^ q, binadeExp emin x - ((p : Int) - 1) + 1, ?_, by omega, ?_⟩
      · rw [abs_neg, abs_of_pos hqpos]
        exact hqlt
      · unfold roundFloat
        rw [h, hpow, zpow_add₀ (by norm_num)]
        push_cast
        ring

theorem roundFloat_idem (p : Nat) (emin : Int) (x : ℚ) (hp : 1 ≤ p) :
    roundFloat p emin (roundFloat p emin x) = roundFloat p emin x := by
  obtain ⟨n, k, hn, hk, h⟩ := roundFloat_repr p emin x hp
  rw [h]
  exact roundFloat_of_repr p emin n k hn hk

theorem roundFloat_le_top (p : Nat) (emin : Int) (x : ℚ) :
    roundFloat p emin x ≤ 2 ^ (binadeExp emin x + 1) := by
  have hm := roundFloat_mantissa_le p emin x
  have hu := two_zpow_pos (binadeExp emin x - ((p : Int) - 1))
  have h1 : (roundHalfEven (x / 2 ^ (binadeExp emin x - ((p : Int) - 1))) : ℚ)
      ≤ ((2 ^ p : Int) : ℚ) := by
    exact_mod_cast (abs_le.1 hm).2
  have e : ((2 ^ p : Int) : ℚ) * 2 ^ (binadeExp emin x - ((p : Int) - 1))
      = 2 ^ (binadeExp emin x + 1) := by
    push_cast
    rw [← zpow_natCast, ← zpow_add₀ (by norm_num)]
    congr 1
    omega
  unfold roundFloat
  rw [← e]
  exact mul_le_mul_of_nonneg_right h1 (le_of_lt hu)

theorem roundFloat_ge_bottom (p : Nat) (emin : Int) (x : ℚ) (hp : 1 ≤ p)
    (hx : (2 : ℚ) ^ (binadeExp emin x) ≤ x) :
    2 ^ (binadeExp emin x) ≤ roundFloat p emin x := by
  have hu := two_zpow_pos (binadeExp emin x - ((p : Int) - 1))
  obtain ⟨q, hq⟩ : ∃ q : Nat, p = q + 1 := ⟨p - 1, by omega⟩
  have e : ((2 ^ q : Int) : ℚ) * 2 ^ (binadeExp emin x - ((p : Int) - 1))
      = 2 ^ (binadeExp emin x) := by
    push_cast
    rw [← zpow_natCast, ← zpow_add₀ (by norm_num)]
    congr 1
    omega
  have h1 : ((2 ^ q : Int) : ℚ) ≤ x / 2 ^ (binadeExp emin x - ((p : Int) - 1)) := by
    rw [le_div_iff₀ hu, e]
    exact hx
  have h2 := roundHalfEven_mono _ _ h1
  rw [roundHalfEven_intCast] at h2
  have h3 : ((2 ^ q : Int) : ℚ)
      ≤ (roundHalfEven (x / 2 ^ (binadeExp emin x - ((p : Int) - 1))) : ℚ) := by
    exact_mod_cast h2
  unfold roundFloat
  rw [← e]
  exact mul_le_mul_of_nonneg_right h3 (le_of_lt hu)

theorem binadeExp_mono (emin : Int) (x y : ℚ) (hx : 0 < x) (h : x ≤ y) :
    binadeExp emin x ≤ binadeExp emin y := by
  unfold binadeExp
  have hy : 0 < y := lt_of_lt_of_le hx h
  rw [abs_of_pos hx, abs_of_pos hy]
  exact max_le_max (Int.log_mono_right hx h) (le_refl _)

theorem roundFloat_mono_pos (p : Nat) (emin : Int) (x y : ℚ) (hp : 1 ≤ p) (hx : 0 < x)
    (h : x ≤ y) : roundFloat p emin x ≤ roundFloat p emin y := by
  have hy : 0 < y := lt_of_lt_of_le hx h
  have hexy := binadeExp_mono emin x y hx h
  rcases eq_or_lt_of_le hexy with heq | hlt
  · unfold roundFloat
    rw [heq]
    have hu := two_zpow_pos (binadeExp emin y - ((p : Int) - 1))
    have h1 : x / 2 ^ (binadeExp emin y - ((p : Int) - 1))
        ≤ y / 2 ^ (binadeExp emin y - ((p : Int) - 1)) :=
      div_le_div_of_nonneg_right h (le_of_lt hu)
    have h2 := roundHalfEven_mono _ _ h1
    have h3 : (roundHalfEven (x / 2 ^ (binadeExp emin y - ((p : Int) - 1))) : ℚ)
        ≤ (roundHalfEven (y / 2 ^ (binadeExp emin y - ((p : Int) - 1))) : ℚ) := by
      exact_mod_cast h2
    exact mul_le_mul_of_nonneg_right h3 (le_of_lt hu)
  · have hge := binadeExp_ge emin x
    have hlogy : binadeExp emin y = Int.log 2 |y| := by
      unfold binadeExp at hlt ⊢
      rcases max_cases (Int.log 2 |y|) emin with ⟨h1, _⟩ | ⟨h1, _⟩
      · exact h1
      · rw [h1] at hlt
        unfold binadeExp at hge
        omega
    have hyb : (2 : ℚ) ^ (binadeExp emin y) ≤ y := by
      rw [hlogy]
      have := Int.zpow_log_le_self (by norm_num : 1 < 2) (abs_pos.2 (ne_of_gt hy))
      rw [abs_of_pos hy] at this ⊢
      exact_mod_cast this
    have h1 := roundFloat_le_top p emin x
    have h2 := roundFloat_ge_bottom p emin y hp hyb
    have h3 : (2 : ℚ) ^ (binadeExp emin x + 1) ≤ 2 ^ (binadeExp emin y) :=
      zpow_le_zpow_right₀ (by norm_num) (by omega)
    linarith

/-- Rounding is monotone. -/
theorem roundFloat_mono (p : Nat) (emin : Int) (x y : ℚ) (hp : 1 ≤ p) (h : x ≤ y) :
    roundFloat p emin x ≤ roundFloat p emin y := by
  rcases lt_trichotomy 0 x with hx | hx | hx
  · exact roundFloat_mono_pos p emin x y hp hx h
  · rw [← hx, roundFloat_zero]
    exact roundFloat_nonneg p emin y (by linarith)
  · rcases le_or_lt 0 y with hy | hy
    · have h1 := roundFloat_nonneg p emin y hy
      have h2 := roundFloat_nonneg p emin (-x) (by linarith)
      rw [roundFloat_neg] at h2
      linarith
    · have h1 := roundFloat_mono_pos p emin (-y) (-x) hp (by linarith) (by linarith)
      rw [roundFloat_neg, roundFloat_neg] at h1
      linarith

theorem float32_mono (x y : ℚ) (h : x ≤ y) : float32 x ≤ float32 y :=
  roundFloat_mono 24 (-126) x y (by decide) h

theorem float64_mono (x y : ℚ) (h : x ≤ y) : float64 x ≤ float64 y :=
  roundFloat_mono 53 (-1022) x y (by decide) h

theorem float32_neg (x : ℚ) : float32 (-x) = -float32 x := roundFloat_neg 24 (-126) x

theorem float64_neg (x : ℚ) : float64 (-x) = -float64 x := roundFloat_neg 53 (-1022) x

theorem float32_zero : float32 0 = 0 := roundFloat_zero 24 (-126)

theorem float32_idem (x : ℚ) : float32 (float32 x) = float32 x :=
  roundFloat_idem 24 (-126) x (by decide)

theorem float64_idem (x : ℚ) : float64 (float64 x) = float64 x :=
  roundFloat_idem 53 (-1022) x (by decide)

/-- A float is a double: `n * 2 ^ k` with `|n| < 2 ^ 24` and `k ≥ -149`. -/
theorem float32_of_repr (n k : Int) (hn : |n| < 2 ^ 24) (hk : -149 ≤ k) :
    float32 ((n : ℚ) * 2 ^ k) = (n : ℚ) * 2 ^ k :=
  roundFloat_of_repr 24 (-126) n k hn (by omega)

theorem float64_of_repr (n k : Int) (hn : |n| < 2 ^ 53) (hk : -1074 ≤ k) :
    float64 ((n : ℚ) * 2 ^ k) = (n : ℚ) * 2 ^ k :=
  roundFloat_of_repr 53 (-1022) n k hn (by omega)

/-- The narrowing of a float value to double and back changes nothing. -/
theorem float64_float32 (x : ℚ) : float64 (float32 x) = float32 x := by
  obtain ⟨n, k, hn, hk, h⟩ := roundFloat_repr 24 (-126) x (by decide)
  unfold float32
  rw [h]
  exact float64_of_repr n k (lt_trans hn (by norm_num)) (by omega)

/-- Integers of magnitude below `2 ^ 24` are floats. -/
theorem float32_intCast (n : Int) (hn : |n| < 2 ^ 24) : float32 (n : ℚ) = n := by
  have h := float32_of_repr n 0 hn (by decide)
  simpa using h

theorem float64_intCast (n : Int) (hn : |n| < 2 ^ 53) : float64 (n : ℚ) = n := by
  have h := float64_of_repr n 0 hn (by decide)
  simpa using h

/-- The narrowing `float(double(x))` is monotone. -/
theorem narrow_mono (x y : ℚ) (h : x ≤ y) : float32 (float64 x) ≤ float32 (float64 y) :=
  float32_mono _ _ (float64_mono _ _ h)

/-- The narrowing `float(double(x))` keeps a `float` value. -/
theorem narrow_of_float (x : ℚ) (h : float32 x = x) : float32 (float64 x) = x := by
  have h1 : float64 x = x := by
    rw [← h]
    exact float64_float32 x
  rw [h1, h]

/-- A comparison with a `float` threshold `k` is not changed by the narrowing of `x`
unless `x` lies strictly between `k` and a `float` above it. -/
theorem narrow_gt_iff (x k d : ℚ) (hd : 0 < d) (hk : float32 k = k)
    (hkd : float32 (k + d) = k + d) (h : ¬ (k < x ∧ x < k + d)) :
    float32 (float64 x) > k ↔ x > k := by
  constructor
  · intro hp
    by_contra hx
    have := narrow_mono x k (not_lt.1 hx)
    rw [narrow_of_float k hk] at this
    exact absurd hp (not_lt.2 this)
  · intro hx
    have hx2 : k + d ≤ x := by
      by_contra hc
      exact h ⟨hx, not_le.1 hc⟩
    have := narrow_mono (k + d) x hx2
    rw [narrow_of_float (k + d) hkd] at this
    linarith

theorem float32_intro_thresholds :
    (float32 2 = 2 ∧ float32 3 = 3 ∧ float32 4 = 4 ∧ float32 5 = 5 ∧ float32 6 = 6)
      ∧ float32 (2 + 1 / 2 ^ 21) = 2 + 1 / 2 ^ 21
      ∧ float32 (3 + 1 / 2 ^ 21) = 3 + 1 / 2 ^ 21
      ∧ float32 (4 + 1 / 2 ^ 21) = 4 + 1 / 2 ^ 21
      ∧ float32 (5 + 1 / 2 ^ 21) = 5 + 1 / 2 ^ 21
      ∧ float32 (6 + 1 / 2 ^ 21) = 6 + 1 / 2 ^ 21 := by
  have i2 := float32_intCast 2 (by norm_num)
  have i3 := float32_intCast 3 (by norm_num)
  have i4 := float32_intCast 4 (by norm_num)
  have i5 := float32_intCast 5 (by norm_num)
  have i6 := float32_intCast 6 (by norm_num)
  have e2 := float32_of_repr (2 * 2 ^ 21 + 1) (-21) (by norm_num) (by norm_num)
  have e3 := float32_of_repr (3 * 2 ^ 21 + 1) (-21) (by norm_num) (by norm_num)
  have e4 := float32_of_repr (4 * 2 ^ 21 + 1) (-21) (by norm_num) (by norm_num)
  have e5 := float32_of_repr (5 * 2 ^ 21 + 1) (-21) (by norm_num) (by norm_num)
  have e6 := float32_of_repr (6 * 2 ^ 21 + 1) (-21) (by norm_num) (by norm_num)
  norm_num at i2 i3 i4 i5 i6 e2 e3 e4 e5 e6 ⊢
  exact ⟨⟨i2, i3, i4, i5, i6⟩, e2, e3, e4, e5, e6⟩

/-- Outside PLAY and GAMEOVER, `update` assigns the intro state of `passedSeconds`. -/
theorem rounded_update_intro (E : Engine) (F : FloatFormat) (dis : Nat → Nat)
    (s : GameEngine) (hplay : s._gamestate ≠ GAMESTATE.PLAY)
    (hover : s._gamestate ≠ GAMESTATE.GAMEOVER) :
    Rounded.update E F dis s
      = { s with _gamestate := introState (Rounded.passedSeconds s) } := by
  unfold Rounded.update introState
  simp only [if_neg hplay, if_neg hover]
  split_ifs <;> rfl

theorem passedSeconds_justAfterSixSeconds :
    Rounded.passedSeconds justAfterSixSeconds = 6 := by
  have h64 : float64 (6 + 1 / 2 ^ 23 : ℚ) = 6 + 1 / 2 ^ 23 := by
    have h := float64_of_repr 50331649 (-23) (by norm_num) (by norm_num)
    norm_num at h ⊢
    exact h
  have h32 : float32 (6 + 1 / 2 ^ 23 : ℚ) = 6 := by
    have h := roundFloat_eq 24 (-126) (6 + 1 / 2 ^ 23) 2 (6 * 2 ^ 21)
      (by norm_num [abs_of_pos]) (by norm_num [abs_of_pos]) (by norm_num)
      (by norm_num [abs_lt])
    unfold float32
    rw [h]
    norm_num
  show float32 (float64 ((6 + 1 / 2 ^ 23 : ℚ) - 0)) = 6
  rw [sub_zero, h64, h32]

theorem sqrtLe_eq_true (F : FloatFormat) (v r : ℚ) :
    sqrtLe F v r = true
      ↔ 0 ≤ r ∧ (if r = 0 then v ≤ 0
          else v < (r + 2 ^ (binadeExp F.emin r - (F.precision : Int))) ^ 2) := by
  unfold sqrtLe
  exact decide_eq_true_iff

theorem binadeExp_le (emin : Int) (x : ℚ) (e : Int) (hx : 0 < |x|) (h : |x| < 2 ^ (e + 1))
    (he : emin ≤ e) : binadeExp emin x ≤ e := by
  unfold binadeExp
  apply max_le _ he
  have b : Int.log 2 |x| < e + 1 := by
    rw [← Int.lt_zpow_iff_log_lt (by norm_num) hx]
    exact_mod_cast h
  omega

/-- The half spacing above a whole radius of at most 2048, in a format of at least 24
bits: at most 2^-13. -/
theorem half_spacing_le (F : FloatFormat) (n : Nat) (hn1 : 1 ≤ n) (hn : n ≤ 2048)
    (hp : 24 ≤ F.precision) (he : F.emin ≤ 0) :
    (2 : ℚ) ^ (binadeExp F.emin (n : ℚ) - (F.precision : Int)) ≤ 1 / 2 ^ 13 := by
  have h1 : (1 : ℚ) ≤ (n : ℚ) := by exact_mod_cast hn1
  have h2 : (n : ℚ) ≤ 2048 := by exact_mod_cast hn
  have hb : binadeExp F.emin (n : ℚ) ≤ 11 := by
    apply binadeExp_le
    · rw [abs_of_pos (by linarith)]; linarith
    · rw [abs_of_pos (by linarith)]
      norm_num
      linarith
    · omega
  have hexp : binadeExp F.emin (n : ℚ) - (F.precision : Int) ≤ -13 := by
    have : (24 : Int) ≤ (F.precision : Int) := by exact_mod_cast hp
    omega
  calc (2 : ℚ) ^ (binadeExp F.emin (n : ℚ) - (F.precision : Int))
      ≤ 2 ^ (-13 : Int) := zpow_le_zpow_right₀ (by norm_num) hexp
    _ = 1 / 2 ^ 13 := by norm_num

/-- The rounded test `sqrt(v) <= n` on whole numbers `v` and `n ≤ 2048` is the exact
test `v ≤ n * n`. -/
theorem sqrtLe_whole (F : FloatFormat) (v : Int) (n : Nat) (hn : n ≤ 2048)
    (hp : 24 ≤ F.precision) (he : F.emin ≤ 0) :
    sqrtLe F (v : ℚ) (n : ℚ) = true ↔ v ≤ (n : Int) * (n : Int) := by
  rw [sqrtLe_eq_true]
  rcases Nat.eq_zero_or_pos n with h0 | hpos
  · subst h0
    simp
  · have hne : ((n : ℚ)) ≠ 0 := by
      have : (0 : ℚ) < (n : ℚ) := by exact_mod_cast hpos
      exact ne_of_gt this
    rw [if_neg hne]
    have hh := half_spacing_le F n hpos hn hp he
    have hh0 := two_zpow_pos (binadeExp F.emin (n : ℚ) - (F.precision : Int))
    have hn0 : (0 : ℚ) ≤ (n : ℚ) := by positivity
    have hn2 : (n : ℚ) ≤ 2048 := by exact_mod_cast hn
    constructor
    · rintro ⟨_, hv⟩
      have hlt : (v : ℚ) < ((n : Int) * (n : Int) + 1 : Int) := by
        push_cast
        nlinarith
      have : v < (n : Int) * (n : Int) + 1 := by exact_mod_cast hlt
      omega
    · intro hv
      refine ⟨hn0, ?_⟩
      have hle : (v : ℚ) ≤ ((n : Int) * (n : Int) : Int) := by exact_mod_cast hv
      push_cast at hle
      nlinarith

/-- The rounded radius test on whole coordinate differences up to 2048 and a whole
radius up to 2048 is the exact test on the squares. -/
theorem rounded_intersectsWith_whole (F : FloatFormat) (a b : GameObject) (dx dy : Int)
    (n : Nat) (hp : 24 ≤ F.precision) (he : F.emin ≤ 0)
    (hx : a._pos._x - b._pos._x = (dx : ℚ)) (hy : a._pos._y - b._pos._y = (dy : ℚ))
    (hdx : |dx| ≤ 2048) (hdy : |dy| ≤ 2048) (hn : n ≤ 2048) :
    Rounded.intersectsWith F a b (n : ℚ) = true
      ↔ dx * dx + dy * dy ≤ (n : Int) * (n : Int) := by
  have hxx : |dx * dx| ≤ 2048 * 2048 := by
    rw [abs_mul]
    exact mul_le_mul hdx hdx (abs_nonneg _) (by norm_num)
  have hyy : |dy * dy| ≤ 2048 * 2048 := by
    rw [abs_mul]
    exact mul_le_mul hdy hdy (abs_nonneg _) (by norm_num)
  have f1 : float32 (dx : ℚ) = dx := float32_intCast dx (by
    have : |dx| < 2 ^ 24 := lt_of_le_of_lt hdx (by norm_num)
    exact this)
  have f2 : float32 (dy : ℚ) = dy := float32_intCast dy (by
    have : |dy| < 2 ^ 24 := lt_of_le_of_lt hdy (by norm_num)
    exact this)
  have f3 : float32 ((dx : ℚ) * (dx : ℚ)) = ((dx * dx : Int) : ℚ) := by
    have := float32_intCast (dx * dx) (lt_of_le_of_lt hxx (by norm_num))
    push_cast at this ⊢
    exact this
  have f4 : float32 ((dy : ℚ) * (dy : ℚ)) = ((dy * dy : Int) : ℚ) := by
    have := float32_intCast (dy * dy) (lt_of_le_of_lt hyy (by norm_num))
    push_cast at this ⊢
    exact this
  have f5 : float32 (((dx * dx : Int) : ℚ) + ((dy * dy : Int) : ℚ))
      = ((dx * dx + dy * dy : Int) : ℚ) := by
    have hs : |dx * dx + dy * dy| < 2 ^ 24 :=
      lt_of_le_of_lt (abs_add _ _) (by
        have : |dx * dx| + |dy * dy| ≤ 2048 * 2048 + 2048 * 2048 := add_le_add hxx hyy
        exact lt_of_le_of_lt this (by norm_num))
    have := float32_intCast (dx * dx + dy * dy) hs
    push_cast at this ⊢
    exact this
  unfold Rounded.intersectsWith
  simp only [hx, hy, f1, f2, f3, f4, f5]
  exact sqrtLe_whole F _ n hn hp he

theorem float64_dyadic (n : Int) (k : Nat) (hn : |n| < 2 ^ 53) (hk : k ≤ 1074) :
    float64 ((n : ℚ) / 2 ^ k) = (n : ℚ) / 2 ^ k := by
  have h := float64_of_repr n (-(k : Int)) hn (by omega)
  rw [zpow_neg, zpow_natCast, ← div_eq_mul_inv] at h
  exact h

theorem float32_dyadic (n : Int) (k : Nat) (hn : |n| < 2 ^ 24) (hk : k ≤ 149) :
    float32 ((n : ℚ) / 2 ^ k) = (n : ℚ) / 2 ^ k := by
  have h := float32_of_repr n (-(k : Int)) hn (by omega)
  rw [zpow_neg, zpow_natCast, ← div_eq_mul_inv] at h
  exact h

theorem float32_nonneg (x : ℚ) (hx : 0 ≤ x) : 0 ≤ float32 x := roundFloat_nonneg 24 (-126) x hx

theorem float64_nonneg (x : ℚ) (hx : 0 ≤ x) : 0 ≤ float64 x :=
  roundFloat_nonneg 53 (-1022) x hx

/-- The state after the fire-key statement of `handleEvents` when the game is not over. -/
theorem rounded_handleEvents_eq_movePlayer (E : Engine) (now shotNow : ℚ)
    (keys : PlayerInput) (s : GameEngine) (hg : s._gamestate ≠ GAMESTATE.GAMEOVER) :
    Rounded.handleEvents E now shotNow keys s
      = Rounded.movePlayer E keys
          (Rounded.handleFireKey E shotNow keys
            { s with
              _currentTimestamp := now
              _msPerFrame := float64 (now - s._previousTimestamp)
              _previousTimestamp := now }).1 := by
  unfold Rounded.handleEvents
  have h : (Rounded.handleFireKey E shotNow keys
            { s with
              _currentTimestamp := now
              _msPerFrame := float64 (now - s._previousTimestamp)
              _previousTimestamp := now }).2 = false := by
    unfold Rounded.handleFireKey
    simp only [hg, if_false]
    split_ifs <;> rfl
  simp only [h, Bool.false_eq_true, if_false]

theorem rounded_tryShoot_frame (shotNow : ℚ) (s : GameEngine) :
    (Rounded.tryShoot shotNow s)._player = s._player
      ∧ (Rounded.tryShoot shotNow s)._msPerFrame = s._msPerFrame
      ∧ (Rounded.tryShoot shotNow s)._gamestate = s._gamestate
      ∧ (Rounded.tryShoot shotNow s)._liftedFireKeyBefore = s._liftedFireKeyBefore := by
  unfold Rounded.tryShoot
  split_ifs
  · cases hsp : GameEngine.spawnRocket s._player.getPosition s._rockets <;> simp
  · simp

/-- What the fire-key statement leaves alone when the game is not over. -/
theorem rounded_handleFireKey_frame (E : Engine) (shotNow : ℚ) (keys : PlayerInput)
    (s : GameEngine) (hg : s._gamestate ≠ GAMESTATE.GAMEOVER) :
    (Rounded.handleFireKey E shotNow keys s).1._player = s._player
      ∧ (Rounded.handleFireKey E shotNow keys s).1._msPerFrame = s._msPerFrame
      ∧ (Rounded.handleFireKey E shotNow keys s).1._gamestate = s._gamestate
      ∧ (Rounded.handleFireKey E shotNow keys s).1._liftedFireKeyBefore = !keys.fire := by
  obtain ⟨t1, t2, t3, _⟩ := rounded_tryShoot_frame shotNow s
  unfold Rounded.handleFireKey
  simp only [hg, if_false]
  split_ifs with hf hl hp <;>
    simp_all [GameEngine.noteFireKey]

theorem rounded_movePlayer_frame (E : Engine) (keys : PlayerInput) (s : GameEngine) :
    (Rounded.movePlayer E keys s)._rockets = s._rockets
      ∧ (Rounded.movePlayer E keys s)._gamestate = s._gamestate
      ∧ (Rounded.movePlayer E keys s)._liftedFireKeyBefore = s._liftedFireKeyBefore
      ∧ (Rounded.movePlayer E keys s)._timestampOfLastShot = s._timestampOfLastShot
      ∧ (Rounded.movePlayer E keys s)._player._pos._y = s._player._pos._y
      ∧ (Rounded.movePlayer E keys s)._player._health = s._player._health := by
  simp only [Rounded.movePlayer, GameObject.setPositionX, GameObject.getPosition]
  split_ifs <;> simp

/-- The left-key statement of `handleEvents` on a player that stands on a `float` in
the interval: the new position is a `float` between one rounded step left of 0 and the
old position. -/
theorem rounded_moveLeft_x (keys : PlayerInput) (s : GameEngine)
    (hms : 0 ≤ s._msPerFrame) (hfl : float32 s._player._pos._x = s._player._pos._x)
    (h0 : 0 ≤ s._player._pos._x) :
    float32 (if keys.left then
          if s._player.getPosition._x > 0 then
            { s with
              _player := s._player.setPositionX
                (float32 (float64 (s._player.getPosition._x - float64 (400 * s._msPerFrame)))) }
          else s
        else s)._player._pos._x
      = (if keys.left then
          if s._player.getPosition._x > 0 then
            { s with
              _player := s._player.setPositionX
                (float32 (float64 (s._player.getPosition._x - float64 (400 * s._msPerFrame)))) }
          else s
        else s)._player._pos._x
      ∧ -float32 (float64 (400 * s._msPerFrame))
        ≤ (if keys.left then
          if s._player.getPosition._x > 0 then
            { s with
              _player := s._player.setPositionX
                (float32 (float64 (s._player.getPosition._x - float64 (400 * s._msPerFrame)))) }
          else s
        else s)._player._pos._x
      ∧ (if keys.left then
          if s._player.getPosition._x > 0 then
            { s with
              _player := s._player.setPositionX
                (float32 (float64 (s._player.getPosition._x - float64 (400 * s._msPerFrame)))) }
          else s
        else s)._player._pos._x ≤ s._player._pos._x
      ∧ (if keys.left then
          if s._player.getPosition._x > 0 then
            { s with
              _player := s._player.setPositionX
                (float32 (float64 (s._player.getPosition._x - float64 (400 * s._msPerFrame)))) }
          else s
        else s)._msPerFrame = s._msPerFrame := by
  have hM : 0 ≤ float64 (400 * s._msPerFrame) := float64_nonneg _ (by linarith)
  have hM32 : 0 ≤ float32 (float64 (400 * s._msPerFrame)) := float32_nonneg _ hM
  have hleft_lo : -float32 (float64 (400 * s._msPerFrame))
      ≤ float32 (float64 (s._player._pos._x - float64 (400 * s._msPerFrame))) := by
    have := narrow_mono (-float64 (400 * s._msPerFrame))
      (s._player._pos._x - float64 (400 * s._msPerFrame)) (by linarith)
    rw [float64_neg, float64_idem, float32_neg] at this
    exact this
  have hleft_hi : float32 (float64 (s._player._pos._x - float64 (400 * s._msPerFrame)))
      ≤ s._player._pos._x := by
    have := narrow_mono (s._player._pos._x - float64 (400 * s._msPerFrame))
      s._player._pos._x (by linarith)
    rw [narrow_of_float _ hfl] at this
    exact this
  simp only [GameObject.setPositionX, GameObject.getPosition]
  split_ifs
  · exact ⟨float32_idem _, hleft_lo, hleft_hi, rfl⟩
  · exact ⟨hfl, by linarith, le_refl _, rfl⟩
  · exact ⟨hfl, by linarith, le_refl _, rfl⟩

/-- The right-key statement of `handleEvents` on a player that stands on a `float` at
most the limit: the new position lies between the old one and one rounded step right
of the limit. -/
theorem rounded_moveRight_x (E : Engine) (keys : PlayerInput) (s : GameEngine) (m : ℚ)
    (hm : s._msPerFrame = m)
    (hms : 0 ≤ s._msPerFrame) (hfl : float32 s._player._pos._x = s._player._pos._x)
    (h1 : s._player._pos._x ≤ float32 ((E.CanvasWidth : ℚ) - (E.SpriteSize : ℚ))) :
    s._player._pos._x
        ≤ (if keys.right then
            if s._player.getPosition._x
                < float32 ((E.CanvasWidth : ℚ) - (E.SpriteSize : ℚ)) then
              { s with
                _player := s._player.setPositionX
                  (float32 (float64 (s._player.getPosition._x
                    + float64 (400 * s._msPerFrame)))) }
            else s
          else s)._player._pos._x
      ∧ (if keys.right then
            if s._player.getPosition._x
                < float32 ((E.CanvasWidth : ℚ) - (E.SpriteSize : ℚ)) then
              { s with
                _player := s._player.setPositionX
                  (float32 (float64 (s._player.getPosition._x
                    + float64 (400 * s._msPerFrame)))) }
            else s
          else s)._player._pos._x
        ≤ float32 (float64 (float32 ((E.CanvasWidth : ℚ) - (E.SpriteSize : ℚ))
              + float64 (400 * m))) := by
  subst hm
  have hM : 0 ≤ float64 (400 * s._msPerFrame) := float64_nonneg _ (by linarith)
  have hL : float32 ((E.CanvasWidth : ℚ) - (E.SpriteSize : ℚ))
      ≤ float32 (float64 (float32 ((E.CanvasWidth : ℚ) - (E.SpriteSize : ℚ))
          + float64 (400 * s._msPerFrame))) := by
    have := narrow_mono (float32 ((E.CanvasWidth : ℚ) - (E.SpriteSize : ℚ)))
      (float32 ((E.CanvasWidth : ℚ) - (E.SpriteSize : ℚ)) + float64 (400 * s._msPerFrame))
      (by linarith)
    rw [narrow_of_float _ (float32_idem _)] at this
    exact this
  simp only [GameObject.setPositionX, GameObject.getPosition]
  split_ifs with hr hlt
  · constructor
    · have := narrow_mono s._player._pos._x
        (s._player._pos._x + float64 (400 * s._msPerFrame)) (by linarith)
      rw [narrow_of_float _ hfl] at this
      exact this
    · exact narrow_mono _ _ (by linarith)
  · exact ⟨le_refl _, le_trans h1 hL⟩
  · exact ⟨le_refl _, le_trans h1 hL⟩

/-- The horizontal position after the movement part of `handleEvents`, for a player
that starts on a `float` inside the interval: at most one rounded step outside it. -/
theorem rounded_movePlayer_x (E : Engine) (keys : PlayerInput) (s : GameEngine)
    (hms : 0 ≤ s._msPerFrame) (hfl : float32 s._player._pos._x = s._player._pos._x)
    (h0 : 0 ≤ s._player._pos._x)
    (h1 : s._player._pos._x ≤ (E.CanvasWidth : ℚ) - (E.SpriteSize : ℚ)) :
    -float32 (float64 (400 * s._msPerFrame)) ≤ (Rounded.movePlayer E keys s)._player._pos._x
      ∧ (Rounded.movePlayer E keys s)._player._pos._x
          ≤ float32 (float64 (float32 ((E.CanvasWidth : ℚ) - (E.SpriteSize : ℚ))
              + float64 (400 * s._msPerFrame))) := by
  have hM : 0 ≤ float64 (400 * s._msPerFrame) := float64_nonneg _ (by linarith)
  have hM32 : 0 ≤ float32 (float64 (400 * s._msPerFrame)) := float32_nonneg _ hM
  have hxL : s._player._pos._x ≤ float32 ((E.CanvasWidth : ℚ) - (E.SpriteSize : ℚ)) := by
    have := float32_mono _ _ h1
    rw [hfl] at this
    exact this
  have hL : float32 ((E.CanvasWidth : ℚ) - (E.SpriteSize : ℚ))
      ≤ float32 (float64 (float32 ((E.CanvasWidth : ℚ) - (E.SpriteSize : ℚ))
          + float64 (400 * s._msPerFrame))) := by
    have := narrow_mono (float32 ((E.CanvasWidth : ℚ) - (E.SpriteSize : ℚ)))
      (float32 ((E.CanvasWidth : ℚ) - (E.SpriteSize : ℚ)) + float64 (400 * s._msPerFrame))
      (by linarith)
    rw [narrow_of_float _ (float32_idem _)] at this
    exact this
  unfold Rounded.movePlayer
  by_cases hg : s._gamestate ≠ GAMESTATE.GAMEOVER
  · rw [if_pos hg]
    obtain ⟨a1, a2, a3, a4⟩ := rounded_moveLeft_x keys s hms hfl h0
    obtain ⟨b1, b2⟩ := rounded_moveRight_x E keys _ s._msPerFrame a4
      (by rw [a4]; exact hms) a1 (le_trans a3 hxL)
    exact ⟨le_trans a2 b1, b2⟩
  · rw [if_neg hg]
    exact ⟨by linarith, le_trans hxL hL⟩

/-- The rockets, the last-shot timestamp, the released-flag and the game state after
one call of `handleEvents` in PLAY. -/
theorem rounded_handleEvents_play (E : Engine) (now shotNow : ℚ) (keys : PlayerInput)
    (s : GameEngine) (hplay : s._gamestate = GAMESTATE.PLAY) :
    (Rounded.handleEvents E now shotNow keys s)._rockets
        = (if keys.fire = true ∧ s._liftedFireKeyBefore = true
              ∧ float64 (now - s._timestampOfLastShot) > Config.TIME_BETWEEN_SHOTS then
            (GameEngine.spawnRocket s._player._pos s._rockets).getD s._rockets
          else s._rockets)
      ∧ (Rounded.handleEvents E now shotNow keys s)._timestampOfLastShot
        = (if keys.fire = true ∧ s._liftedFireKeyBefore = true
              ∧ float64 (now - s._timestampOfLastShot) > Config.TIME_BETWEEN_SHOTS
              ∧ (GameEngine.spawnRocket s._player._pos s._rockets).isSome = true then
            shotNow
          else s._timestampOfLastShot)
      ∧ (Rounded.handleEvents E now shotNow keys s)._liftedFireKeyBefore = !keys.fire
      ∧ (Rounded.handleEvents E now shotNow keys s)._gamestate = GAMESTATE.PLAY := by
  have hg : s._gamestate ≠ GAMESTATE.GAMEOVER := by rw [hplay]; decide
  rw [rounded_handleEvents_eq_movePlayer E now shotNow keys s hg]
  obtain ⟨m1, m2, m3, m4, _, _⟩ := rounded_movePlayer_frame E keys
    (Rounded.handleFireKey E shotNow keys
      { s with
        _currentTimestamp := now
        _msPerFrame := float64 (now - s._previousTimestamp)
        _previousTimestamp := now }).1
  rw [m1, m2, m3, m4]
  clear m1 m2 m3 m4
  simp only [Rounded.handleFireKey, Rounded.tryShoot, GameEngine.noteFireKey, hplay,
    GameObject.getPosition]
  by_cases hf : keys.fire = true
  · by_cases hl : s._liftedFireKeyBefore = true
    · by_cases ht : float64 (now - s._timestampOfLastShot) > Config.TIME_BETWEEN_SHOTS
      · cases hsp : GameEngine.spawnRocket s._player._pos s._rockets <;>
          simp [hf, hl, ht, hsp]
      · simp [hf, hl, ht]
    · simp [hf, hl]
  · simp [hf]

theorem introDone_rockets : introDone._rockets = List.replicate 10 {} := by
  show (List.replicate Config.MAX_ROCKET_COUNT ({} : GameObject)).map
      (fun r => r.setHealth 0) = _
  rw [List.map_replicate]
  rfl

theorem float64_small_whole :
    float64 (7 : ℚ) = 7 ∧ float64 (8 : ℚ) = 8 ∧ float64 (2 : ℚ) = 2 ∧ float64 (11 : ℚ) = 11
      ∧ float64 (101 : ℚ) = 101 ∧ float32 (101 : ℚ) = 101
      ∧ float64 (6465 / 64 : ℚ) = 6465 / 64 := by
  have a := float64_intCast 7 (by norm_num)
  have b := float64_intCast 8 (by norm_num)
  have c := float64_intCast 2 (by norm_num)
  have d := float64_intCast 11 (by norm_num)
  have e := float64_intCast 101 (by norm_num)
  have f := float32_intCast 101 (by norm_num)
  have g := float64_dyadic 6465 6 (by norm_num) (by norm_num)
  norm_num at a b c d e f g ⊢
  exact ⟨a, b, c, d, e, f, g⟩

theorem float32_natCast (n : Nat) (hn : n < 2 ^ 24) : float32 (n : ℚ) = n := by
  have h := float32_intCast (n : Int) (by
    rw [abs_of_nonneg (by positivity)]
    exact_mod_cast hn)
  exact_mod_cast h

theorem rounded_halfSprite_eq (E : Engine) (hS : E.SpriteSize ≤ 2 ^ 16) :
    Rounded.halfSprite E = halfSprite E := by
  unfold Rounded.halfSprite halfSprite
  apply float32_natCast
  have : E.SpriteSize / 2 ≤ E.SpriteSize := Nat.div_le_self _ _
  have : (2 : Nat) ^ 16 < 2 ^ 24 := by norm_num
  omega

/-- On the initial grid nothing is rounded when the sprite size and the font row
height are at most 2^16: all values are whole numbers below 2^24. -/
theorem rounded_initEnemy_eq (E : Engine) (j : Nat) (e : GameObject) (hj : j < 50)
    (hS : E.SpriteSize ≤ 2 ^ 16) (hF : E.FontRowHeight ≤ 2 ^ 16) :
    Rounded.initEnemy E j e = GameEngine.initEnemy E j e := by
  have hc : j / 5 ≤ 9 := by omega
  have hr : j % 5 ≤ 4 := by omega
  have hh : E.SpriteSize / 2 ≤ 2 ^ 15 := by omega
  have p16 : (2 : Nat) ^ 16 = 65536 := by norm_num
  have p15 : (2 : Nat) ^ 15 = 32768 := by norm_num
  have p24 : (2 : Nat) ^ 24 = 16777216 := by norm_num
  have hcs : j / 5 * E.SpriteSize ≤ 9 * 2 ^ 16 := Nat.mul_le_mul hc hS
  have hrs : j % 5 * E.SpriteSize ≤ 4 * 2 ^ 16 := Nat.mul_le_mul hr hS
  have f1 : float32 (((j / Config.ENEMY_ROWS : Nat)) : ℚ) = ((j / 5 : Nat) : ℚ) :=
    float32_natCast (j / 5) (by omega)
  have f2 : float32 (((j % Config.ENEMY_ROWS : Nat)) : ℚ) = ((j % 5 : Nat) : ℚ) :=
    float32_natCast (j % 5) (by omega)
  have f3 : float32 (E.SpriteSize : ℚ) = (E.SpriteSize : ℚ) :=
    float32_natCast _ (by omega)
  have f4 : float32 (((E.FontRowHeight + 10 : Nat)) : ℚ) = ((E.FontRowHeight + 10 : Nat) : ℚ) :=
    float32_natCast _ (by omega)
  have f5 : float32 (((j / 5 : Nat) : ℚ) * (E.SpriteSize : ℚ))
      = ((j / 5 : Nat) : ℚ) * (E.SpriteSize : ℚ) := by
    have := float32_natCast (j / 5 * E.SpriteSize) (by omega)
    push_cast at this
    exact this
  have f6 : float32 (((j % 5 : Nat) : ℚ) * (E.SpriteSize : ℚ))
      = ((j % 5 : Nat) : ℚ) * (E.SpriteSize : ℚ) := by
    have := float32_natCast (j % 5 * E.SpriteSize) (by omega)
    push_cast at this
    exact this
  have f7 : float32 (((j / 5 : Nat) : ℚ) * (E.SpriteSize : ℚ) + halfSprite E)
      = ((j / 5 : Nat) : ℚ) * (E.SpriteSize : ℚ) + halfSprite E := by
    have := float32_natCast (j / 5 * E.SpriteSize + E.SpriteSize / 2) (by omega)
    unfold halfSprite
    push_cast at this ⊢
    exact this
  have f8 : float32 (((E.FontRowHeight + 10 : Nat) : ℚ)
        + ((j % 5 : Nat) : ℚ) * (E.SpriteSize : ℚ))
      = ((E.FontRowHeight + 10 : Nat) : ℚ) + ((j % 5 : Nat) : ℚ) * (E.SpriteSize : ℚ) := by
    have := float32_natCast (E.FontRowHeight + 10 + j % 5 * E.SpriteSize) (by omega)
    push_cast at this ⊢
    exact this
  have f9 : float32 (((E.FontRowHeight + 10 : Nat) : ℚ)
        + ((j % 5 : Nat) : ℚ) * (E.SpriteSize : ℚ) + halfSprite E)
      = ((E.FontRowHeight + 10 : Nat) : ℚ) + ((j % 5 : Nat) : ℚ) * (E.SpriteSize : ℚ)
        + halfSprite E := by
    have := float32_natCast (E.FontRowHeight + 10 + j % 5 * E.SpriteSize + E.SpriteSize / 2)
      (by omega)
    unfold halfSprite
    push_cast at this ⊢
    exact this
  unfold Rounded.initEnemy GameEngine.initEnemy
  simp only [rounded_halfSprite_eq E hS, f1, f2, f3, f4, f5, f6, f7, f8, f9]

theorem rounded_initEnemiesFrom_eq_aux (E : Engine) (l : List GameObject) (i : Nat)
    (hl : i + l.length ≤ 50) (hS : E.SpriteSize ≤ 2 ^ 16) (hF : E.FontRowHeight ≤ 2 ^ 16) :
    Rounded.initEnemiesFrom E i l = GameEngine.initEnemiesFrom E i l := by
  induction l generalizing i with
  | nil => rfl
  | cons e es ih =>
    have hlen : (e :: es).length = es.length + 1 := rfl
    unfold Rounded.initEnemiesFrom GameEngine.initEnemiesFrom
    rw [rounded_initEnemy_eq E i e (by omega) hS hF, ih (i + 1) (by omega)]

theorem rounded_initEnemiesFrom_eq (E : Engine) (l : List GameObject)
    (hl : l.length ≤ 50) (hS : E.SpriteSize ≤ 2 ^ 16) (hF : E.FontRowHeight ≤ 2 ^ 16) :
    Rounded.initEnemiesFrom E 0 l = GameEngine.initEnemiesFrom E 0 l :=
  rounded_initEnemiesFrom_eq_aux E l 0 (by omega) hS hF

theorem rounded_initEnemiesFrom_length (E : Engine) (l : List GameObject) (i : Nat) :
    (Rounded.initEnemiesFrom E i l).length = l.length := by
  induction l generalizing i with
  | nil => rfl
  | cons e es ih => simp [Rounded.initEnemiesFrom, ih]

theorem rounded_initEnemiesFrom_getElem? (E : Engine) (l : List GameObject) (i j : Nat) :
    (Rounded.initEnemiesFrom E i l)[j]? = (l[j]?).map (Rounded.initEnemy E (i + j)) := by
  induction l generalizing i j with
  | nil => simp [Rounded.initEnemiesFrom]
  | cons e es ih =>
    cases j with
    | zero => simp [Rounded.initEnemiesFrom]
    | succ j =>
      simp only [Rounded.initEnemiesFrom, List.getElem?_cons_succ, ih]
      have : i + 1 + j = i + (j + 1) := by omega
      rw [this]

theorem rounded_initEnemiesFrom_getD (E : Engine) (l : List GameObject) (j : Nat)
    (hj : j < l.length) :
    (Rounded.initEnemiesFrom E 0 l).getD j {} = Rounded.initEnemy E j (l.getD j {}) := by
  rw [List.getD_eq_getElem?_getD, List.getD_eq_getElem?_getD, rounded_initEnemiesFrom_getElem?,
    List.getElem?_eq_getElem hj]
  simp

theorem rounded_mem_initEnemiesFrom (E : Engine) (l : List GameObject) (i : Nat)
    (o : GameObject) (ho : o ∈ Rounded.initEnemiesFrom E i l) :
    ∃ j, j < l.length ∧ ∃ e, o = Rounded.initEnemy E (i + j) e := by
  obtain ⟨j, hj, hje⟩ := List.mem_iff_getElem.1 ho
  have hj2 : j < l.length := by rwa [rounded_initEnemiesFrom_length] at hj
  have h1 : (Rounded.initEnemiesFrom E i l)[j]? = some o := by
    rw [List.getElem?_eq_getElem hj, hje]
  rw [rounded_initEnemiesFrom_getElem?, List.getElem?_eq_getElem hj2] at h1
  exact ⟨j, hj2, l[j], (Option.some.inj h1).symm⟩

theorem rounded_initEnemy_alive (E : Engine) (i : Nat) (e : GameObject) :
    (Rounded.initEnemy E i e).isAlive = true := by
  simp [Rounded.initEnemy, GameObject.setHealth, GameObject.isAlive]

theorem rounded_initEnemy_float (E : Engine) (i : Nat) (e : GameObject) :
    float32 (Rounded.initEnemy E i e)._pos._x = (Rounded.initEnemy E i e)._pos._x
      ∧ float32 (Rounded.initEnemy E i e)._pos._y = (Rounded.initEnemy E i e)._pos._y :=
  ⟨float32_idem _, float32_idem _⟩

/-- The values that the scan of `getBoundingBoxOf` ends with, read off the exact box. -/
theorem scan_of_getBoundingBoxOf (E : Engine) (l : List GameObject) (b : BoundingBox)
    (hal : (l.any fun o => o.isAlive) = true) (h : getBoundingBoxOf E l = b) :
    (l.foldl bboxScanStep {}).atLeastOneEnemyAlive = true
      ∧ (l.foldl bboxScanStep {}).left = b.left + halfSprite E
      ∧ (l.foldl bboxScanStep {}).top = b.top + halfSprite E
      ∧ (l.foldl bboxScanStep {}).right = b.right - halfSprite E
      ∧ (l.foldl bboxScanStep {}).bottom = b.bottom - halfSprite E := by
  have ha : (l.foldl bboxScanStep {}).atLeastOneEnemyAlive = true := by
    rw [foldl_bboxScanStep_alive, hal]
    simp
  unfold getBoundingBoxOf at h
  simp only [ha, if_true] at h
  subst h
  refine ⟨ha, ?_, ?_, ?_, ?_⟩ <;> simp

/-- The rounded box of an array with an alive entity, from its exact box. -/
theorem rounded_getBoundingBoxOf_of_exact (E : Engine) (l : List GameObject)
    (b : BoundingBox) (hal : (l.any fun o => o.isAlive) = true)
    (h : getBoundingBoxOf E l = b) :
    Rounded.getBoundingBoxOf E l
      = { left := float32 (b.left + halfSprite E - Rounded.halfSprite E)
          top := float32 (b.top + halfSprite E - Rounded.halfSprite E)
          right := float32 (b.right - halfSprite E + Rounded.halfSprite E)
          bottom := float32 (b.bottom - halfSprite E + Rounded.halfSprite E) } := by
  obtain ⟨ha, h1, h2, h3, h4⟩ := scan_of_getBoundingBoxOf E l b hal h
  unfold Rounded.getBoundingBoxOf
  simp only [ha, if_true, h1, h2, h3, h4]

theorem rounded_foldl_rocketScanStep_dead (E : Engine) (F : FloatFormat)
    (bbox orig : BoundingBox) (l : List GameObject) (acc : GameEngine.RocketScan)
    (h : ∀ r ∈ l, r.isAlive = false) :
    l.foldl (Rounded.rocketScanStep E F bbox orig) acc
      = { acc with rockets := acc.rockets ++ l } := by
  induction l generalizing acc with
  | nil => simp
  | cons r rs ih =>
    have hr : r.isAlive = false := h r (List.mem_cons_self r rs)
    have hstep : Rounded.rocketScanStep E F bbox orig acc r
        = { acc with rockets := acc.rockets ++ [r] } := by
      simp [Rounded.rocketScanStep, Rounded.rocketTarget, hr]
    rw [List.foldl_cons, hstep, ih _ fun x hx => h x (List.mem_cons_of_mem r hx)]
    simp

/-- With no alive rocket the rocket loop of `updateEnemies` changes nothing. -/
theorem rounded_rocketPhase_no_alive (E : Engine) (F : FloatFormat) (s : GameEngine)
    (h : ∀ r ∈ s._rockets, r.isAlive = false) : Rounded.rocketPhase E F s = s := by
  unfold Rounded.rocketPhase
  rw [rounded_foldl_rocketScanStep_dead E F _ _ _ _ h]
  simp

/-- Above the bottom of the canvas and with the player outside the alive box, the
first two branches of `updateEnemies` change nothing and do not return. -/
theorem rounded_enemyPlayerCollision_clear (E : Engine) (F : FloatFormat) (s : GameEngine)
    (hb : s._enemyBbox.bottom < float32 (E.CanvasHeight : ℚ))
    (hp : s._enemyBbox.intersectsWith s._player = false) :
    Rounded.enemyPlayerCollision E F s = (s, false) := by
  unfold Rounded.enemyPlayerCollision
  rw [if_neg (not_le.2 hb)]
  simp [hp]

/-- What `updateBombs` leaves alone: enemies, boxes, scores, file, level, direction
and rockets. -/
theorem rounded_updateBombsLoop_frame (E : Engine) (F : FloatFormat) (dis : Nat → Nat)
    (todo done : List GameObject) (s : GameEngine) :
    (Rounded.updateBombsLoop E F dis todo done s)._enemies = s._enemies
      ∧ (Rounded.updateBombsLoop E F dis todo done s)._enemyBbox = s._enemyBbox
      ∧ (Rounded.updateBombsLoop E F dis todo done s)._enemyBboxOriginal
          = s._enemyBboxOriginal
      ∧ (Rounded.updateBombsLoop E F dis todo done s)._hscore = s._hscore
      ∧ (Rounded.updateBombsLoop E F dis todo done s).hscoreFile = s.hscoreFile
      ∧ (Rounded.updateBombsLoop E F dis todo done s)._level = s._level
      ∧ (Rounded.updateBombsLoop E F dis todo done s)._enemy_direction = s._enemy_direction
      ∧ (Rounded.updateBombsLoop E F dis todo done s)._rockets = s._rockets := by
  induction todo generalizing done s with
  | nil => simp [Rounded.updateBombsLoop]
  | cons b rest ih =>
    simp only [Rounded.updateBombsLoop]
    split_ifs <;> first | exact ih _ _ | exact ⟨rfl, rfl, rfl, rfl, rfl, rfl, rfl, rfl⟩

/-- In PLAY the enemies, the boxes, the level and the direction after `update` are
those after `updateEnemies`. -/
theorem rounded_update_play_formation (E : Engine) (F : FloatFormat) (dis : Nat → Nat)
    (s : GameEngine) (hplay : s._gamestate = GAMESTATE.PLAY) :
    (Rounded.update E F dis s)._enemies = (Rounded.updateEnemies E F s)._enemies
      ∧ (Rounded.update E F dis s)._enemyBbox = (Rounded.updateEnemies E F s)._enemyBbox
      ∧ (Rounded.update E F dis s)._enemyBboxOriginal
          = (Rounded.updateEnemies E F s)._enemyBboxOriginal
      ∧ (Rounded.update E F dis s)._level = (Rounded.updateEnemies E F s)._level
      ∧ (Rounded.update E F dis s)._enemy_direction
          = (Rounded.updateEnemies E F s)._enemy_direction := by
  unfold Rounded.update
  rw [if_pos hplay]
  obtain ⟨b1, b2, b3, _, _, b6, b7, _⟩ := rounded_updateBombsLoop_frame E F dis
    (Rounded.updateEnemies E F s)._bombs [] (Rounded.updateEnemies E F s)
  exact ⟨b1, b2, b3, b6, b7⟩

/-- The first frame of play: with no alive rocket, the formation above the bottom of
the canvas and the player outside the alive box, travelling right with room left, one
call of `update` moves every enemy and both boxes by the rounded step. -/
theorem rounded_update_travel_right (E : Engine) (F : FloatFormat) (dis : Nat → Nat)
    (s : GameEngine) (hplay : s._gamestate = GAMESTATE.PLAY)
    (hrockets : ∀ r ∈ s._rockets, r.isAlive = false)
    (hb : s._enemyBbox.bottom < float32 (E.CanvasHeight : ℚ))
    (hp : s._enemyBbox.intersectsWith s._player = false)
    (hdir : s._enemy_direction = ENEMY_DIRECTION.RIGHT)
    (hright : s._enemyBbox.right < float32 (E.CanvasWidth : ℚ)) :
    (Rounded.update E F dis s)._enemies
        = s._enemies.map (fun e =>
            (e.setPositionX
              (float32 (e.getPosition._x + float32 (float64 (200 * s._msPerFrame))))).setPositionY
              (float32 (e.getPosition._y + 0)))
      ∧ (Rounded.update E F dis s)._enemyBbox
        = Rounded.moveBy s._enemyBbox
            { _x := float32 (float64 (200 * s._msPerFrame)), _y := 0 }
      ∧ (Rounded.update E F dis s)._enemyBboxOriginal
        = Rounded.moveBy s._enemyBboxOriginal
            { _x := float32 (float64 (200 * s._msPerFrame)), _y := 0 } := by
  have hcol := rounded_enemyPlayerCollision_clear E F s hb hp
  have hstep : Rounded.travelStep E s
      = ({ _x := float32 (float64 (200 * s._msPerFrame)), _y := 0 }, ENEMY_DIRECTION.RIGHT) := by
    unfold Rounded.travelStep
    rw [if_pos hdir, if_pos hright]
  have hupd : Rounded.updateEnemies E F s = Rounded.moveFormation E s := by
    unfold Rounded.updateEnemies
    simp only [hcol, rounded_rocketPhase_no_alive E F s hrockets]
    rfl
  obtain ⟨u1, u2, u3, _, _⟩ := rounded_update_play_formation E F dis s hplay
  rw [u1, u2, u3, hupd]
  simp only [Rounded.moveFormation, hstep, and_self]

theorem getD_map_of_lt (f : GameObject → GameObject) (l : List GameObject) (j : Nat)
    (hj : j < l.length) : (l.map f).getD j {} = f (l.getD j {}) := by
  rw [List.getD_eq_getElem?_getD, List.getD_eq_getElem?_getD, List.getElem?_map,
    List.getElem?_eq_getElem hj]
  rfl

theorem isAlive_moved (o : GameObject) (x y : ℚ) :
    ((o.setPositionX x).setPositionY y).isAlive = o.isAlive := rfl

theorem sample_small :
    sampleEngine.SpriteSize ≤ 2 ^ 16 ∧ sampleEngine.FontRowHeight ≤ 2 ^ 16 := by
  constructor <;> norm_num [sampleEngine]

theorem rounded_halfSprite_sample : Rounded.halfSprite sampleEngine = 16 := by
  rw [rounded_halfSprite_eq sampleEngine sample_small.1]
  norm_num [halfSprite, sampleEngine]

theorem introDone_enemies :
    introDone._enemies
      = GameEngine.initEnemiesFrom sampleEngine 0 (List.replicate Config.ENEMY_COUNT {}) := by
  show Rounded.initEnemiesFrom sampleEngine 0 (List.replicate Config.ENEMY_COUNT {}) = _
  exact rounded_initEnemiesFrom_eq sampleEngine _ (by simp) sample_small.1 sample_small.2

theorem float32_sample_values :
    float32 (0 : ℚ) = 0 ∧ float32 (28 : ℚ) = 28 ∧ float32 (320 : ℚ) = 320
      ∧ float32 (188 : ℚ) = 188 ∧ float32 (464 : ℚ) = 464 ∧ float32 (640 : ℚ) = 640
      ∧ float32 (480 : ℚ) = 480 ∧ float32 (16 : ℚ) = 16 := by
  have a := float32_intCast 28 (by norm_num)
  have b := float32_intCast 320 (by norm_num)
  have c := float32_intCast 188 (by norm_num)
  have d := float32_intCast 464 (by norm_num)
  have e := float32_intCast 640 (by norm_num)
  have f := float32_intCast 480 (by norm_num)
  have g := float32_intCast 16 (by norm_num)
  norm_num at a b c d e f g
  exact ⟨float32_zero, a, b, c, d, e, f, g⟩

theorem introDone_enemyBbox :
    introDone._enemyBbox = { left := 0, top := 28, right := 320, bottom := 188 }
      ∧ introDone._enemyBboxOriginal = { left := 0, top := 28, right := 320, bottom := 188 } := by
  have hexact : getBoundingBoxOf sampleEngine
      (GameEngine.initEnemiesFrom sampleEngine 0 (List.replicate Config.ENEMY_COUNT {}))
      = { left := 0, top := 28, right := 320, bottom := 188 } := freshPlay_enemyBbox
  have hal : ((GameEngine.initEnemiesFrom sampleEngine 0
      (List.replicate Config.ENEMY_COUNT {})).any fun o => o.isAlive) = true := by
    rw [List.any_eq_true]
    exact ⟨_, initEnemy_mem sampleEngine (List.replicate Config.ENEMY_COUNT {}) 0 (by simp),
      initEnemy_alive _ _ _⟩
  have hr := rounded_getBoundingBoxOf_of_exact sampleEngine _ _ hal hexact
  have hbox : Rounded.getBoundingBoxOf sampleEngine
      (Rounded.initEnemiesFrom sampleEngine 0 (List.replicate Config.ENEMY_COUNT {}))
      = { left := 0, top := 28, right := 320, bottom := 188 } := by
    rw [rounded_initEnemiesFrom_eq sampleEngine _ (by simp) sample_small.1 sample_small.2, hr,
      rounded_halfSprite_sample]
    obtain ⟨f0, f28, f320, f188, _⟩ := float32_sample_values
    have h16 : halfSprite sampleEngine = 16 := by norm_num [halfSprite, sampleEngine]
    rw [h16]
    norm_num
    exact ⟨f0, f28, f320, f188⟩
  exact ⟨hbox, hbox⟩

theorem introDone_player :
    introDone._player = { _pos := { _x := 320, _y := 464 }, _health := 3 } := by
  obtain ⟨_, _, f320, _, f464, _⟩ := float32_sample_values
  show ({ _pos := { _x := float32 ((sampleEngine.CanvasWidth / 2 : Nat) : ℚ),
                    _y := float32 ((sampleEngine.CanvasHeight : ℚ)
                      - ((sampleEngine.SpriteSize / 2 : Nat) : ℚ)) },
          _health := Config.PLAYER_HEALTH } : GameObject) = _
  have e1 : ((sampleEngine.CanvasWidth / 2 : Nat) : ℚ) = 320 := by norm_num [sampleEngine]
  have e2 : (sampleEngine.CanvasHeight : ℚ) - ((sampleEngine.SpriteSize / 2 : Nat) : ℚ)
      = 464 := by norm_num [sampleEngine]
  rw [e1, e2, f320, f464]

theorem introDone_rockets_dead : ∀ r ∈ introDone._rockets, r.isAlive = false := by
  intro r hr
  rw [introDone_rockets] at hr
  rw [List.eq_of_mem_replicate hr]
  rfl

/-- The values of the first frame of `introDoneOddFrame`: the step 200 * msPerFrame is
3.125 + 25 * 2^-21, a `float`, and the sum with x = 16 rounds down by 2^-21. -/
theorem oddFrame_values :
    float64 (1 / 64 + 1 / 2 ^ 24 : ℚ) = 1 / 64 + 1 / 2 ^ 24
      ∧ float32 (float64 (200 * (1 / 64 + 1 / 2 ^ 24 : ℚ))) = 6553625 / 2 ^ 21
      ∧ float32 ((16 : ℚ) + 6553625 / 2 ^ 21) = 10027014 / 2 ^ 19 := by
  have a := float64_dyadic 262145 24 (by norm_num) (by norm_num)
  have b := float64_dyadic 6553625 21 (by norm_num) (by norm_num)
  have c := float32_dyadic 6553625 21 (by norm_num) (by norm_num)
  have d := roundFloat_eq 24 (-126) ((16 : ℚ) + 6553625 / 2 ^ 21) 4 10027014
    (by norm_num [abs_of_pos]) (by norm_num [abs_of_pos]) (by norm_num)
    (by norm_num [abs_lt])
  refine ⟨?_, ?_, ?_⟩
  · norm_num at a ⊢
    exact a
  · have e : (200 * (1 / 64 + 1 / 2 ^ 24 : ℚ)) = ((6553625 : Int) : ℚ) / 2 ^ 21 := by norm_num
    rw [e, b, c]
    norm_num
  · unfold float32
    rw [d]
    norm_num

theorem float32_ge_natCast (x : ℚ) (n : Nat) (hn : n < 2 ^ 24) (h : (n : ℚ) ≤ x) :
    (n : ℚ) ≤ float32 x := by
  have := float32_mono _ _ h
  rwa [float32_natCast n hn] at this

theorem float32_le_natCast (x : ℚ) (n : Nat) (hn : n < 2 ^ 24) (h : x ≤ (n : ℚ)) :
    float32 x ≤ (n : ℚ) := by
  have := float32_mono _ _ h
  rwa [float32_natCast n hn] at this

/-- The column computed for a rocket that stands in the strip of column `c`, at least
one pixel before the next column boundary. -/
theorem rounded_rocketColumn_strip (E : Engine) (orig : BoundingBox) (r : GameObject)
    (c : Nat) (hS : 1 ≤ E.SpriteSize) (hS2 : E.SpriteSize ≤ 2048) (hc : c < Config.ENEMY_COLS)
    (hlo : (c : ℚ) * (E.SpriteSize : ℚ) ≤ r._pos._x - orig.left)
    (hhi : r._pos._x - orig.left ≤ ((c : ℚ) + 1) * (E.SpriteSize : ℚ) - 1) :
    Rounded.rocketColumn E orig r = some (c : Int) := by
  have hc10 : c < 10 := hc
  have p24 : (2 : Nat) ^ 24 = 16777216 := by norm_num
  have hSq : (0 : ℚ) < (E.SpriteSize : ℚ) := by exact_mod_cast hS
  have hS2q : (E.SpriteSize : ℚ) ≤ 2048 := by exact_mod_cast hS2
  have hcS : c * E.SpriteSize ≤ 9 * 2048 := Nat.mul_le_mul (by omega) hS2
  have hcS1 : (c + 1) * E.SpriteSize ≤ 10 * 2048 := Nat.mul_le_mul (by omega) hS2
  have hpos1 : 1 ≤ (c + 1) * E.SpriteSize := Nat.one_le_iff_ne_zero.2 (by
    intro h0
    rcases Nat.mul_eq_zero.1 h0 with h | h <;> omega)
  have fS : float32 (E.SpriteSize : ℚ) = (E.SpriteSize : ℚ) := float32_natCast _ (by omega)
  have hd1 : ((c * E.SpriteSize : Nat) : ℚ) ≤ float32 (r._pos._x - orig.left) :=
    float32_ge_natCast _ _ (by omega) (by push_cast; exact hlo)
  have hd2 : float32 (r._pos._x - orig.left) ≤ (((c + 1) * E.SpriteSize - 1 : Nat) : ℚ) :=
    float32_le_natCast _ _ (by omega) (by
      rw [Nat.cast_sub hpos1]
      push_cast
      exact hhi)
  rw [Nat.cast_sub hpos1] at hd2
  push_cast at hd1 hd2
  have hq1 : (c : ℚ) ≤ float32 (r._pos._x - orig.left) / (E.SpriteSize : ℚ) := by
    rw [le_div_iff₀ hSq]
    exact hd1
  have hq2 : float32 (r._pos._x - orig.left) / (E.SpriteSize : ℚ)
      ≤ (c : ℚ) + 1 - 1 / 2048 := by
    rw [div_le_iff₀ hSq]
    have h1 : (1 : ℚ) / 2048 * (E.SpriteSize : ℚ) ≤ 1 := by
      rw [div_mul_eq_mul_div, one_mul, div_le_one (by norm_num)]
      exact hS2q
    nlinarith
  have f1 : (c : ℚ) ≤ float32 (float32 (r._pos._x - orig.left) / (E.SpriteSize : ℚ)) :=
    float32_ge_natCast _ c (by omega) hq1
  have f2 : float32 (float32 (r._pos._x - orig.left) / (E.SpriteSize : ℚ))
      ≤ (c : ℚ) + 1 - 1 / 2048 := by
    have hrep : float32 ((c : ℚ) + 1 - 1 / 2048) = (c : ℚ) + 1 - 1 / 2048 := by
      have := float32_dyadic (((c : Int) + 1) * 2048 - 1) 11 (by
        rw [abs_lt]
        constructor <;> omega) (by norm_num)
      have e : ((((c : Int) + 1) * 2048 - 1 : Int) : ℚ) / 2 ^ 11 = (c : ℚ) + 1 - 1 / 2048 := by
        push_cast
        norm_num
        ring
      rw [e] at this
      exact this
    have := float32_mono _ _ hq2
    rwa [hrep] at this
  have hnn : (0 : ℚ) ≤ float32 (float32 (r._pos._x - orig.left) / (E.SpriteSize : ℚ)) :=
    le_trans (by positivity) f1
  have htr : truncToInt (float32 (float32 (r._pos._x - orig.left) / (E.SpriteSize : ℚ)))
      = (c : Int) := by
    unfold truncToInt
    rw [if_pos hnn, Int.floor_eq_iff]
    constructor
    · exact_mod_cast f1
    · push_cast
      linarith
  unfold Rounded.rocketColumn
  simp only [GameObject.getPosition, fS, htr]
  have e10 : ((Config.ENEMY_COLS : Nat) : Int) = 10 := rfl
  rw [e10, if_neg (by omega), if_neg (by omega)]

theorem rounded_scanColumn_eq_some (E : Engine) (F : FloatFormat) (enemies : List GameObject)
    (r : GameObject) (end_ n i : Nat)
    (h : Rounded.scanColumn E F enemies r end_ n = some i) :
    end_ ≤ i ∧ i < end_ + n ∧ (enemies.getD i {}).isAlive = true
      ∧ Rounded.intersectsWith F (enemies.getD i {}) r (Rounded.halfSprite E) = true := by
  induction n with
  | zero => simp [Rounded.scanColumn] at h
  | succ n ih =>
    unfold Rounded.scanColumn at h
    split_ifs at h with hhit
    · have hi : end_ + n = i := Option.some.inj h
      subst hi
      simp only [Bool.and_eq_true] at hhit
      exact ⟨by omega, by omega, hhit.1, hhit.2⟩
    · obtain ⟨a, b, c, d⟩ := ih h
      exact ⟨a, by omega, c, d⟩

/-- The enemy that the rocket step names: its index lies in the scanned column, it is
alive and it passes the radius test. -/
theorem rounded_rocketTarget_some (E : Engine) (F : FloatFormat) (bbox orig : BoundingBox)
    (enemies : List GameObject) (r : GameObject) (i : Nat)
    (h : Rounded.rocketTarget E F bbox orig enemies r = some i) :
    i < Config.ENEMY_COUNT ∧ (enemies.getD i {}).isAlive = true
      ∧ Rounded.intersectsWith F (enemies.getD i {}) r (Rounded.halfSprite E) = true
      ∧ ∃ c : Int, Rounded.rocketColumn E orig r = some c ∧ 0 ≤ c ∧ c < 10
          ∧ (c * 5).toNat ≤ i ∧ i < (c * 5).toNat + 5 := by
  unfold Rounded.rocketTarget at h
  split_ifs at h
  cases hc : Rounded.rocketColumn E orig r with
  | none => rw [hc] at h; cases h
  | some c =>
    rw [hc] at h
    have hs := rounded_scanColumn_eq_some E F enemies r _ _ i h
    have hc2 : 0 ≤ c ∧ c < 10 := by
      unfold Rounded.rocketColumn at hc
      simp only [] at hc
      have e10 : ((Config.ENEMY_COLS : Nat) : Int) = 10 := rfl
      rw [e10] at hc
      split_ifs at hc with h1 h2
      · have := Option.some.inj hc
        omega
      · have := Option.some.inj hc
        omega
    have h5 : ((Config.ENEMY_ROWS : Nat) : Int) = 5 := rfl
    rw [h5] at hs
    have h50 : Config.ENEMY_COUNT = 50 := rfl
    have hr5 : Config.ENEMY_ROWS = 5 := rfl
    refine ⟨by omega, hs.2.2.1, hs.2.2.2, c, rfl, hc2.1, hc2.2, hs.1, ?_⟩
    have := hs.2.1
    omega

/-- The column scan with exact arithmetic: one rocket destroys at most one enemy, and a
rocket at the horizontal centre of column `c` destroys only an enemy of column `c`. -/
theorem column_scan_own_column_exact (E : Engine) (bbox orig : BoundingBox)
    (acc : GameEngine.RocketScan) (r : GameObject) :
    aliveCount acc.enemies
        ≤ aliveCount (GameEngine.rocketScanStep E bbox orig acc r).enemies + 1
      ∧ ((GameEngine.rocketScanStep E bbox orig acc r).enemies = acc.enemies
          ∨ ∃ i, GameEngine.rocketTarget E bbox orig acc.enemies r = some i
              ∧ (GameEngine.rocketScanStep E bbox orig acc r).enemies
                  = GameEngine.destroyAt acc.enemies i
              ∧ ∀ j, j ≠ i →
                  (GameEngine.rocketScanStep E bbox orig acc r).enemies.getD j {}
                    = acc.enemies.getD j {})
      ∧ (∀ c : Nat, 1 ≤ E.SpriteSize → c < Config.ENEMY_COLS →
          bbox.intersectsWith r = true →
          r._pos._x = orig.left + (c : ℚ) * (E.SpriteSize : ℚ) + halfSprite E →
          ∀ i, GameEngine.rocketTarget E bbox orig acc.enemies r = some i →
            c * Config.ENEMY_ROWS ≤ i ∧ i ≤ (c + 1) * Config.ENEMY_ROWS - 1)
      ∧ (1 ≤ E.SpriteSize → bbox.intersectsWith r = true →
          r._pos._x = orig.left + 2 * (E.SpriteSize : ℚ) + halfSprite E →
          ∀ i, GameEngine.rocketTarget E bbox orig acc.enemies r = some i →
            10 ≤ i ∧ i ≤ 14) := by
  have column : ∀ c : Nat, 1 ≤ E.SpriteSize → c < Config.ENEMY_COLS →
      r._pos._x = orig.left + (c : ℚ) * (E.SpriteSize : ℚ) + halfSprite E →
      ∀ i, GameEngine.rocketTarget E bbox orig acc.enemies r = some i →
        c * 5 ≤ i ∧ i < c * 5 + 5 := by
    intro c hS hc hx i hi
    have hcol := rocketColumn_centre E orig r c hS hc hx
    unfold GameEngine.rocketTarget at hi
    split_ifs at hi
    rw [hcol] at hi
    have hend : ((c : Int) * ((Config.ENEMY_ROWS : Nat) : Int)).toNat = c * 5 := by
      show ((c : Int) * ((5 : Nat) : Int)).toNat = c * 5
      omega
    simp only [hend] at hi
    obtain ⟨h1, h2, _, _⟩ := scanColumn_eq_some E acc.enemies r (c * 5) Config.ENEMY_ROWS i hi
    exact ⟨h1, h2⟩
  refine ⟨?_, ?_, ?_, ?_⟩
  · unfold GameEngine.rocketScanStep
    cases ht : GameEngine.rocketTarget E bbox orig acc.enemies r with
    | none => exact Nat.le_succ _
    | some i => exact aliveCount_destroyAt acc.enemies i
  · unfold GameEngine.rocketScanStep
    cases ht : GameEngine.rocketTarget E bbox orig acc.enemies r with
    | none => exact Or.inl rfl
    | some i =>
      exact Or.inr ⟨i, rfl, rfl, fun j hj => getD_destroyAt_ne acc.enemies i j hj⟩
  · intro c hS hc _ hx i hi
    obtain ⟨h1, h2⟩ := column c hS hc hx i hi
    show c * 5 ≤ i ∧ i ≤ (c + 1) * 5 - 1
    omega
  · intro hS _ hx i hi
    obtain ⟨h1, h2⟩ := column 2 hS (by decide) (by simpa using hx) i hi
    omega

/-- A rocket at the horizontal centre of formation column `c` is assigned column `c`,
also with rounded arithmetic, for a sprite of at most 2048 pixels. -/
theorem rounded_rocketColumn_centre (E : Engine) (orig : BoundingBox) (r : GameObject)
    (c : Nat) (hS : 1 ≤ E.SpriteSize) (hS2 : E.SpriteSize ≤ 2048) (hc : c < Config.ENEMY_COLS)
    (hx : r._pos._x = orig.left + (c : ℚ) * (E.SpriteSize : ℚ) + halfSprite E) :
    Rounded.rocketColumn E orig r = some (c : Int) := by
  have hh0 : (0 : ℚ) ≤ halfSprite E := by unfold halfSprite; positivity
  have hh1 : halfSprite E ≤ (E.SpriteSize : ℚ) - 1 := by
    unfold halfSprite
    have h1 : E.SpriteSize / 2 + 1 ≤ E.SpriteSize := by omega
    have h2 : ((E.SpriteSize / 2 + 1 : Nat) : ℚ) ≤ (E.SpriteSize : ℚ) := by exact_mod_cast h1
    push_cast at h2
    linarith
  apply rounded_rocketColumn_strip E orig r c hS hS2 hc
  · rw [hx]
    linarith
  · rw [hx]
    linarith

/-- The column scan with rounded arithmetic: one rocket destroys at most one enemy, and
a rocket at the horizontal centre of column `c` destroys only an enemy of column `c`. -/
theorem column_scan_own_column_rounded (E : Engine) (F : FloatFormat) (bbox orig : BoundingBox)
    (acc : GameEngine.RocketScan) (r : GameObject) :
    aliveCount acc.enemies
        ≤ aliveCount (Rounded.rocketScanStep E F bbox orig acc r).enemies + 1
      ∧ ((Rounded.rocketScanStep E F bbox orig acc r).enemies = acc.enemies
          ∨ ∃ i, Rounded.rocketTarget E F bbox orig acc.enemies r = some i
              ∧ (Rounded.rocketScanStep E F bbox orig acc r).enemies
                  = GameEngine.destroyAt acc.enemies i
              ∧ ∀ j, j ≠ i →
                  (Rounded.rocketScanStep E F bbox orig acc r).enemies.getD j {}
                    = acc.enemies.getD j {})
      ∧ (∀ c : Nat, 1 ≤ E.SpriteSize → E.SpriteSize ≤ 2048 → c < Config.ENEMY_COLS →
          bbox.intersectsWith r = true →
          r._pos._x = orig.left + (c : ℚ) * (E.SpriteSize : ℚ) + halfSprite E →
          ∀ i, Rounded.rocketTarget E F bbox orig acc.enemies r = some i →
            c * Config.ENEMY_ROWS ≤ i ∧ i ≤ (c + 1) * Config.ENEMY_ROWS - 1)
      ∧ (1 ≤ E.SpriteSize → E.SpriteSize ≤ 2048 → bbox.intersectsWith r = true →
          r._pos._x = orig.left + 2 * (E.SpriteSize : ℚ) + halfSprite E →
          ∀ i, Rounded.rocketTarget E F bbox orig acc.enemies r = some i →
            10 ≤ i ∧ i ≤ 14) := by
  have column : ∀ c : Nat, 1 ≤ E.SpriteSize → E.SpriteSize ≤ 2048 → c < Config.ENEMY_COLS →
      r._pos._x = orig.left + (c : ℚ) * (E.SpriteSize : ℚ) + halfSprite E →
      ∀ i, Rounded.rocketTarget E F bbox orig acc.enemies r = some i →
        c * 5 ≤ i ∧ i < c * 5 + 5 := by
    intro c hS hS2 hc hx i hi
    have hcol := rounded_rocketColumn_centre E orig r c hS hS2 hc hx
    obtain ⟨_, _, _, c2, hc2, _, _, h1, h2⟩ := rounded_rocketTarget_some E F bbox orig _ r i hi
    rw [hcol] at hc2
    have hcc : (c : Int) = c2 := Option.some.inj hc2
    subst hcc
    omega
  refine ⟨?_, ?_, ?_, ?_⟩
  · unfold Rounded.rocketScanStep
    cases ht : Rounded.rocketTarget E F bbox orig acc.enemies r with
    | none => exact Nat.le_succ _
    | some i => exact aliveCount_destroyAt acc.enemies i
  · unfold Rounded.rocketScanStep
    cases ht : Rounded.rocketTarget E F bbox orig acc.enemies r with
    | none => exact Or.inl rfl
    | some i =>
      exact Or.inr ⟨i, rfl, rfl, fun j hj => getD_destroyAt_ne acc.enemies i j hj⟩
  · intro c hS hS2 hc _ hx i hi
    obtain ⟨h1, h2⟩ := column c hS hS2 hc hx i hi
    show c * 5 ≤ i ∧ i ≤ (c + 1) * 5 - 1
    omega
  · intro hS hS2 _ hx i hi
    obtain ⟨h1, h2⟩ := column 2 hS hS2 (by decide) (by simpa using hx) i hi
    omega

/-- The rocket `columnTwoRocket` in the full initial formation, with rounded
arithmetic: it destroys enemy 14. -/
theorem rounded_rocketTarget_columnTwoRocket (F : FloatFormat) (hp : 24 ≤ F.precision)
    (he : F.emin ≤ 0) :
    Rounded.rocketTarget sampleEngine F freshPlay._enemyBbox freshPlay._enemyBboxOriginal
      freshPlay._enemies columnTwoRocket = some 14 := by
  have hcol : Rounded.rocketColumn sampleEngine freshPlay._enemyBboxOriginal columnTwoRocket
      = some ((2 : Nat) : Int) := by
    apply rounded_rocketColumn_centre sampleEngine _ _ 2 (by decide) (by decide) (by decide)
    rw [freshPlay_enemyBboxOriginal]
    norm_num [columnTwoRocket, halfSprite, sampleEngine]
  have hbox : freshPlay._enemyBbox.intersectsWith columnTwoRocket = true := by
    rw [freshPlay_enemyBbox]
    norm_num [BoundingBox.intersectsWith, GameObject.getPosition, columnTwoRocket]
  have h14 : freshPlay._enemies.getD 14 {}
      = { _pos := { _x := 80, _y := 172 }, _health := 1 } := by
    rw [freshPlay_enemies, initEnemiesFrom_getD _ _ 14 (by rw [List.length_replicate]; decide)]
    norm_num [GameEngine.initEnemy, GameObject.setPosition, GameObject.setHealth,
      Config.ENEMY_ROWS, halfSprite, sampleEngine]
  have hrad : Rounded.halfSprite sampleEngine = ((16 : Nat) : ℚ) := by
    rw [rounded_halfSprite_sample]
    norm_num
  have hal : columnTwoRocket.isAlive = true := rfl
  unfold Rounded.rocketTarget
  simp only [hal, hbox, hcol, Bool.not_true, Bool.false_eq_true, if_false]
  have hend : (((2 : Nat) : Int) * ((Config.ENEMY_ROWS : Nat) : Int)).toNat = 10 := by decide
  rw [hend]
  show Rounded.scanColumn sampleEngine F freshPlay._enemies columnTwoRocket 10 (4 + 1) = some 14
  unfold Rounded.scanColumn
  have hint : Rounded.intersectsWith F { _pos := { _x := 80, _y := 172 }, _health := 1 }
      columnTwoRocket (Rounded.halfSprite sampleEngine) = true := by
    rw [hrad, rounded_intersectsWith_whole F _ _ 0 0 16 hp he
      (by norm_num [columnTwoRocket]) (by norm_num [columnTwoRocket]) (by norm_num)
      (by norm_num) (by norm_num)]
    norm_num
  rw [show 10 + 4 = 14 from rfl, h14, hint]
  rfl

/-! ## Properties -/

/-- C1, evaluated at the failing input `bombOnPlayer` (state PLAY, player on the last
life, run score 9, previous best 7 stored in the file, an alive bomb within the
player's radius):
`update` ends in GAMEOVER with the player's health at 0, through `updateBombs`, and
the highscore file still holds 7 although max(previous best, run score) is 9. -/
theorem bomb_death_leaves_highscore_file_unwritten (dis : Nat → Nat) :
    bombOnPlayer._gamestate = GAMESTATE.PLAY
      ∧ bombOnPlayer._player._health = 1
      ∧ (GameEngine.updateEnemies sampleEngine bombOnPlayer)._gamestate = GAMESTATE.PLAY
      ∧ (GameEngine.updateEnemies sampleEngine bombOnPlayer)._player._health = 1
      ∧ (GameEngine.update sampleEngine dis bombOnPlayer)._gamestate = GAMESTATE.GAMEOVER
      ∧ (GameEngine.update sampleEngine dis bombOnPlayer)._player._health = 0
      ∧ bombOnPlayer.hscoreFile = some { fileversion := 1, score := 7 }
      ∧ (GameEngine.update sampleEngine dis bombOnPlayer).hscoreFile
          = some { fileversion := 1, score := 7 }
      ∧ max bombOnPlayer._hscore._oldHighscore bombOnPlayer._hscore._currentScore = 9 := by
  rw [update_bombOnPlayer, updateEnemies_bombOnPlayer]
  refine ⟨rfl, rfl, rfl, rfl, rfl, rfl, rfl, rfl, ?_⟩
  show max (7 : Int) 9 = 9
  decide

/-- C2, refuted as stated: the game enters GAMEOVER at time 7 (the bomb of
`bombOnPlayer`) and a fire press half a second later restarts it, because the
2 seconds are counted from the last recorded fire press (time 0 here). -/
theorem restart_half_a_second_after_gameover :
    bombOnPlayer._gamestate = GAMESTATE.PLAY
      ∧ bombOnPlayer._currentTimestamp = 7
      ∧ (GameEngine.update sampleEngine (fun _ => 0) bombOnPlayer)._gamestate
          = GAMESTATE.GAMEOVER
      ∧ (GameEngine.handleEvents sampleEngine (15 / 2) (15 / 2) { fire := true }
          (GameEngine.update sampleEngine (fun _ => 0) bombOnPlayer))._gamestate
          = GAMESTATE.TRYAGAIN
      ∧ ¬ ((15 / 2 : ℚ) - 7 ≥ 2) := by
  refine ⟨rfl, rfl, ?_, ?_, by norm_num⟩
  · rw [update_bombOnPlayer]
    rfl
  · rw [handleEvents_restart sampleEngine (15 / 2) (15 / 2) { fire := true } _ rfl
      (by rw [update_bombOnPlayer]; rfl) (by rw [update_bombOnPlayer]; rfl)
      (by
        have h : (GameEngine.update sampleEngine (fun _ => 0) bombOnPlayer)._timestampOfLastFireKey
            = 0 := by rw [update_bombOnPlayer]; rfl
        rw [h]; norm_num)]
    rfl

/-- C2, amended: in GAMEOVER, `handleEvents` performs the restart (game state
TRYAGAIN) only if the fire key is pressed, the flag `_liftedFireKeyBefore` is set and
more than 2 seconds have passed since `_timestampOfLastFireKey`, the time of the
last recorded fire press. -/
theorem restart_only_if (E : Engine) (now shotNow : ℚ) (keys : PlayerInput)
    (s : GameEngine) (hg : s._gamestate = GAMESTATE.GAMEOVER)
    (hr : (GameEngine.handleEvents E now shotNow keys s)._gamestate = GAMESTATE.TRYAGAIN) :
    keys.fire = true ∧ s._liftedFireKeyBefore = true
      ∧ now - s._timestampOfLastFireKey > 2 := by
  by_cases hf : keys.fire = true
  · by_cases hl : s._liftedFireKeyBefore = true
    · by_cases ht : now - s._timestampOfLastFireKey > 2
      · exact ⟨hf, hl, ht⟩
      · simp [GameEngine.handleEvents, GameEngine.handleFireKey, hf, hl, hg, ht] at hr
    · simp [GameEngine.handleEvents, GameEngine.handleFireKey, GameEngine.movePlayer,
        GameEngine.noteFireKey, hf, hl, hg] at hr
  · simp [GameEngine.handleEvents, GameEngine.handleFireKey, GameEngine.movePlayer,
      hf, hg] at hr

/-- Witness for C2: a restart three seconds after the last recorded fire press. -/
theorem restart_only_if_witness :
    ({ fire := true } : PlayerInput).fire = true
      ∧ ({ _gamestate := GAMESTATE.GAMEOVER } : GameEngine)._liftedFireKeyBefore = true
      ∧ (3 : ℚ) - ({ _gamestate := GAMESTATE.GAMEOVER } : GameEngine)._timestampOfLastFireKey
          > 2 :=
  restart_only_if sampleEngine 3 3 { fire := true } { _gamestate := GAMESTATE.GAMEOVER } rfl
    (by
      rw [handleEvents_restart sampleEngine 3 3 { fire := true }
        { _gamestate := GAMESTATE.GAMEOVER } rfl rfl rfl (by norm_num)]
      rfl)

/-- C3, refuted as stated: `justAfterSixSeconds` is in GO with start time 0 and current
time 6 + 2^-23, a `double`; `t = currentTimestamp - startTimestamp` exceeds 6, for
which the claim gives PLAY, but `update` narrows `t` to a `float`, which is 6, and
leaves the state GO. -/
theorem intro_elapsed_time_is_narrowed :
    justAfterSixSeconds._gamestate ≠ GAMESTATE.PLAY
      ∧ justAfterSixSeconds._gamestate ≠ GAMESTATE.GAMEOVER
      ∧ float64 justAfterSixSeconds._currentTimestamp = justAfterSixSeconds._currentTimestamp
      ∧ justAfterSixSeconds._currentTimestamp - justAfterSixSeconds._startTimestamp > 6
      ∧ introState (justAfterSixSeconds._currentTimestamp
          - justAfterSixSeconds._startTimestamp) = GAMESTATE.PLAY
      ∧ ∀ (F : FloatFormat) (dis : Nat → Nat),
          (Rounded.update sampleEngine F dis justAfterSixSeconds)._gamestate
            = GAMESTATE.GO := by
  refine ⟨by decide, by decide, ?_, ?_, ?_, ?_⟩
  · show float64 (6 + 1 / 2 ^ 23 : ℚ) = 6 + 1 / 2 ^ 23
    have h := float64_of_repr 50331649 (-23) (by norm_num) (by norm_num)
    norm_num at h ⊢
    exact h
  · show (6 + 1 / 2 ^ 23 : ℚ) - 0 > 6
    norm_num
  · show introState ((6 + 1 / 2 ^ 23 : ℚ) - 0) = GAMESTATE.PLAY
    unfold introState
    norm_num
  · intro F dis
    rw [rounded_update_intro sampleEngine F dis justAfterSixSeconds (by decide) (by decide)]
    show introState (Rounded.passedSeconds justAfterSixSeconds) = GAMESTATE.GO
    rw [passedSeconds_justAfterSixSeconds]
    unfold introState
    norm_num

/-- C3, amended: in every state that is neither PLAY nor GAMEOVER, `update` sets the
game state to the intro state of `passedSeconds`, the single-precision value of
`t = currentTimestamp - startTimestamp` (PLAY if it exceeds 6, else GO if it exceeds
5, else WELCOME_1 if it exceeds 4, else WELCOME_2 if it exceeds 3, else WELCOME_3 if
it exceeds 2, else WELCOME), and changes nothing else, so no entity, bounding box,
score or level. This is the intro state of `t` itself unless `t` lies less than
2^-21 s above one of the thresholds 2, 3, 4, 5, 6; so the result is PLAY when
`t ≥ 6 + 2^-21`, as for `t = 6.01`, and is not PLAY when `t ≤ 6`. -/
theorem update_intro_timeline (E : Engine) (F : FloatFormat) (dis : Nat → Nat)
    (s : GameEngine)
    (hplay : s._gamestate ≠ GAMESTATE.PLAY) (hover : s._gamestate ≠ GAMESTATE.GAMEOVER) :
    Rounded.update E F dis s
        = { s with
            _gamestate :=
              introState (float32 (float64 (s._currentTimestamp - s._startTimestamp))) }
      ∧ (Rounded.update E F dis s)._player = s._player
      ∧ (Rounded.update E F dis s)._rockets = s._rockets
      ∧ (Rounded.update E F dis s)._bombs = s._bombs
      ∧ (Rounded.update E F dis s)._enemies = s._enemies
      ∧ (Rounded.update E F dis s)._enemyBbox = s._enemyBbox
      ∧ (Rounded.update E F dis s)._enemyBboxOriginal = s._enemyBboxOriginal
      ∧ (Rounded.update E F dis s)._hscore = s._hscore
      ∧ (Rounded.update E F dis s)._level = s._level
      ∧ ((∀ k : ℚ, k ∈ [2, 3, 4, 5, 6] →
            ¬ (k < s._currentTimestamp - s._startTimestamp
                ∧ s._currentTimestamp - s._startTimestamp < k + 1 / 2 ^ 21)) →
          (Rounded.update E F dis s)._gamestate
            = introState (s._currentTimestamp - s._startTimestamp))
      ∧ (6 + 1 / 2 ^ 21 ≤ s._currentTimestamp - s._startTimestamp →
          (Rounded.update E F dis s)._gamestate = GAMESTATE.PLAY)
      ∧ (s._currentTimestamp - s._startTimestamp ≤ 6 →
          (Rounded.update E F dis s)._gamestate ≠ GAMESTATE.PLAY)
      ∧ (s._gamestate = GAMESTATE.WELCOME →
          s._currentTimestamp - s._startTimestamp = 601 / 100 →
          (Rounded.update E F dis s)._gamestate = GAMESTATE.PLAY) := by
  have key := rounded_update_intro E F dis s hplay hover
  obtain ⟨⟨f2, f3, f4, f5, f6⟩, g2, g3, g4, g5, g6⟩ := float32_intro_thresholds
  have hd : (0 : ℚ) < 1 / 2 ^ 21 := by norm_num
  have hgs : (Rounded.update E F dis s)._gamestate
      = introState (float32 (float64 (s._currentTimestamp - s._startTimestamp))) := by
    rw [key]
    rfl
  have hge : 6 + 1 / 2 ^ 21 ≤ s._currentTimestamp - s._startTimestamp →
      (Rounded.update E F dis s)._gamestate = GAMESTATE.PLAY := by
    intro ht
    have h := narrow_mono _ _ ht
    rw [narrow_of_float _ g6] at h
    rw [hgs]
    unfold introState
    rw [if_pos (by linarith)]
  refine ⟨key, ?_, ?_, ?_, ?_, ?_, ?_, ?_, ?_, ?_, hge, ?_, ?_⟩
  all_goals try (rw [key])
  · intro hclear
    have c2 := narrow_gt_iff (s._currentTimestamp - s._startTimestamp) 2 (1 / 2 ^ 21) hd f2 g2
      (hclear 2 (by simp))
    have c3 := narrow_gt_iff (s._currentTimestamp - s._startTimestamp) 3 (1 / 2 ^ 21) hd f3 g3
      (hclear 3 (by simp))
    have c4 := narrow_gt_iff (s._currentTimestamp - s._startTimestamp) 4 (1 / 2 ^ 21) hd f4 g4
      (hclear 4 (by simp))
    have c5 := narrow_gt_iff (s._currentTimestamp - s._startTimestamp) 5 (1 / 2 ^ 21) hd f5 g5
      (hclear 5 (by simp))
    have c6 := narrow_gt_iff (s._currentTimestamp - s._startTimestamp) 6 (1 / 2 ^ 21) hd f6 g6
      (hclear 6 (by simp))
    show introState (Rounded.passedSeconds s) = _
    unfold introState Rounded.passedSeconds
    rw [if_congr c6 rfl (if_congr c5 rfl (if_congr c4 rfl (if_congr c3 rfl
      (if_congr c2 rfl rfl))))]
  · intro ht
    have h := narrow_mono _ _ ht
    rw [narrow_of_float _ f6] at h
    show introState (Rounded.passedSeconds s) ≠ GAMESTATE.PLAY
    unfold introState Rounded.passedSeconds
    rw [if_neg (not_lt.2 h)]
    split_ifs <;> decide
  · intro _ ht
    have := hge (by rw [ht]; norm_num)
    rw [key] at this
    exact this

/-- Witness for C3: a fresh engine whose stopwatch reads 6 + 1/64 s goes to PLAY. -/
theorem update_intro_timeline_witness :
    (Rounded.update sampleEngine binary32 (fun _ => 0)
        ({ _currentTimestamp := 6 + 1 / 64 } : GameEngine))._gamestate
      = GAMESTATE.PLAY :=
  (update_intro_timeline sampleEngine binary32 (fun _ => 0)
      ({ _currentTimestamp := 6 + 1 / 64 } : GameEngine)
      (by decide) (by decide)).2.2.2.2.2.2.2.2.2.2.1
    (by
      show (6 + 1 / 2 ^ 21 : ℚ) ≤ (6 + 1 / 64 : ℚ) - 0
      norm_num)

/-- C5: on a qualifying fire press in PLAY (fire pressed, released-flag set), (1) if the
shot cooldown has elapsed (the `double` difference of the current time and the time of
the last shot exceeds TIME_BETWEEN_SHOTS) and some rocket slot is dead, exactly the
lowest-index dead slot becomes a rocket at the player's position with health 1, every
other slot is unchanged and the last-shot timestamp becomes the stopwatch reading
taken at the spawn; (2) if no slot is dead, the rockets and the last-shot timestamp
are unchanged, whether or not the cooldown has elapsed; (3) if the cooldown has not
elapsed, the rockets and the last-shot timestamp are unchanged; and the pool keeps its
size, so at most MAX_ROCKET_COUNT rockets are alive. -/
theorem shoot_on_qualifying_press (E : Engine) (now shotNow : ℚ) (keys : PlayerInput)
    (s : GameEngine) (hplay : s._gamestate = GAMESTATE.PLAY) (hfire : keys.fire = true)
    (hlift : s._liftedFireKeyBefore = true) :
    (float64 (now - s._timestampOfLastShot) > Config.TIME_BETWEEN_SHOTS →
        (∃ r ∈ s._rockets, r.isAlive = false) →
        ∃ i, i < s._rockets.length
          ∧ (∀ j, j < i → (s._rockets.getD j {}).isAlive = true)
          ∧ (s._rockets.getD i {}).isAlive = false
          ∧ (Rounded.handleEvents E now shotNow keys s)._rockets
              = s._rockets.set i { _pos := s._player._pos, _health := 1 }
          ∧ (Rounded.handleEvents E now shotNow keys s)._timestampOfLastShot = shotNow)
      ∧ ((∀ r ∈ s._rockets, r.isAlive = true) →
          (Rounded.handleEvents E now shotNow keys s)._rockets = s._rockets
            ∧ (Rounded.handleEvents E now shotNow keys s)._timestampOfLastShot
                = s._timestampOfLastShot)
      ∧ (¬ float64 (now - s._timestampOfLastShot) > Config.TIME_BETWEEN_SHOTS →
          (Rounded.handleEvents E now shotNow keys s)._rockets = s._rockets
            ∧ (Rounded.handleEvents E now shotNow keys s)._timestampOfLastShot
                = s._timestampOfLastShot)
      ∧ (Rounded.handleEvents E now shotNow keys s)._rockets.length = s._rockets.length
      ∧ (s._rockets.length = Config.MAX_ROCKET_COUNT →
          aliveCount (Rounded.handleEvents E now shotNow keys s)._rockets
            ≤ Config.MAX_ROCKET_COUNT) := by
  obtain ⟨a1, a2, _, _⟩ := rounded_handleEvents_play E now shotNow keys s hplay
  have hlen : (Rounded.handleEvents E now shotNow keys s)._rockets.length
      = s._rockets.length := by
    rw [a1]
    split_ifs
    · cases hsp : GameEngine.spawnRocket s._player._pos s._rockets with
      | none => rfl
      | some l1 => exact (spawnRocket_aliveCount _ _ l1 hsp).2
    · rfl
  refine ⟨?_, ?_, ?_, hlen, ?_⟩
  · intro ht hfree
    cases hsp : GameEngine.spawnRocket s._player._pos s._rockets with
    | none =>
      obtain ⟨r, hr, hdead⟩ := hfree
      have := (spawnRocket_eq_none _ _).1 hsp r hr
      rw [hdead] at this
      exact absurd this (by decide)
    | some l1 =>
      obtain ⟨i, hi, hbefore, hat, hset⟩ := spawnRocket_eq_some _ _ l1 hsp
      refine ⟨i, hi, hbefore, hat, ?_, ?_⟩
      · rw [a1, if_pos ⟨hfire, hlift, ht⟩, hsp, ← hset]
        rfl
      · rw [a2, if_pos ⟨hfire, hlift, ht, by rw [hsp]; rfl⟩]
  · intro hall
    have hsp := (spawnRocket_eq_none s._player._pos s._rockets).2 hall
    constructor
    · rw [a1, hsp]
      simp
    · rw [a2, hsp]
      simp
  · intro ht
    constructor
    · rw [a1, if_neg (fun hc => ht hc.2.2)]
    · rw [a2, if_neg (fun hc => ht hc.2.2.1)]
  · intro hmax
    have := aliveCount_le_length (Rounded.handleEvents E now shotNow keys s)._rockets
    rw [hlen, hmax] at this
    exact this

/-- Witness for C5: a qualifying press in `introDone`, 8 seconds after the start with
every slot free, puts a rocket in the lowest dead slot. -/
theorem shoot_on_qualifying_press_witness :
    ∃ i, i < introDone._rockets.length
      ∧ (∀ j, j < i → (introDone._rockets.getD j {}).isAlive = true)
      ∧ (introDone._rockets.getD i {}).isAlive = false
      ∧ (Rounded.handleEvents sampleEngine 8 8 { fire := true } introDone)._rockets
          = introDone._rockets.set i { _pos := introDone._player._pos, _health := 1 }
      ∧ (Rounded.handleEvents sampleEngine 8 8 { fire := true }
          introDone)._timestampOfLastShot = 8 :=
  (shoot_on_qualifying_press sampleEngine 8 8 { fire := true } introDone rfl rfl rfl).1
    (by
      show float64 ((8 : ℚ) - 0) > Config.TIME_BETWEEN_SHOTS
      rw [sub_zero, float64_small_whole.2.1]
      norm_num [Config.TIME_BETWEEN_SHOTS])
    ⟨{}, by rw [introDone_rockets]; simp, rfl⟩

/-- C6, refuted as stated: the player of `nearLeftEdge` stands at x = 1, a `float`
inside [0, 608]; with the left key down and a frame time of 1/64 s (previous reading
0, current reading 1/64) the step is 400/64 = 6.25 and the player ends at
x = -5.25. Every value of the computation is representable, so nothing is rounded. -/
theorem player_leaves_the_interval :
    nearLeftEdge._gamestate ≠ GAMESTATE.GAMEOVER
      ∧ float32 nearLeftEdge._player._pos._x = nearLeftEdge._player._pos._x
      ∧ 0 ≤ nearLeftEdge._player._pos._x
      ∧ nearLeftEdge._player._pos._x
          ≤ (sampleEngine.CanvasWidth : ℚ) - (sampleEngine.SpriteSize : ℚ)
      ∧ (0 : ℚ) ≤ float64 (1 / 64 - nearLeftEdge._previousTimestamp)
      ∧ (Rounded.handleEvents sampleEngine (1 / 64) (1 / 64) { left := true }
          nearLeftEdge)._player._pos._x = -(21 / 4)
      ∧ ¬ (0 : ℚ) ≤ -(21 / 4) := by
  have e0 : float32 (1 : ℚ) = 1 := by
    have := float32_intCast 1 (by norm_num)
    norm_num at this
    exact this
  have e1 : float64 ((1 / 64 : ℚ) - 0) = 1 / 64 := by
    have := float64_dyadic 1 6 (by norm_num) (by norm_num)
    norm_num at this ⊢
    exact this
  have e2 : float64 (400 * (1 / 64 : ℚ)) = 25 / 4 := by
    have := float64_dyadic 25 2 (by norm_num) (by norm_num)
    norm_num at this ⊢
    exact this
  have e3 : float64 ((1 : ℚ) - 25 / 4) = -(21 / 4) := by
    have := float64_dyadic (-21) 2 (by norm_num) (by norm_num)
    norm_num at this ⊢
    exact this
  have e4 : float32 (-(21 / 4) : ℚ) = -(21 / 4) := by
    have := float32_dyadic (-21) 2 (by norm_num) (by norm_num)
    norm_num at this ⊢
    exact this
  refine ⟨by decide, ?_, ?_, ?_, ?_, ?_, by norm_num⟩
  · exact e0
  · norm_num [nearLeftEdge]
  · norm_num [nearLeftEdge, sampleEngine]
  · exact float64_nonneg _ (by norm_num [nearLeftEdge])
  · rw [rounded_handleEvents_eq_movePlayer _ _ _ _ _ (by decide)]
    show (Rounded.movePlayer sampleEngine { left := true }
      { nearLeftEdge with
        _currentTimestamp := 1 / 64
        _msPerFrame := float64 (1 / 64 - 0)
        _previousTimestamp := 1 / 64
        _liftedFireKeyBefore := true })._player._pos._x = _
    unfold Rounded.movePlayer
    simp only [GameObject.setPositionX, GameObject.getPosition, e1, e2]
    rw [if_pos (by decide)]
    simp only [Bool.false_eq_true, if_false, if_true]
    rw [if_pos (by norm_num [nearLeftEdge])]
    show float32 (float64 ((1 : ℚ) - 25 / 4)) = _
    rw [e3, e4]

/-- C6, amended: for a state not in GAMEOVER whose player x-coordinate is a `float` in
[0, CanvasWidth - SpriteSize] and a frame time `msPerFrame`, the `double` difference
of the current and the previous stopwatch reading, that is not negative, the
x-coordinate after `handleEvents` is at least `-float(400 * msPerFrame)` and at most
`float(float(CanvasWidth - SpriteSize) + 400 * msPerFrame)`, the product and the sum
computed in `double`: at most one frame's travel outside the interval, as the code
rounds it. The y-coordinate is unchanged. -/
theorem player_x_within_one_step (E : Engine) (now shotNow : ℚ) (keys : PlayerInput)
    (s : GameEngine) (hg : s._gamestate ≠ GAMESTATE.GAMEOVER)
    (hfl : float32 s._player._pos._x = s._player._pos._x)
    (h0 : 0 ≤ s._player._pos._x)
    (h1 : s._player._pos._x ≤ (E.CanvasWidth : ℚ) - (E.SpriteSize : ℚ))
    (hms : 0 ≤ float64 (now - s._previousTimestamp)) :
    -float32 (float64 (400 * float64 (now - s._previousTimestamp)))
        ≤ (Rounded.handleEvents E now shotNow keys s)._player._pos._x
      ∧ (Rounded.handleEvents E now shotNow keys s)._player._pos._x
        ≤ float32 (float64 (float32 ((E.CanvasWidth : ℚ) - (E.SpriteSize : ℚ))
            + float64 (400 * float64 (now - s._previousTimestamp))))
      ∧ (Rounded.handleEvents E now shotNow keys s)._player._pos._y
        = s._player._pos._y := by
  rw [rounded_handleEvents_eq_movePlayer E now shotNow keys s hg]
  obtain ⟨f1, f2, _, _⟩ := rounded_handleFireKey_frame E shotNow keys
    { s with
      _currentTimestamp := now
      _msPerFrame := float64 (now - s._previousTimestamp)
      _previousTimestamp := now } hg
  obtain ⟨_, _, _, _, m5, _⟩ := rounded_movePlayer_frame E keys
    (Rounded.handleFireKey E shotNow keys
      { s with
        _currentTimestamp := now
        _msPerFrame := float64 (now - s._previousTimestamp)
        _previousTimestamp := now }).1
  have hx := rounded_movePlayer_x E keys
    (Rounded.handleFireKey E shotNow keys
      { s with
        _currentTimestamp := now
        _msPerFrame := float64 (now - s._previousTimestamp)
        _previousTimestamp := now }).1
    (by rw [f2]; exact hms) (by rw [f1]; exact hfl) (by rw [f1]; exact h0)
    (by rw [f1]; exact h1)
  rw [f2] at hx
  refine ⟨hx.1, hx.2, ?_⟩
  rw [m5, f1]

/-- Witness for C6: the state `nearLeftEdge` with the left key down for 1/64 s. -/
theorem player_x_within_one_step_witness :
    -float32 (float64 (400 * float64 ((1 / 64 : ℚ) - nearLeftEdge._previousTimestamp)))
        ≤ (Rounded.handleEvents sampleEngine (1 / 64) (1 / 64) { left := true }
            nearLeftEdge)._player._pos._x
      ∧ (Rounded.handleEvents sampleEngine (1 / 64) (1 / 64) { left := true }
            nearLeftEdge)._player._pos._x
        ≤ float32 (float64 (float32 ((sampleEngine.CanvasWidth : ℚ)
              - (sampleEngine.SpriteSize : ℚ))
            + float64 (400 * float64 ((1 / 64 : ℚ) - nearLeftEdge._previousTimestamp))))
      ∧ (Rounded.handleEvents sampleEngine (1 / 64) (1 / 64) { left := true }
            nearLeftEdge)._player._pos._y
        = nearLeftEdge._player._pos._y :=
  player_x_within_one_step sampleEngine (1 / 64) (1 / 64) { left := true } nearLeftEdge
    (by decide)
    (by
      have := float32_intCast 1 (by norm_num)
      norm_num at this
      exact this)
    (by norm_num [nearLeftEdge]) (by norm_num [nearLeftEdge, sampleEngine])
    (float64_nonneg _ (by norm_num [nearLeftEdge]))

/-- C7: in the rocket loop of `updateEnemies` one rocket destroys at most
one enemy (the enemy `rocketTarget` names, and the alive count drops by at most
one); for a sprite at least one pixel wide and a rocket inside the alive box at the
horizontal centre of column `c < ENEMY_COLS`
(x = enemyBboxOriginal.left + c * SpriteSize + SpriteSize / 2), the enemy destroyed
has an index in [c * ENEMY_ROWS, (c + 1) * ENEMY_ROWS - 1]; with the code's
ENEMY_ROWS = 5 and ENEMY_COLS = 10, a rocket at column 2 destroys only an enemy
with index in [10, 14]. The same holds with rounded arithmetic, for a sprite of at
most 2048 pixels: at the centre of a column the division that gives the column is
off a whole number by at most one half, and its rounding does not reach the next
column. -/
theorem column_scan_hits_own_column (E : Engine) (F : FloatFormat) (bbox orig : BoundingBox)
    (acc : GameEngine.RocketScan) (r : GameObject) :
    (aliveCount acc.enemies
        ≤ aliveCount (GameEngine.rocketScanStep E bbox orig acc r).enemies + 1
      ∧ ((GameEngine.rocketScanStep E bbox orig acc r).enemies = acc.enemies
          ∨ ∃ i, GameEngine.rocketTarget E bbox orig acc.enemies r = some i
              ∧ (GameEngine.rocketScanStep E bbox orig acc r).enemies
                  = GameEngine.destroyAt acc.enemies i
              ∧ ∀ j, j ≠ i →
                  (GameEngine.rocketScanStep E bbox orig acc r).enemies.getD j {}
                    = acc.enemies.getD j {})
      ∧ (∀ c : Nat, 1 ≤ E.SpriteSize → c < Config.ENEMY_COLS →
          bbox.intersectsWith r = true →
          r._pos._x = orig.left + (c : ℚ) * (E.SpriteSize : ℚ) + halfSprite E →
          ∀ i, GameEngine.rocketTarget E bbox orig acc.enemies r = some i →
            c * Config.ENEMY_ROWS ≤ i ∧ i ≤ (c + 1) * Config.ENEMY_ROWS - 1)
      ∧ (1 ≤ E.SpriteSize → bbox.intersectsWith r = true →
          r._pos._x = orig.left + 2 * (E.SpriteSize : ℚ) + halfSprite E →
          ∀ i, GameEngine.rocketTarget E bbox orig acc.enemies r = some i →
            10 ≤ i ∧ i ≤ 14))
      ∧ (aliveCount acc.enemies
          ≤ aliveCount (Rounded.rocketScanStep E F bbox orig acc r).enemies + 1
        ∧ ((Rounded.rocketScanStep E F bbox orig acc r).enemies = acc.enemies
            ∨ ∃ i, Rounded.rocketTarget E F bbox orig acc.enemies r = some i
                ∧ (Rounded.rocketScanStep E F bbox orig acc r).enemies
                    = GameEngine.destroyAt acc.enemies i
                ∧ ∀ j, j ≠ i →
                    (Rounded.rocketScanStep E F bbox orig acc r).enemies.getD j {}
                      = acc.enemies.getD j {})
        ∧ (∀ c : Nat, 1 ≤ E.SpriteSize → E.SpriteSize ≤ 2048 → c < Config.ENEMY_COLS →
            bbox.intersectsWith r = true →
            r._pos._x = orig.left + (c : ℚ) * (E.SpriteSize : ℚ) + halfSprite E →
            ∀ i, Rounded.rocketTarget E F bbox orig acc.enemies r = some i →
              c * Config.ENEMY_ROWS ≤ i ∧ i ≤ (c + 1) * Config.ENEMY_ROWS - 1)
        ∧ (1 ≤ E.SpriteSize → E.SpriteSize ≤ 2048 → bbox.intersectsWith r = true →
            r._pos._x = orig.left + 2 * (E.SpriteSize : ℚ) + halfSprite E →
            ∀ i, Rounded.rocketTarget E F bbox orig acc.enemies r = some i →
              10 ≤ i ∧ i ≤ 14)) :=
  ⟨column_scan_own_column_exact E bbox orig acc r,
    column_scan_own_column_rounded E F bbox orig acc r⟩

/-- Witness for C7: the rocket `columnTwoRocket` in the full initial formation destroys
enemy 14, with exact and with rounded arithmetic. -/
theorem column_scan_hits_own_column_witness :
    (GameEngine.rocketTarget sampleEngine freshPlay._enemyBbox freshPlay._enemyBboxOriginal
        freshPlay._enemies columnTwoRocket = some 14
      ∧ 10 ≤ 14 ∧ 14 ≤ 14)
      ∧ (Rounded.rocketTarget sampleEngine binary32 freshPlay._enemyBbox
          freshPlay._enemyBboxOriginal freshPlay._enemies columnTwoRocket = some 14
        ∧ 10 ≤ 14 ∧ 14 ≤ 14) :=
  ⟨⟨rocketTarget_columnTwoRocket,
      (column_scan_hits_own_column sampleEngine binary32 freshPlay._enemyBbox
        freshPlay._enemyBboxOriginal { enemies := freshPlay._enemies, hscore := {} }
        columnTwoRocket).1.2.2.2
      (by decide)
      (by
        rw [freshPlay_enemyBbox]
        norm_num [BoundingBox.intersectsWith, GameObject.getPosition, columnTwoRocket])
      (by
        rw [freshPlay_enemyBboxOriginal]
        norm_num [columnTwoRocket, halfSprite, sampleEngine])
      14 rocketTarget_columnTwoRocket⟩,
    ⟨rounded_rocketTarget_columnTwoRocket binary32 (by decide) (by decide),
      (column_scan_hits_own_column sampleEngine binary32 freshPlay._enemyBbox
        freshPlay._enemyBboxOriginal { enemies := freshPlay._enemies, hscore := {} }
        columnTwoRocket).2.2.2.2
      (by decide) (by decide)
      (by
        rw [freshPlay_enemyBbox]
        norm_num [BoundingBox.intersectsWith, GameObject.getPosition, columnTwoRocket])
      (by
        rw [freshPlay_enemyBboxOriginal]
        norm_num [columnTwoRocket, halfSprite, sampleEngine])
      14 (rounded_rocketTarget_columnTwoRocket binary32 (by decide) (by decide))⟩⟩

/-- C9, evaluated at the failing input `leftOfCanvasArray` (50 entities, the only alive
one at x = -40, y = 100, sprite size 32): the right edge is seeded with
`numeric_limits<float>::min()`, a positive number, so the result has
right = FLT_MIN + 16 and not (max x over alive) + SpriteSize/2 = -24. -/
theorem getBoundingBoxOf_leftOfCanvasArray :
    leftOfCanvasArray.length = Config.ENEMY_COUNT
      ∧ getBoundingBoxOf sampleEngine leftOfCanvasArray
          = { left := -56, top := 84, right := FLT_MIN + 16, bottom := 116 }
      ∧ (getBoundingBoxOf sampleEngine leftOfCanvasArray).right
          ≠ -40 + halfSprite sampleEngine := by
  have hdead : ∀ o ∈ List.replicate 49 ({} : GameObject), o.isAlive = false := by
    intro o ho
    rw [List.eq_of_mem_replicate ho]
    rfl
  have hval : getBoundingBoxOf sampleEngine leftOfCanvasArray
      = { left := -56, top := 84, right := FLT_MIN + 16, bottom := 116 } := by
    unfold getBoundingBoxOf leftOfCanvasArray
    rw [List.foldl_cons, foldl_bboxScanStep_dead _ _ hdead]
    norm_num [bboxScanStep, GameObject.isAlive, GameObject.getPosition, FLT_MAX, FLT_MIN,
      halfSprite, sampleEngine]
  refine ⟨by simp [leftOfCanvasArray], hval, ?_⟩
  rw [hval]
  norm_num [FLT_MIN, halfSprite, sampleEngine]

/-- C10, refuted as stated: `introDoneOddFrame` is the state right after the intro
(PLAY, the 50 enemies alive on the initial grid, no rocket alive, player at its
initial position, direction RIGHT, right edge 320 of the alive box left of the canvas
width 640) with a frame time of 1/64 + 2^-24 s. The step 200 * msPerFrame is
3.125 + 25 * 2^-21; enemy 0 stands at x = 16, and its new x-coordinate is the `float`
nearest to the sum, 19.125 + 24 * 2^-21: less than 200 * msPerFrame was added. -/
theorem first_frame_step_is_rounded :
    introDoneOddFrame._gamestate = GAMESTATE.PLAY
      ∧ introDoneOddFrame._enemies
          = Rounded.initEnemiesFrom sampleEngine 0 (List.replicate Config.ENEMY_COUNT {})
      ∧ (∀ r ∈ introDoneOddFrame._rockets, r.isAlive = false)
      ∧ introDoneOddFrame._player._pos = { _x := 320, _y := 464 }
      ∧ introDoneOddFrame._enemy_direction = ENEMY_DIRECTION.RIGHT
      ∧ introDoneOddFrame._enemyBbox.right < (sampleEngine.CanvasWidth : ℚ)
      ∧ 0 ≤ introDoneOddFrame._msPerFrame
      ∧ float64 introDoneOddFrame._msPerFrame = introDoneOddFrame._msPerFrame
      ∧ (introDoneOddFrame._enemies.getD 0 {})._pos._x = 16
      ∧ ∀ (F : FloatFormat) (dis : Nat → Nat),
          ((Rounded.update sampleEngine F dis introDoneOddFrame)._enemies.getD 0 {})._pos._x
            = 16 + 200 * introDoneOddFrame._msPerFrame - 1 / 2 ^ 21 := by
  obtain ⟨v1, v2, v3⟩ := oddFrame_values
  obtain ⟨_, _, f320, f188, f464, f640, f480, _⟩ := float32_sample_values
  have hbox : introDoneOddFrame._enemyBbox
      = { left := 0, top := 28, right := 320, bottom := 188 } := introDone_enemyBbox.1
  have hpl : introDoneOddFrame._player = { _pos := { _x := 320, _y := 464 }, _health := 3 } :=
    introDone_player
  have hen : introDoneOddFrame._enemies
      = GameEngine.initEnemiesFrom sampleEngine 0 (List.replicate Config.ENEMY_COUNT {}) :=
    introDone_enemies
  have h0 : introDoneOddFrame._enemies.getD 0 {}
      = { _pos := { _x := 16, _y := 44 }, _health := 1 } := by
    rw [hen, initEnemiesFrom_getD _ _ 0 (by rw [List.length_replicate]; decide)]
    norm_num [GameEngine.initEnemy, GameObject.setPosition, GameObject.setHealth,
      Config.ENEMY_ROWS, halfSprite, sampleEngine]
  have hW : float32 (sampleEngine.CanvasWidth : ℚ) = 640 := by
    have : (sampleEngine.CanvasWidth : ℚ) = 640 := by norm_num [sampleEngine]
    rw [this, f640]
  have hH : float32 (sampleEngine.CanvasHeight : ℚ) = 480 := by
    have : (sampleEngine.CanvasHeight : ℚ) = 480 := by norm_num [sampleEngine]
    rw [this, f480]
  have hupd := fun (F : FloatFormat) (dis : Nat → Nat) =>
    (rounded_update_travel_right sampleEngine F dis introDoneOddFrame rfl
    introDone_rockets_dead
    (by rw [hbox, hH]; norm_num)
    (by
      rw [hbox, hpl]
      norm_num [BoundingBox.intersectsWith, GameObject.getPosition])
    rfl
    (by rw [hbox, hW]; norm_num)).1
  refine ⟨rfl, rfl, introDone_rockets_dead, ?_, rfl, ?_, ?_, v1, ?_, ?_⟩
  · rw [hpl]
  · rw [hbox]
    norm_num [sampleEngine]
  · show (0 : ℚ) ≤ 1 / 64 + 1 / 2 ^ 24
    norm_num
  · rw [h0]
  · intro F dis
    have hlen : 0 < introDoneOddFrame._enemies.length := by
      rw [hen, initEnemiesFrom_length, List.length_replicate]
      decide
    rw [hupd F dis, List.getD_eq_getElem?_getD, List.getElem?_map, List.getElem?_eq_getElem hlen]
    have h0' : introDoneOddFrame._enemies[0] = { _pos := { _x := 16, _y := 44 }, _health := 1 } := by
      have := h0
      rw [List.getD_eq_getElem?_getD, List.getElem?_eq_getElem hlen] at this
      simpa using this
    rw [h0']
    show float32 ((16 : ℚ) + float32 (float64 (200 * (1 / 64 + 1 / 2 ^ 24 : ℚ)))) = _
    rw [v2, v3]
    show (10027014 / 2 ^ 19 : ℚ) = 16 + 200 * (1 / 64 + 1 / 2 ^ 24) - 1 / 2 ^ 21
    norm_num

/-- C10, amended: in the state right after the intro (PLAY, all 50 enemies alive on the
initial grid, no rocket alive, player at its initial position, direction RIGHT, right
edge of the alive box less than the `float` value of CanvasWidth, box edges that are
`float` values), one call of `update` keeps all 50 enemies alive, replaces every
enemy's x and the left and right edges of both boxes by the `float` nearest to their
sum with the step `float(200 * _msPerFrame)`, and changes no enemy's y (nor the top
and bottom edges), for every frame time. No x decreases when the frame time is not
negative, and exactly `200 * _msPerFrame` is added to an x when the step and the sum
are `float` values. The constants of `Engine.h` enter through `habove`: the alive box
ends above the player's row. -/
theorem first_play_frame (E : Engine) (F : FloatFormat) (dis : Nat → Nat) (s : GameEngine)
    (hplay : s._gamestate = GAMESTATE.PLAY)
    (hgrid : s._enemies
      = Rounded.initEnemiesFrom E 0 (List.replicate Config.ENEMY_COUNT {}))
    (hrockets : ∀ r ∈ s._rockets, r.isAlive = false)
    (hplayer : s._player._pos
      = { _x := float32 ((E.CanvasWidth / 2 : Nat) : ℚ)
          _y := float32 ((E.CanvasHeight : ℚ) - ((E.SpriteSize / 2 : Nat) : ℚ)) })
    (hdir : s._enemy_direction = ENEMY_DIRECTION.RIGHT)
    (hright : s._enemyBbox.right < float32 (E.CanvasWidth : ℚ))
    (habove : s._enemyBbox.bottom
      < float32 ((E.CanvasHeight : ℚ) - ((E.SpriteSize / 2 : Nat) : ℚ)))
    (hbox : float32 s._enemyBbox.top = s._enemyBbox.top
      ∧ float32 s._enemyBbox.bottom = s._enemyBbox.bottom)
    (horig : float32 s._enemyBboxOriginal.top = s._enemyBboxOriginal.top
      ∧ float32 s._enemyBboxOriginal.bottom = s._enemyBboxOriginal.bottom) :
    (Rounded.update E F dis s)._enemies.length = Config.ENEMY_COUNT
      ∧ (∀ e ∈ (Rounded.update E F dis s)._enemies, e.isAlive = true)
      ∧ (∀ j, j < Config.ENEMY_COUNT →
          ((Rounded.update E F dis s)._enemies.getD j {})._pos._x
              = float32 ((s._enemies.getD j {})._pos._x
                  + float32 (float64 (200 * s._msPerFrame)))
            ∧ ((Rounded.update E F dis s)._enemies.getD j {})._pos._y
              = (s._enemies.getD j {})._pos._y)
      ∧ (Rounded.update E F dis s)._enemyBbox
          = { s._enemyBbox with
              left := float32 (s._enemyBbox.left + float32 (float64 (200 * s._msPerFrame)))
              right := float32 (s._enemyBbox.right
                + float32 (float64 (200 * s._msPerFrame))) }
      ∧ (Rounded.update E F dis s)._enemyBboxOriginal
          = { s._enemyBboxOriginal with
              left := float32 (s._enemyBboxOriginal.left
                + float32 (float64 (200 * s._msPerFrame)))
              right := float32 (s._enemyBboxOriginal.right
                + float32 (float64 (200 * s._msPerFrame))) }
      ∧ (0 ≤ s._msPerFrame → ∀ j, j < Config.ENEMY_COUNT →
          (s._enemies.getD j {})._pos._x
            ≤ ((Rounded.update E F dis s)._enemies.getD j {})._pos._x)
      ∧ (float32 (float64 (200 * s._msPerFrame)) = 200 * s._msPerFrame →
          ∀ j, j < Config.ENEMY_COUNT →
            float32 ((s._enemies.getD j {})._pos._x + 200 * s._msPerFrame)
              = (s._enemies.getD j {})._pos._x + 200 * s._msPerFrame →
            ((Rounded.update E F dis s)._enemies.getD j {})._pos._x
              = (s._enemies.getD j {})._pos._x + 200 * s._msPerFrame) := by
  have hb : s._enemyBbox.bottom < float32 (E.CanvasHeight : ℚ) := by
    have hh : (0 : ℚ) ≤ ((E.SpriteSize / 2 : Nat) : ℚ) := by positivity
    have := float32_mono ((E.CanvasHeight : ℚ) - ((E.SpriteSize / 2 : Nat) : ℚ))
      (E.CanvasHeight : ℚ) (by linarith)
    linarith
  have hp : s._enemyBbox.intersectsWith s._player = false := by
    have hy : s._player._pos._y
        = float32 ((E.CanvasHeight : ℚ) - ((E.SpriteSize / 2 : Nat) : ℚ)) := by rw [hplayer]
    simp only [BoundingBox.intersectsWith, GameObject.getPosition, hy,
      decide_eq_false_iff_not, not_and, not_le]
    intro _ _ _
    exact habove
  obtain ⟨hen, hbx, hbo⟩ :=
    rounded_update_travel_right E F dis s hplay hrockets hb hp hdir hright
  have hlen : s._enemies.length = Config.ENEMY_COUNT := by
    rw [hgrid, rounded_initEnemiesFrom_length, List.length_replicate]
  have hget : ∀ j, j < Config.ENEMY_COUNT →
      s._enemies.getD j {} = Rounded.initEnemy E j {} := by
    intro j hj
    rw [hgrid, rounded_initEnemiesFrom_getD _ _ j (by rw [List.length_replicate]; exact hj)]
    simp
  have hnew : ∀ j, j < Config.ENEMY_COUNT →
      ((Rounded.update E F dis s)._enemies.getD j {})._pos._x
          = float32 ((s._enemies.getD j {})._pos._x
              + float32 (float64 (200 * s._msPerFrame)))
        ∧ ((Rounded.update E F dis s)._enemies.getD j {})._pos._y
          = (s._enemies.getD j {})._pos._y := by
    intro j hj
    have hj' : j < s._enemies.length := by rw [hlen]; exact hj
    have hy : float32 ((s._enemies.getD j {})._pos._y + 0) = (s._enemies.getD j {})._pos._y := by
      rw [add_zero, hget j hj]
      exact (rounded_initEnemy_float E j {}).2
    rw [hen, getD_map_of_lt _ _ j hj']
    exact ⟨rfl, hy⟩
  refine ⟨?_, ?_, hnew, ?_, ?_, ?_, ?_⟩
  · rw [hen, List.length_map, hlen]
  · intro e he
    rw [hen] at he
    obtain ⟨x, hx, rfl⟩ := List.mem_map.1 he
    rw [hgrid] at hx
    obtain ⟨j, _, y, hxy⟩ := rounded_mem_initEnemiesFrom _ _ _ _ hx
    rw [isAlive_moved, hxy]
    exact rounded_initEnemy_alive E (0 + j) y
  · rw [hbx]
    simp only [Rounded.moveBy, add_zero, hbox.1, hbox.2]
  · rw [hbo]
    simp only [Rounded.moveBy, add_zero, horig.1, horig.2]
  · intro hms j hj
    rw [(hnew j hj).1]
    have hd : 0 ≤ float32 (float64 (200 * s._msPerFrame)) :=
      float32_nonneg _ (float64_nonneg _ (by linarith))
    have hx : float32 (s._enemies.getD j {})._pos._x = (s._enemies.getD j {})._pos._x := by
      rw [hget j hj]
      exact (rounded_initEnemy_float E j {}).1
    have := float32_mono (s._enemies.getD j {})._pos._x
      ((s._enemies.getD j {})._pos._x + float32 (float64 (200 * s._msPerFrame))) (by linarith)
    rw [hx] at this
    exact this
  · intro hd j hj hsum
    rw [(hnew j hj).1, hd, hsum]

/-- Witness for C10: the state `introDone`, with frame time 1/64 s. -/
theorem first_play_frame_witness :
    (Rounded.update sampleEngine binary32 (fun _ => 0) introDone)._enemies.length
        = Config.ENEMY_COUNT
      ∧ (∀ e ∈ (Rounded.update sampleEngine binary32 (fun _ => 0) introDone)._enemies,
          e.isAlive = true) :=
  ⟨(first_play_frame sampleEngine binary32 (fun _ => 0) introDone rfl rfl
      introDone_rockets_dead rfl rfl
      (by
        rw [introDone_enemyBbox.1]
        have : float32 (sampleEngine.CanvasWidth : ℚ) = 640 := by
          have h : (sampleEngine.CanvasWidth : ℚ) = 640 := by norm_num [sampleEngine]
          rw [h, float32_sample_values.2.2.2.2.2.1]
        rw [this]
        norm_num)
      (by
        rw [introDone_enemyBbox.1]
        have : float32 ((sampleEngine.CanvasHeight : ℚ)
            - ((sampleEngine.SpriteSize / 2 : Nat) : ℚ)) = 464 := by
          have h : (sampleEngine.CanvasHeight : ℚ)
              - ((sampleEngine.SpriteSize / 2 : Nat) : ℚ) = 464 := by norm_num [sampleEngine]
          rw [h, float32_sample_values.2.2.2.2.1]
        rw [this]
        norm_num)
      (by
        rw [introDone_enemyBbox.1]
        exact ⟨float32_sample_values.2.1, float32_sample_values.2.2.2.1⟩)
      (by
        rw [introDone_enemyBbox.2]
        exact ⟨float32_sample_values.2.1, float32_sample_values.2.2.2.1⟩)).1,
    (first_play_frame sampleEngine binary32 (fun _ => 0) introDone rfl rfl
      introDone_rockets_dead rfl rfl
      (by
        rw [introDone_enemyBbox.1]
        have : float32 (sampleEngine.CanvasWidth : ℚ) = 640 := by
          have h : (sampleEngine.CanvasWidth : ℚ) = 640 := by norm_num [sampleEngine]
          rw [h, float32_sample_values.2.2.2.2.2.1]
        rw [this]
        norm_num)
      (by
        rw [introDone_enemyBbox.1]
        have : float32 ((sampleEngine.CanvasHeight : ℚ)
            - ((sampleEngine.SpriteSize / 2 : Nat) : ℚ)) = 464 := by
          have h : (sampleEngine.CanvasHeight : ℚ)
              - ((sampleEngine.SpriteSize / 2 : Nat) : ℚ) = 464 := by norm_num [sampleEngine]
          rw [h, float32_sample_values.2.2.2.2.1]
        rw [this]
        norm_num)
      (by
        rw [introDone_enemyBbox.1]
        exact ⟨float32_sample_values.2.1, float32_sample_values.2.2.2.1⟩)
      (by
        rw [introDone_enemyBbox.2]
        exact ⟨float32_sample_values.2.1, float32_sample_values.2.2.2.1⟩)).2.1⟩

/-- C11, refuted as stated: the engine is constructed at time 0, the game is in PLAY
at time 7 (`bombOnPlayer`) and the bomb ends it; the restart at time 7.5 gives
TRYAGAIN, and the next `update` puts the game in PLAY, not in a pre-PLAY state. -/
theorem restart_goes_straight_to_play :
    bombOnPlayer._startTimestamp = 0
      ∧ (GameEngine.update sampleEngine (fun _ => 0) bombOnPlayer)._gamestate
          = GAMESTATE.GAMEOVER
      ∧ (GameEngine.handleEvents sampleEngine (15 / 2) (15 / 2) { fire := true }
          (GameEngine.update sampleEngine (fun _ => 0) bombOnPlayer))._gamestate
          = GAMESTATE.TRYAGAIN
      ∧ (GameEngine.update sampleEngine (fun _ => 0)
          (GameEngine.handleEvents sampleEngine (15 / 2) (15 / 2) { fire := true }
            (GameEngine.update sampleEngine (fun _ => 0) bombOnPlayer)))._gamestate
          = GAMESTATE.PLAY := by
  have hr := handleEvents_restart sampleEngine (15 / 2) (15 / 2) { fire := true }
      (GameEngine.update sampleEngine (fun _ => 0) bombOnPlayer) rfl
      (by rw [update_bombOnPlayer]; rfl) (by rw [update_bombOnPlayer]; rfl)
      (by
        have h : (GameEngine.update sampleEngine (fun _ => 0) bombOnPlayer)._timestampOfLastFireKey
            = 0 := by rw [update_bombOnPlayer]; rfl
        rw [h]; norm_num)
  have hs : (GameEngine.update sampleEngine (fun _ => 0) bombOnPlayer)._startTimestamp = 0 := by
    rw [update_bombOnPlayer]; rfl
  refine ⟨rfl, ?_, ?_, ?_⟩
  · rw [update_bombOnPlayer]
    rfl
  · rw [hr]
    rfl
  · rw [update_gamestate_intro _ _ _ (by rw [hr, restart_gamestate]; decide)
      (by rw [hr, restart_gamestate]; decide), hr, restart_startTimestamp,
      restart_currentTimestamp]
    show introState (15 / 2 - (GameEngine.update sampleEngine (fun _ => 0)
      bombOnPlayer)._startTimestamp) = GAMESTATE.PLAY
    rw [hs]
    norm_num [introState]

/-- C11, amended: the restart (GAMEOVER to TRYAGAIN) keeps `_startTimestamp`, and the
next `update` puts the game in the state that the intro timeline gives for the time
elapsed since the engine was constructed: a pre-PLAY state exactly when at most 6
seconds have elapsed since then, and PLAY at once when more than 6 seconds have. -/
theorem restart_then_update (E : Engine) (now shotNow : ℚ) (keys : PlayerInput)
    (dis : Nat → Nat) (s : GameEngine) (hg : s._gamestate = GAMESTATE.GAMEOVER)
    (hf : keys.fire = true) (hl : s._liftedFireKeyBefore = true)
    (ht : now - s._timestampOfLastFireKey > 2) :
    (GameEngine.handleEvents E now shotNow keys s)._gamestate = GAMESTATE.TRYAGAIN
      ∧ (GameEngine.handleEvents E now shotNow keys s)._startTimestamp = s._startTimestamp
      ∧ (GameEngine.update E dis (GameEngine.handleEvents E now shotNow keys s))._gamestate
          = introState (now - s._startTimestamp)
      ∧ (now - s._startTimestamp > 6 →
          (GameEngine.update E dis (GameEngine.handleEvents E now shotNow keys s))._gamestate
            = GAMESTATE.PLAY)
      ∧ (now - s._startTimestamp ≤ 6 →
          (GameEngine.update E dis (GameEngine.handleEvents E now shotNow keys s))._gamestate
            ≠ GAMESTATE.PLAY) := by
  have hr := handleEvents_restart E now shotNow keys s hf hl hg ht
  have hu : (GameEngine.update E dis (GameEngine.handleEvents E now shotNow keys s))._gamestate
      = introState (now - s._startTimestamp) := by
    rw [update_gamestate_intro _ _ _ (by rw [hr, restart_gamestate]; decide)
      (by rw [hr, restart_gamestate]; decide), hr, restart_startTimestamp,
      restart_currentTimestamp]
  refine ⟨by rw [hr]; rfl, by rw [hr]; rfl, hu, ?_, ?_⟩
  · intro h6
    rw [hu]
    unfold introState
    rw [if_pos h6]
  · intro h6
    rw [hu]
    unfold introState
    rw [if_neg (not_lt.2 h6)]
    split_ifs <;> decide

/-- Witness for C11: a game over state of an engine constructed at time 0, restarted
at time 9: the next `update` gives PLAY. -/
theorem restart_then_update_witness :
    (GameEngine.update sampleEngine (fun _ => 0)
        (GameEngine.handleEvents sampleEngine 9 9 { fire := true }
          { _gamestate := GAMESTATE.GAMEOVER }))._gamestate
      = GAMESTATE.PLAY :=
  (restart_then_update sampleEngine 9 9 { fire := true } (fun _ => 0)
    { _gamestate := GAMESTATE.GAMEOVER } rfl rfl rfl (by norm_num)).2.2.2.1
    (by show (9 : ℚ) - 0 > 6; norm_num)

/-- C12, refuted as stated: in `gameOverAtLevelThree` (GAMEOVER at level 3, formation
travelling left) a fire press at time 101 performs the restart, and the state it
leaves still has level 3 and direction LEFT, where a fresh engine has level 1 and
direction RIGHT: the level and the direction of the run are not reset. -/
theorem restart_keeps_level_and_direction :
    gameOverAtLevelThree._gamestate = GAMESTATE.GAMEOVER
      ∧ (GameEngine.handleEvents sampleEngine 101 101 { fire := true }
          gameOverAtLevelThree)._gamestate = GAMESTATE.TRYAGAIN
      ∧ (GameEngine.handleEvents sampleEngine 101 101 { fire := true }
          gameOverAtLevelThree)._level = 3
      ∧ (GameEngine.handleEvents sampleEngine 101 101 { fire := true }
          gameOverAtLevelThree)._enemy_direction = ENEMY_DIRECTION.LEFT
      ∧ (GameEngine.construct sampleEngine 0 none)._level = 1
      ∧ (GameEngine.construct sampleEngine 0 none)._enemy_direction
          = ENEMY_DIRECTION.RIGHT := by
  have h := handleEvents_restart sampleEngine 101 101 { fire := true } gameOverAtLevelThree
    rfl rfl rfl (by norm_num [gameOverAtLevelThree])
  rw [h]
  exact ⟨rfl, rfl, rfl, rfl, rfl, rfl⟩

/-- C12, amended: the restart performed by `handleEvents` in GAMEOVER (fire pressed,
released-flag set, more than 2 s after the last recorded press) keeps the player's
position, the level, the enemy direction, the start time, the times of the last shot,
the last bomb, the last fire press and the game over, and the released-flag, and
gives: player health PLAYER_HEALTH; ENEMY_COUNT enemies, the one with index `j` alive
at column `j / ENEMY_ROWS` and row `j % ENEMY_ROWS` of the initial grid;
enemyBbox = enemyBboxOriginal = the box of that grid; every rocket and every bomb
dead, the pools keeping their sizes; current score 0; best score = max(previous best,
previous current score); and a highscore file holding that best score. -/
theorem restart_resets_run (E : Engine) (now shotNow : ℚ) (keys : PlayerInput)
    (s : GameEngine) (hg : s._gamestate = GAMESTATE.GAMEOVER) (hf : keys.fire = true)
    (hl : s._liftedFireKeyBefore = true) (ht : now - s._timestampOfLastFireKey > 2)
    (hn : s._enemies.length = Config.ENEMY_COUNT) (hc : 0 ≤ s._hscore._currentScore) :
    (GameEngine.handleEvents E now shotNow keys s)._gamestate = GAMESTATE.TRYAGAIN
      ∧ (GameEngine.handleEvents E now shotNow keys s)._player._pos = s._player._pos
      ∧ (GameEngine.handleEvents E now shotNow keys s)._level = s._level
      ∧ (GameEngine.handleEvents E now shotNow keys s)._enemy_direction = s._enemy_direction
      ∧ (GameEngine.handleEvents E now shotNow keys s)._startTimestamp = s._startTimestamp
      ∧ (GameEngine.handleEvents E now shotNow keys s)._timestampOfLastShot
          = s._timestampOfLastShot
      ∧ (GameEngine.handleEvents E now shotNow keys s)._timestampOfLastBomb
          = s._timestampOfLastBomb
      ∧ (GameEngine.handleEvents E now shotNow keys s)._timestampOfLastFireKey
          = s._timestampOfLastFireKey
      ∧ (GameEngine.handleEvents E now shotNow keys s)._timestampOfGameOver
          = s._timestampOfGameOver
      ∧ (GameEngine.handleEvents E now shotNow keys s)._liftedFireKeyBefore = true
      ∧ (GameEngine.handleEvents E now shotNow keys s)._player._health = Config.PLAYER_HEALTH
      ∧ (GameEngine.handleEvents E now shotNow keys s)._enemies.length = Config.ENEMY_COUNT
      ∧ (∀ j, j < Config.ENEMY_COUNT →
          (GameEngine.handleEvents E now shotNow keys s)._enemies.getD j {}
            = { _pos :=
                  { _x := ((j / Config.ENEMY_ROWS : Nat) : ℚ) * (E.SpriteSize : ℚ)
                      + halfSprite E
                    _y := ((E.FontRowHeight + 10 : Nat) : ℚ)
                      + ((j % Config.ENEMY_ROWS : Nat) : ℚ) * (E.SpriteSize : ℚ)
                      + halfSprite E }
                _health := 1 })
      ∧ aliveCount (GameEngine.handleEvents E now shotNow keys s)._enemies
          = Config.ENEMY_COUNT
      ∧ (GameEngine.handleEvents E now shotNow keys s)._enemyBbox
          = (GameEngine.handleEvents E now shotNow keys s)._enemyBboxOriginal
      ∧ (GameEngine.handleEvents E now shotNow keys s)._enemyBbox
          = getBoundingBoxOf E (GameEngine.handleEvents E now shotNow keys s)._enemies
      ∧ (∀ r ∈ (GameEngine.handleEvents E now shotNow keys s)._rockets, r.isAlive = false)
      ∧ (∀ b ∈ (GameEngine.handleEvents E now shotNow keys s)._bombs, b.isAlive = false)
      ∧ (GameEngine.handleEvents E now shotNow keys s)._rockets.length = s._rockets.length
      ∧ (GameEngine.handleEvents E now shotNow keys s)._bombs.length = s._bombs.length
      ∧ (GameEngine.handleEvents E now shotNow keys s)._hscore._currentScore = 0
      ∧ (GameEngine.handleEvents E now shotNow keys s)._hscore._oldHighscore
          = max s._hscore._oldHighscore s._hscore._currentScore
      ∧ (GameEngine.handleEvents E now shotNow keys s).hscoreFile
          = some { fileversion := 1
                   score := max s._hscore._oldHighscore s._hscore._currentScore } := by
  rw [handleEvents_restart E now shotNow keys s hf hl hg ht]
  refine ⟨rfl, rfl, rfl, rfl, rfl, rfl, rfl, rfl, rfl, hl, rfl, ?_, ?_, ?_, rfl, rfl, ?_, ?_,
    ?_, ?_, rfl, ?_, ?_⟩
  · rw [restart_enemies, initEnemiesFrom_length]
    exact hn
  · intro j hj
    rw [restart_enemies]
    show (GameEngine.initEnemiesFrom E 0 s._enemies).getD j {} = _
    rw [initEnemiesFrom_getD E s._enemies j (by rw [hn]; exact hj), initEnemy_eq]
  · rw [restart_enemies]
    show aliveCount (GameEngine.initEnemiesFrom E 0 s._enemies) = _
    unfold aliveCount
    rw [List.countP_eq_length.2, initEnemiesFrom_length]
    · exact hn
    · intro o ho
      obtain ⟨j, _, e, rfl⟩ := mem_initEnemiesFrom E _ 0 o ho
      exact initEnemy_alive E _ e
  · intro r hr
    rw [restart_rockets] at hr
    obtain ⟨r0, _, rfl⟩ := List.mem_map.1 hr
    simp [GameObject.setHealth, GameObject.isAlive]
  · intro b hb
    rw [restart_bombs] at hb
    obtain ⟨b0, _, rfl⟩ := List.mem_map.1 hb
    simp [GameObject.setHealth, GameObject.isAlive]
  · rw [restart_rockets]
    simp
  · rw [restart_bombs]
    simp
  · rw [restart_hscore]
    exact finishScore_old _
  · rw [restart_hscoreFile]
    exact congrArg some (finishScore_writeToDisk _ hc)

/-- Witness for C12: the state `gameOverAtLevelThree` (run score 120, previous best 7),
restarted at time 101: level 3 is kept and the file then holds 120. -/
theorem restart_resets_run_witness :
    (GameEngine.handleEvents sampleEngine 101 101 { fire := true }
        gameOverAtLevelThree)._level = gameOverAtLevelThree._level
      ∧ (GameEngine.handleEvents sampleEngine 101 101 { fire := true }
        gameOverAtLevelThree).hscoreFile
        = some { fileversion := 1
                 score := max gameOverAtLevelThree._hscore._oldHighscore
                   gameOverAtLevelThree._hscore._currentScore } :=
  ⟨(restart_resets_run sampleEngine 101 101 { fire := true } gameOverAtLevelThree
      rfl rfl rfl (by norm_num [gameOverAtLevelThree]) rfl (by decide)).2.2.1,
    (restart_resets_run sampleEngine 101 101 { fire := true } gameOverAtLevelThree
      rfl rfl rfl (by norm_num [gameOverAtLevelThree]) rfl
      (by decide)).2.2.2.2.2.2.2.2.2.2.2.2.2.2.2.2.2.2.2.2.2.2⟩

/-- C13: `addScore` adds exactly 1 to the current score and keeps the best score;
`finishScore` sets the best score to max(best, current) and the current score to 0;
the best score never decreases under any sequence of `addScore`/`finishScore`
calls; and `finishScore` is idempotent on every object whose current score is not
negative, so on every object obtained from a default-constructed one by
`readFromDisk` and any sequence of `addScore`/`finishScore` calls. -/
theorem highscore_operations (h : Highscore) (ops : List HscoreOp)
    (file : Option HscoreFile) :
    (h.addScore._currentScore = h._currentScore + 1
        ∧ h.addScore._oldHighscore = h._oldHighscore)
      ∧ (h.finishScore._oldHighscore = max h._oldHighscore h._currentScore
        ∧ h.finishScore._currentScore = 0)
      ∧ h._oldHighscore ≤ (Highscore.run ops h)._oldHighscore
      ∧ (0 ≤ h._currentScore → h.finishScore.finishScore = h.finishScore)
      ∧ (Highscore.run ops (Highscore.readFromDisk {} file)).finishScore.finishScore
          = (Highscore.run ops (Highscore.readFromDisk {} file)).finishScore := by
  refine ⟨⟨rfl, rfl⟩, ⟨?_, rfl⟩, Highscore.run_old_le ops h, Highscore.finishScore_idem h, ?_⟩
  · show (if h._currentScore > h._oldHighscore then h._currentScore else h._oldHighscore)
      = max h._oldHighscore h._currentScore
    split_ifs with hc
    · exact (max_eq_right (le_of_lt hc)).symm
    · exact (max_eq_left (not_lt.1 hc)).symm
  · apply Highscore.finishScore_idem
    apply Highscore.run_current_nonneg
    rw [Highscore.readFromDisk_current]

/-- Witness for C13: a run score of 9 over a best score of 7. -/
theorem highscore_operations_witness :
    Highscore.finishScore (Highscore.finishScore { _currentScore := 9, _oldHighscore := 7 })
      = Highscore.finishScore { _currentScore := 9, _oldHighscore := 7 } :=
  (highscore_operations { _currentScore := 9, _oldHighscore := 7 } [] none).2.2.2.1
    (by decide)

/-- C15: after each mutation (`setPosition`, `setPositionX`, `setPositionY`,
`setHealth`, `hit`, `destroy`) `isAlive` holds exactly when the health is positive;
`hit` lowers the health by exactly 1; `destroy` gives health 0 and `isAlive` false
and keeps the position. -/
theorem entity_mutations (o : GameObject) (pos : Position) (x y : ℚ) (health : Int) :
    ((o.setPosition pos).isAlive = true ↔ (o.setPosition pos)._health > 0)
      ∧ ((o.setPositionX x).isAlive = true ↔ (o.setPositionX x)._health > 0)
      ∧ ((o.setPositionY y).isAlive = true ↔ (o.setPositionY y)._health > 0)
      ∧ ((o.setHealth health).isAlive = true ↔ (o.setHealth health)._health > 0)
      ∧ (o.hit.isAlive = true ↔ o.hit._health > 0)
      ∧ (o.destroy.isAlive = true ↔ o.destroy._health > 0)
      ∧ o.hit._health = o._health - 1
      ∧ o.hit._pos = o._pos
      ∧ o.destroy._health = 0
      ∧ o.destroy.isAlive = false
      ∧ o.destroy._pos = o._pos
      ∧ (o.setPosition pos)._health = o._health
      ∧ (o.setPositionX x)._health = o._health
      ∧ (o.setPositionY y)._health = o._health
      ∧ (o.setHealth health)._health = health := by
  refine ⟨?_, ?_, ?_, ?_, ?_, ?_, rfl, rfl, rfl, rfl, rfl, rfl, rfl, rfl, rfl⟩ <;>
    simp [GameObject.isAlive]

/-- C16, evaluated at the failing input `rocketInFlight` (state PLAY, player on the
last life, an alive bomb 14 pixels above the player, a rocket in flight at (100, 300)):
`updateBombs` takes the last life and sets GAMEOVER, leaving the rocket at (100, 300);
`update` then still runs `updateRockets`, and the rocket ends the call at (100, 299). -/
theorem rocket_moves_after_gameover (dis : Nat → Nat) :
    rocketInFlight._gamestate = GAMESTATE.PLAY
      ∧ (GameEngine.updateBombs sampleEngine dis
          (GameEngine.updateEnemies sampleEngine rocketInFlight))._gamestate
          = GAMESTATE.GAMEOVER
      ∧ (GameEngine.updateBombs sampleEngine dis
          (GameEngine.updateEnemies sampleEngine rocketInFlight))._player._health = 0
      ∧ (GameEngine.updateBombs sampleEngine dis
          (GameEngine.updateEnemies sampleEngine rocketInFlight))._rockets.getD 0 {}
          = { _pos := { _x := 100, _y := 300 }, _health := 1 }
      ∧ (GameEngine.update sampleEngine dis rocketInFlight)._gamestate = GAMESTATE.GAMEOVER
      ∧ (GameEngine.update sampleEngine dis rocketInFlight)._rockets.getD 0 {}
          = { _pos := { _x := 100, _y := 299 }, _health := 1 } := by
  have hu : GameEngine.update sampleEngine dis rocketInFlight
      = GameEngine.updateRockets sampleEngine
          (GameEngine.updateBombs sampleEngine dis
            (GameEngine.updateEnemies sampleEngine rocketInFlight)) :=
    update_play sampleEngine dis rocketInFlight rfl
  refine ⟨rfl, ?_, ?_, ?_, ?_, ?_⟩
  · rw [updateBombs_rocketInFlight]
  · rw [updateBombs_rocketInFlight]
    show (freshPlay._player.setHealth 1).hit._health = 0
    rw [freshPlay_player]
    rfl
  · rw [updateBombs_rocketInFlight]
    rfl
  · rw [hu, updateBombs_rocketInFlight]
    rfl
  · rw [hu, updateBombs_rocketInFlight]
    show (if GameObject.isAlive { _pos := { _x := 100, _y := 300 }, _health := 1 } = true then
      if (GameObject.getPosition { _pos := { _x := 100, _y := 300 }, _health := 1 })._y
          > -(sampleEngine.SpriteSize : ℚ) then
        GameObject.setPositionY { _pos := { _x := 100, _y := 300 }, _health := 1 }
          ((GameObject.getPosition { _pos := { _x := 100, _y := 300 }, _health := 1 })._y - 1)
      else GameObject.destroy { _pos := { _x := 100, _y := 300 }, _health := 1 }
      else { _pos := { _x := 100, _y := 300 }, _health := 1 }) = _
    norm_num [GameObject.isAlive, GameObject.getPosition, GameObject.setPositionY, sampleEngine]

/-- C17, evaluated at the failing input `lastEnemyOnPlayer` (state PLAY at level 1,
only enemy 24 alive, 12 pixels above the player, who has health 3; no rocket alive):
the call of `updateEnemies` leaves the game in PLAY; the last alive enemy dies by
colliding with the player (health 3 to 2); afterwards no enemy is alive, the grid is
not reinitialised (it travels on from offset 176 to 176 + 10/3) and the level is
still 1. -/
theorem collision_kill_skips_formation_reset :
    lastEnemyOnPlayer._gamestate = GAMESTATE.PLAY
      ∧ lastEnemyOnPlayer._level = 1
      ∧ aliveCount lastEnemyOnPlayer._enemies = 1
      ∧ (lastEnemyOnPlayer._enemies.getD 24 {}).isAlive = true
      ∧ (GameEngine.updateEnemies sampleEngine lastEnemyOnPlayer)._gamestate = GAMESTATE.PLAY
      ∧ (GameEngine.updateEnemies sampleEngine lastEnemyOnPlayer)._player._health = 2
      ∧ (GameEngine.updateEnemies sampleEngine lastEnemyOnPlayer)._enemies
          = gridAt sampleEngine (176 + 10 / 3) 280 (fun _ => false)
      ∧ aliveCount (GameEngine.updateEnemies sampleEngine lastEnemyOnPlayer)._enemies = 0
      ∧ (GameEngine.updateEnemies sampleEngine lastEnemyOnPlayer)._level = 1 := by
  have hfalse : (fun j : Nat => (j == 24) && !(j == 24)) = fun _ => false := by
    funext j
    simp
  have ht : GameEngine.travelStep sampleEngine
      { lastEnemyOnPlayer with
        _enemies := gridAt sampleEngine 176 280 fun j => (j == 24) && !(j == 24)
        _player := { _pos := { _x := 320, _y := 464 }, _health := 2 } }
      = ({ _x := 10 / 3, _y := 0 }, ENEMY_DIRECTION.RIGHT) := by
    norm_num [GameEngine.travelStep, lastEnemyOnPlayer, sampleEngine]
  have he : (GameEngine.updateEnemies sampleEngine lastEnemyOnPlayer)._enemies
      = gridAt sampleEngine (176 + 10 / 3) 280 (fun _ => false) := by
    rw [updateEnemies_lastEnemyOnPlayer, moveFormation_enemies, ht]
    show (gridAt sampleEngine 176 280 fun j => (j == 24) && !(j == 24)).map _ = _
    rw [hfalse]
    have hm := map_move_gridAt sampleEngine 176 280 (10 / 3) 0 (fun _ => false)
    rw [add_zero] at hm
    exact hm
  refine ⟨rfl, rfl, ?_, ?_, ?_, ?_, he, ?_, ?_⟩
  · show aliveCount (gridAt sampleEngine 176 280 fun j => j == 24) = 1
    rw [aliveCount_gridAt]
    decide
  · show ((gridAt sampleEngine 176 280 fun j => j == 24).getD 24 {}).isAlive = true
    rw [gridAt_getD sampleEngine 176 280 _ 24 (by decide)]
    rfl
  · rw [updateEnemies_lastEnemyOnPlayer]
    rfl
  · rw [updateEnemies_lastEnemyOnPlayer]
    rfl
  · rw [he, aliveCount_gridAt]
    decide
  · rw [updateEnemies_lastEnemyOnPlayer]
    rfl

/-- C18, evaluated at the failing input `twoInColumnOnPlayer` (state PLAY, enemies 20
and 24 alive in column 4, enemy 24 12 pixels above the player; the stored alive box
is the box `getBoundingBoxOf` returns). The call of `updateEnemies` leaves the game
in PLAY, enemy 24 dies by colliding with the player and enemy 20 stays alive; the
stored alive box is only translated (bottom 468), while the box of the alive
enemies, the value `getBoundingBoxOf` returns, has bottom 340. -/
theorem alive_box_stale_after_collision :
    twoInColumnOnPlayer._gamestate = GAMESTATE.PLAY
      ∧ twoInColumnOnPlayer._enemyBbox
          = getBoundingBoxOf sampleEngine twoInColumnOnPlayer._enemies
      ∧ (GameEngine.updateEnemies sampleEngine twoInColumnOnPlayer)._gamestate
          = GAMESTATE.PLAY
      ∧ (GameEngine.updateEnemies sampleEngine twoInColumnOnPlayer)._enemies
          = gridAt sampleEngine (176 + 10 / 3) 280 (fun j => j == 20)
      ∧ aliveCount (GameEngine.updateEnemies sampleEngine twoInColumnOnPlayer)._enemies = 1
      ∧ (GameEngine.updateEnemies sampleEngine twoInColumnOnPlayer)._enemyBbox
          = { left := 304 + 10 / 3, top := 308, right := 336 + 10 / 3, bottom := 468 }
      ∧ getBoundingBoxOf sampleEngine
            (GameEngine.updateEnemies sampleEngine twoInColumnOnPlayer)._enemies
          = { left := 304 + 10 / 3, top := 308, right := 336 + 10 / 3, bottom := 340 }
      ∧ (GameEngine.updateEnemies sampleEngine twoInColumnOnPlayer)._enemyBbox
          ≠ getBoundingBoxOf sampleEngine
              (GameEngine.updateEnemies sampleEngine twoInColumnOnPlayer)._enemies := by
  have hpred : (fun j : Nat => (j == 20 || j == 24) && !(j == 24)) = fun j => j == 20 := by
    funext j
    by_cases h1 : j = 24
    · subst h1; decide
    · have h2 : (j == 24) = false := beq_false_of_ne h1
      show ((j == 20 || j == 24) && !(j == 24)) = (j == 20)
      rw [h2]
      simp
  have ht : GameEngine.travelStep sampleEngine
      { twoInColumnOnPlayer with
        _enemies := gridAt sampleEngine 176 280 fun j => (j == 20 || j == 24) && !(j == 24)
        _player := { _pos := { _x := 320, _y := 464 }, _health := 2 } }
      = ({ _x := 10 / 3, _y := 0 }, ENEMY_DIRECTION.RIGHT) := by
    norm_num [GameEngine.travelStep, twoInColumnOnPlayer, lastEnemyOnPlayer, sampleEngine]
  have he : (GameEngine.updateEnemies sampleEngine twoInColumnOnPlayer)._enemies
      = gridAt sampleEngine (176 + 10 / 3) 280 (fun j => j == 20) := by
    rw [updateEnemies_twoInColumnOnPlayer, moveFormation_enemies, ht]
    show (gridAt sampleEngine 176 280 fun j => (j == 20 || j == 24) && !(j == 24)).map _ = _
    rw [hpred]
    have hm := map_move_gridAt sampleEngine 176 280 (10 / 3) 0 (fun j => j == 20)
    rw [add_zero] at hm
    exact hm
  have hbox : (GameEngine.updateEnemies sampleEngine twoInColumnOnPlayer)._enemyBbox
      = { left := 304 + 10 / 3, top := 308, right := 336 + 10 / 3, bottom := 468 } := by
    rw [updateEnemies_twoInColumnOnPlayer]
    show BoundingBox.moveBy _ (GameEngine.travelStep sampleEngine _).1 = _
    rw [ht]
    norm_num [BoundingBox.moveBy, twoInColumnOnPlayer]
  have htrue : getBoundingBoxOf sampleEngine
        (GameEngine.updateEnemies sampleEngine twoInColumnOnPlayer)._enemies
      = { left := 304 + 10 / 3, top := 308, right := 336 + 10 / 3, bottom := 340 } := by
    rw [he, getBoundingBoxOf_topOfColumn _ (by norm_num) (by norm_num)]
    norm_num
  refine ⟨rfl, ?_, ?_, he, ?_, hbox, htrue, ?_⟩
  · show _ = getBoundingBoxOf sampleEngine
      (gridAt sampleEngine 176 280 fun j => j == 20 || j == 24)
    rw [getBoundingBoxOf_twoInColumn _ (by norm_num) (by norm_num)]
    norm_num [twoInColumnOnPlayer]
  · rw [updateEnemies_twoInColumnOnPlayer]
    rfl
  · rw [he, aliveCount_gridAt]
    decide
  · rw [hbox, htrue]
    intro h
    have h2 := congrArg BoundingBox.bottom h
    norm_num at h2

/-- C19, evaluated at the failing input `bottomLeftDead` (state PLAY at time 7, last
bomb at time 0, each of the 10 bomb slots dead, 49 enemies alive, enemy 4 dead) with
every drawn index equal to 4: `updateBombs` makes 10 draws and spawns no bomb, although
the cooldown has elapsed and 49 enemies are alive. -/
theorem no_bomb_when_drawn_enemy_is_dead :
    aliveCount bottomLeftDead._enemies = 49
      ∧ (bottomLeftDead._enemies.getD 4 {}).isAlive = false
      ∧ (∀ b ∈ bottomLeftDead._bombs, b.isAlive = false)
      ∧ ¬ (bottomLeftDead._currentTimestamp - bottomLeftDead._timestampOfLastBomb
            < Config.TIME_BETWEEN_BOMBS)
      ∧ (GameEngine.updateBombs sampleEngine (fun _ => 4) bottomLeftDead)._bombs
          = bottomLeftDead._bombs
      ∧ aliveCount (GameEngine.updateBombs sampleEngine (fun _ => 4) bottomLeftDead)._bombs = 0
      ∧ (GameEngine.updateBombs sampleEngine (fun _ => 4) bottomLeftDead).rdCount
          = bottomLeftDead.rdCount + 10 := by
  have hdead : ∀ b ∈ bottomLeftDead._bombs, b.isAlive = false := by
    intro b hb
    have hb2 : b ∈ (List.replicate Config.MAX_BOMB_COUNT ({} : GameObject)).map
        (fun r => r.setHealth 0) := hb
    obtain ⟨x, _, rfl⟩ := List.mem_map.1 hb2
    rfl
  have hc : ¬ (bottomLeftDead._currentTimestamp - bottomLeftDead._timestampOfLastBomb
      < Config.TIME_BETWEEN_BOMBS) := by
    show ¬ ((7 : ℚ) - 0 < Config.TIME_BETWEEN_BOMBS)
    norm_num [Config.TIME_BETWEEN_BOMBS]
  have h4 : (bottomLeftDead._enemies.getD 4 {}).isAlive = false := by
    show ((gridAt sampleEngine 0 0 fun j => !(j == 4)).getD 4 {}).isAlive = false
    rw [gridAt_getD sampleEngine 0 0 _ 4 (by decide)]
    rfl
  have hu : GameEngine.updateBombs sampleEngine (fun _ => 4) bottomLeftDead
      = { bottomLeftDead with
          _bombs := [] ++ bottomLeftDead._bombs
          rdCount := bottomLeftDead.rdCount + bottomLeftDead._bombs.length } :=
    updateBombsLoop_no_spawn sampleEngine (fun _ => 4) bottomLeftDead._bombs []
      bottomLeftDead hdead hc
      (fun _ => ⟨by
        show 4 < (gridAt sampleEngine 0 0 fun j => !(j == 4)).length
        rw [gridAt_length]
        decide, h4⟩)
  refine ⟨?_, h4, hdead, hc, ?_, ?_, ?_⟩
  · show aliveCount (gridAt sampleEngine 0 0 fun j => !(j == 4)) = 49
    rw [aliveCount_gridAt]
    decide
  · rw [hu]
    rfl
  · rw [hu]
    show aliveCount bottomLeftDead._bombs = 0
    unfold aliveCount
    rw [List.countP_eq_zero]
    intro b hb
    rw [hdead b hb]
    decide
  · rw [hu]
    rfl

/-- C20, evaluated at the failing input `deadEnemyOnPlayer` (state PLAY, player with
health 3 at (320, 464); enemy 24 at (320, 452) is dead, its neighbours 19 and 29 in
the bottom row are alive, 32 pixels to either side of it, and the stored alive box is
the box `getBoundingBoxOf` returns). No alive enemy is within radius 16 of the
player, yet the collision step of `updateEnemies` lowers the player's health to 2:
the dead enemy 24 passes the radius test. The number of alive enemies stays 2. -/
theorem dead_enemy_damages_player :
    deadEnemyOnPlayer._gamestate = GAMESTATE.PLAY
      ∧ deadEnemyOnPlayer._player._health = 3
      ∧ deadEnemyOnPlayer._enemyBbox
          = getBoundingBoxOf sampleEngine deadEnemyOnPlayer._enemies
      ∧ (deadEnemyOnPlayer._enemies.getD 24 {}).isAlive = false
      ∧ aliveCount deadEnemyOnPlayer._enemies = 2
      ∧ (∀ j, j < Config.ENEMY_COUNT →
          (deadEnemyOnPlayer._enemies.getD j {}).isAlive = true →
          (deadEnemyOnPlayer._enemies.getD j {}).intersectsWith deadEnemyOnPlayer._player
            (halfSprite sampleEngine) = false)
      ∧ (GameEngine.enemyPlayerCollision sampleEngine deadEnemyOnPlayer).1._player._health = 2
      ∧ aliveCount (GameEngine.enemyPlayerCollision sampleEngine deadEnemyOnPlayer).1._enemies
          = 2
      ∧ (GameEngine.enemyPlayerCollision sampleEngine deadEnemyOnPlayer).1._gamestate
          = GAMESTATE.PLAY := by
  refine ⟨rfl, rfl, ?_, ?_, ?_, ?_, ?_, ?_, ?_⟩
  · show _ = getBoundingBoxOf sampleEngine
      (gridAt sampleEngine 176 280 fun j => j == 19 || j == 29)
    rw [getBoundingBoxOf_neighbours]
    rfl
  · show ((gridAt sampleEngine 176 280 fun j => j == 19 || j == 29).getD 24 {}).isAlive = false
    rw [gridAt_getD sampleEngine 176 280 _ 24 (by decide)]
    rfl
  · show aliveCount (gridAt sampleEngine 176 280 fun j => j == 19 || j == 29) = 2
    rw [aliveCount_gridAt]
    decide
  · intro j hj hal
    have hal2 : ((gridAt sampleEngine 176 280 fun j => j == 19 || j == 29).getD j {}).isAlive
        = true := hal
    show ((gridAt sampleEngine 176 280 fun j => j == 19 || j == 29).getD j {}).intersectsWith
      { _pos := { _x := 320, _y := 464 }, _health := 3 } (halfSprite sampleEngine) = false
    rw [gridAt_getD sampleEngine 176 280 _ j hj] at hal2 ⊢
    have hal3 : (j == 19 || j == 29) = true :=
      (gridAt_isAlive sampleEngine 176 280 (fun j => j == 19 || j == 29) j).symm.trans hal2
    have hj2 : j = 19 ∨ j = 29 := by simpa using hal3
    rcases hj2 with rfl | rfl <;>
      (rw [initEnemy_sample_pos]
       norm_num [GameObject.intersectsWith, halfSprite, sampleEngine])
  · rw [enemyPlayerCollision_deadEnemyOnPlayer]
  · rw [enemyPlayerCollision_deadEnemyOnPlayer]
    show aliveCount (gridAt sampleEngine 176 280
      fun j => (j == 19 || j == 29) && !(j == 24)) = 2
    rw [aliveCount_gridAt]
    decide
  · rw [enemyPlayerCollision_deadEnemyOnPlayer]
    rfl

/-- C22, evaluated at the failing input `enemyAndBombOnPlayer` (state PLAY, player at
(320, 464) with health 1, enemy 24 alive at (320, 452) and the bomb it dropped alive
at the same place): in one call of `update` the enemy collision takes the health to 0
and sets GAMEOVER, then `updateBombs` still runs and the bomb takes it to -1. -/
theorem player_health_negative (dis : Nat → Nat) :
    enemyAndBombOnPlayer._gamestate = GAMESTATE.PLAY
      ∧ enemyAndBombOnPlayer._player._health = 1
      ∧ (GameEngine.updateEnemies sampleEngine enemyAndBombOnPlayer)._gamestate
          = GAMESTATE.GAMEOVER
      ∧ (GameEngine.updateEnemies sampleEngine enemyAndBombOnPlayer)._player._health = 0
      ∧ (GameEngine.update sampleEngine dis enemyAndBombOnPlayer)._gamestate
          = GAMESTATE.GAMEOVER
      ∧ (GameEngine.update sampleEngine dis enemyAndBombOnPlayer)._player._health = -1 := by
  have hu := update_play sampleEngine dis enemyAndBombOnPlayer rfl
  refine ⟨rfl, rfl, ?_, ?_, ?_, ?_⟩
  · rw [updateEnemies_enemyAndBombOnPlayer]
  · rw [updateEnemies_enemyAndBombOnPlayer]
  · rw [hu, updateBombs_enemyAndBombOnPlayer]
    rfl
  · rw [hu, updateBombs_enemyAndBombOnPlayer]
    rfl

/-- C23, evaluated at the failing input `columnNineLeftOfCanvas` (state PLAY moving
left, only enemies 45 and 49 alive, both at x = -4; the stored alive box
(-20, 38, 12, 198) lies inside the original box (-308, 38, 12, 198); a rocket at
(0, 190)). The rocket destroys enemy 49, the alive box is recomputed from enemy 45,
and after the call its right edge is FLT_MIN + 17, beyond the right edge 13 of the
original box: the alive box is not contained in the original box. -/
theorem alive_box_leaves_original_box :
    columnNineLeftOfCanvas._gamestate = GAMESTATE.PLAY
      ∧ (columnNineLeftOfCanvas._enemyBboxOriginal.left ≤ columnNineLeftOfCanvas._enemyBbox.left
        ∧ columnNineLeftOfCanvas._enemyBbox.right ≤ columnNineLeftOfCanvas._enemyBboxOriginal.right
        ∧ columnNineLeftOfCanvas._enemyBboxOriginal.top ≤ columnNineLeftOfCanvas._enemyBbox.top
        ∧ columnNineLeftOfCanvas._enemyBbox.bottom
            ≤ columnNineLeftOfCanvas._enemyBboxOriginal.bottom)
      ∧ (GameEngine.updateEnemies sampleEngine columnNineLeftOfCanvas)._gamestate
          = GAMESTATE.PLAY
      ∧ (GameEngine.updateEnemies sampleEngine columnNineLeftOfCanvas)._enemyBbox
          = { left := -19, top := 48, right := FLT_MIN + 17, bottom := 80 }
      ∧ (GameEngine.updateEnemies sampleEngine columnNineLeftOfCanvas)._enemyBboxOriginal
          = { left := -307, top := 48, right := 13, bottom := 208 }
      ∧ (GameEngine.updateEnemies sampleEngine columnNineLeftOfCanvas)._enemyBboxOriginal.right
          < (GameEngine.updateEnemies sampleEngine columnNineLeftOfCanvas)._enemyBbox.right := by
  have ht : GameEngine.travelStep sampleEngine
      { columnNineLeftOfCanvas with
        _rockets := (GameObject.destroy { _pos := { _x := 0, _y := 190 }, _health := 1 })
          :: List.replicate 9 {}
        _enemies := gridAt sampleEngine (-308) 10 fun j => j == 45
        _hscore := columnNineLeftOfCanvas._hscore.addScore
        _enemyBbox := { left := -20, top := 38, right := FLT_MIN + 16, bottom := 70 } }
      = ({ _x := 1, _y := 10 }, ENEMY_DIRECTION.RIGHT) := by
    norm_num [GameEngine.travelStep, columnNineLeftOfCanvas]
    intro h
    cases h
  have hbox : (GameEngine.updateEnemies sampleEngine columnNineLeftOfCanvas)._enemyBbox
      = { left := -19, top := 48, right := FLT_MIN + 17, bottom := 80 } := by
    rw [updateEnemies_columnNineLeftOfCanvas]
    show BoundingBox.moveBy _ (GameEngine.travelStep sampleEngine _).1 = _
    rw [ht]
    norm_num [BoundingBox.moveBy]
    ring
  have horig : (GameEngine.updateEnemies sampleEngine columnNineLeftOfCanvas)._enemyBboxOriginal
      = { left := -307, top := 48, right := 13, bottom := 208 } := by
    rw [updateEnemies_columnNineLeftOfCanvas]
    show BoundingBox.moveBy _ (GameEngine.travelStep sampleEngine _).1 = _
    rw [ht]
    norm_num [BoundingBox.moveBy, columnNineLeftOfCanvas]
  refine ⟨rfl, ?_, ?_, hbox, horig, ?_⟩
  · norm_num [columnNineLeftOfCanvas]
  · rw [updateEnemies_columnNineLeftOfCanvas]
    rfl
  · rw [hbox, horig]
    show (13 : ℚ) < FLT_MIN + 17
    have := FLT_MIN_pos
    linarith

/-- C24: the target-selection walk of `updateBombs` with drawn index `k` makes exactly
`k + 1` iterations; with ENEMY_COUNT enemies and `k < ENEMY_COUNT` these are at most
ENEMY_COUNT and the iterator never reaches the end of the array; one call of
`updateBombs` keeps the size of the bomb pool and turns at most one dead slot into an
alive bomb, and none when the cooldown has not elapsed at the start of the call. -/
theorem bomb_walk_and_spawn_rate (E : Engine) (dis : Nat → Nat) (s : GameEngine)
    (enemies : List GameObject) (now : ℚ) (k : Nat) (w : GameEngine.BombWalk) :
    (GameEngine.bombWalk enemies now k 0 w).steps = w.steps + (k + 1)
      ∧ (enemies.length = Config.ENEMY_COUNT → k < Config.ENEMY_COUNT →
          (GameEngine.bombWalk enemies now k 0 w).steps ≤ w.steps + Config.ENEMY_COUNT
            ∧ bombWalkWraps enemies k 0 = false)
      ∧ (GameEngine.updateBombs E dis s)._bombs.length = s._bombs.length
      ∧ spawnedCount s._bombs (GameEngine.updateBombs E dis s)._bombs ≤ 1
      ∧ (s._currentTimestamp - s._timestampOfLastBomb < Config.TIME_BETWEEN_BOMBS →
          spawnedCount s._bombs (GameEngine.updateBombs E dis s)._bombs = 0) := by
  obtain ⟨X, hX, hlen, h1, h0⟩ := updateBombsLoop_spawned E dis s._bombs [] s
  have hX2 : (GameEngine.updateBombs E dis s)._bombs = X := by
    unfold GameEngine.updateBombs
    rw [hX]
    rfl
  refine ⟨?_, ?_, ?_, ?_, ?_⟩
  · rw [bombWalk_steps]
    omega
  · intro hn hk
    refine ⟨?_, bombWalkWraps_inside enemies k 0 (by omega)⟩
    rw [bombWalk_steps]
    omega
  · rw [hX2, hlen]
  · rw [hX2]
    exact h1
  · rw [hX2]
    exact h0

/-- Witness for C24: with 50 enemies and the largest index 49 the walk does not wrap. -/
theorem bomb_walk_and_spawn_rate_witness :
    bombWalkWraps (List.replicate 50 {}) 49 0 = false :=
  ((bomb_walk_and_spawn_rate sampleEngine (fun _ => 0) freshPlay (List.replicate 50 {}) 7 49
    { bomb := {}, timestampOfLastBomb := 0 }).2.1 (by simp) (by decide)).2

end SpaceInvaders
